import Mathlib

/-!
# Actual-LRP lifecycle of `bbs/lrp_bbs/lrp_lifecycle.go`

A shallow embedding of the lifecycle engine (`CreateActualLRP`,
`ClaimActualLRP`, `StartActualLRP`, `RemoveActualLRP`, `RetireActualLRPs`)
as state-passing functions over a versioned key-value store, together with
the record of every outbound call an operation makes (store round-trips,
auctioneer lookups and requests, stop requests).

Go `int` and `int64` values are `Int`, `uint`/`uint64` values are `Nat`; the
one conversion in the file, `uint(index)`, is written with its wrap-around.
Logging (`lager`) has no effect on results and is left out.
-/

namespace LRPLifecycle

/-! ## Data model (package `models`) -/

/-- Modelled from the spec: the `models.ActualLRPState` type declaration is
not part of the source at hand; the spec gives the three states. -/
inductive ActualLRPState where
  | Unclaimed
  | Claimed
  | Running
  deriving DecidableEq

/-- Modelled from the spec: the `models.ActualLRPKey` type declaration;
fields as used by `NewActualLRPKey(processGuid, index, domain)`. -/
structure ActualLRPKey where
  ProcessGuid : String
  Index : Int
  Domain : String
  deriving DecidableEq

/-- Modelled from the spec: the `models.ActualLRPContainerKey` type
declaration; the zero value (both strings empty) means "not yet placed". -/
structure ActualLRPContainerKey where
  InstanceGuid : String
  CellID : String
  deriving DecidableEq

/-- The `models.PortMapping` struct, with the two fields the repository's
tests construct it from. -/
structure PortMapping where
  ContainerPort : Nat
  HostPort : Nat
  deriving DecidableEq

/-- Modelled from the spec: the `models.ActualLRPNetInfo` type declaration.
`Ports` is a Go slice: `none` is the nil slice and `some []` the empty
non-nil slice, which `reflect.DeepEqual` tells apart. -/
structure ActualLRPNetInfo where
  Address : String
  Ports : Option (List PortMapping)
  deriving DecidableEq

/-- Modelled from the spec: the `models.ActualLRP` type declaration, the
aggregate record with its three embedded structs, `State` and `Since`. -/
structure ActualLRP where
  ActualLRPKey : ActualLRPKey
  ActualLRPContainerKey : ActualLRPContainerKey
  ActualLRPNetInfo : ActualLRPNetInfo
  State : ActualLRPState
  Since : Int
  deriving DecidableEq

/-- The `models.DesiredLRP` struct, with the scalar fields the repository's
tests show; the lifecycle reads `ProcessGuid`, `Domain` and `Instances`. -/
structure DesiredLRP where
  Domain : String
  ProcessGuid : String
  Instances : Int
  Stack : String
  RootFSPath : String
  MemoryMB : Int
  DiskMB : Int
  CPUWeight : Nat
  Routes : List String
  Ports : List PortMapping
  deriving DecidableEq

/-- The `models.LRPStartRequest` struct as built by `CreateActualLRP`. -/
structure LRPStartRequest where
  DesiredLRP : DesiredLRP
  Indices : List Nat
  deriving DecidableEq

/-- Constructor `models.NewActualLRPKey`. -/
def NewActualLRPKey (processGuid : String) (index : Int) (domain : String) : ActualLRPKey :=
  { ProcessGuid := processGuid, Index := index, Domain := domain }

/-- Constructor `models.NewActualLRPNetInfo`. -/
def NewActualLRPNetInfo (address : String) (ports : Option (List PortMapping)) : ActualLRPNetInfo :=
  { Address := address, Ports := ports }

/-- The zero value of `models.ActualLRPContainerKey`. -/
def emptyContainerKey : ActualLRPContainerKey :=
  { InstanceGuid := "", CellID := "" }

/-- The zero value of `models.ActualLRPNetInfo`. -/
def emptyNetInfo : ActualLRPNetInfo :=
  { Address := "", Ports := none }

/-- The Go conversion `uint(index)` of a 64-bit `int`. -/
def uint (index : Int) : Nat :=
  (index % 2 ^ 64).toNat

/-! ## Errors -/

/-- The errors the lifecycle returns. From the source: its own
`actualLRPIndexTooLargeError` and the `bbserrors` values it names
(`ErrStoreResourceNotFound`, `ErrStoreComparisonFailed`,
`ErrActualLRPCannotBeClaimed`, `ErrActualLRPCannotBeStarted`). From the
spec's contracts: the store's already-exists outcome, the decoding error of
`models.FromJSON`, the refusal of a record by `models.ToJSON`, a failed
auctioneer lookup and transport errors of the auctioneer and cell clients. -/
inductive BBSError where
  | actualLRPIndexTooLargeError (actualIndex : Int) (desiredInstances : Int)
  | ErrStoreResourceNotFound
  | ErrStoreResourceExists
  | ErrStoreComparisonFailed
  | ErrActualLRPCannotBeClaimed
  | ErrActualLRPCannotBeStarted
  | ErrInvalidJSON
  | ErrInvalidRecord
  | ErrServiceUnavailable
  | ErrTransport (code : Nat)
  deriving DecidableEq

/-- Constructor `NewActualLRPIndexTooLargeError`. -/
def NewActualLRPIndexTooLargeError (actualIndex desiredInstances : Int) : BBSError :=
  BBSError.actualLRPIndexTooLargeError actualIndex desiredInstances

/-! ## Encoding and schema path -/

/-- Modelled from the spec: the stored value, "a byte encoding of the
`ActualLRP` record". A payload is identified by what it decodes to: either
the encoding of a record, or bytes that are no record at all. -/
inductive Bytes where
  | json (lrp : ActualLRP)
  | raw (data : List Nat)
  deriving DecidableEq

/-- Modelled from the spec: `models.ToJSON` is not part of the source at
hand; the spec describes the value as the byte encoding of the record. -/
def ToJSON (lrp : ActualLRP) : Except BBSError Bytes :=
  Except.ok (Bytes.json lrp)

/-- Modelled from the spec: `models.FromJSON` is not part of the source at
hand; it recovers the record from its encoding and fails on other bytes. -/
def FromJSON (value : Bytes) : Except BBSError ActualLRP :=
  match value with
  | Bytes.json lrp => Except.ok lrp
  | Bytes.raw _ => Except.error BBSError.ErrInvalidJSON

/-- Modelled from the spec: `shared.ActualLRPSchemaPath` is not part of the
source at hand; the record path is "a deterministic function of
`(ProcessGuid, Index)`". -/
def ActualLRPSchemaPath (processGuid : String) (index : Int) : String :=
  "/v1/actual/" ++ processGuid ++ "/" ++ toString index

/-! ## The versioned store (`storeadapter`) -/

/-- The fields of `storeadapter.StoreNode` the lifecycle sets and reads:
`Key`, `Value` and the version `Index`. -/
structure StoreNode where
  Key : String
  Value : Bytes
  Index : Nat
  deriving DecidableEq

/-- Modelled from the spec: the versioned key-value store. `nodes` maps a
path to the node stored there; `index` is the store-wide, monotonically
increasing counter from which every write takes its version, so no stored
version is ahead of it (`versioned`). -/
structure Store where
  nodes : String → Option StoreNode
  index : Nat
  versioned : ∀ k n, nodes k = some n → n.Index ≤ index

/-- The store with no record. -/
def Store.empty : Store :=
  { nodes := fun _ => none, index := 0, versioned := fun _ _ h => nomatch h }

/-- Modelled from the spec: `Get(path) -> (value bytes, version) | NotFound`. -/
def Store.Get (s : Store) (key : String) : Except BBSError StoreNode :=
  match s.nodes key with
  | none => Except.error BBSError.ErrStoreResourceNotFound
  | some node => Except.ok node

/-- Modelled from the spec: a store write, which stamps the node with the
next value of the store-wide counter. -/
def Store.put (s : Store) (key : String) (value : Bytes) : Store :=
  { nodes := fun k =>
      if k = key then some { Key := key, Value := value, Index := s.index + 1 } else s.nodes k,
    index := s.index + 1,
    versioned := by
      intro k n h
      by_cases hk : k = key
      · simp only [if_pos hk] at h
        cases h
        exact Nat.le_refl _
      · simp only [if_neg hk] at h
        exact Nat.le_succ_of_le (s.versioned k n h) }

/-- Modelled from the spec: a store delete; the store-wide counter
advances. -/
def Store.erase (s : Store) (key : String) : Store :=
  { nodes := fun k => if k = key then none else s.nodes k,
    index := s.index + 1,
    versioned := by
      intro k n h
      by_cases hk : k = key
      · simp only [if_pos hk] at h
        cases h
      · simp only [if_neg hk] at h
        exact Nat.le_succ_of_le (s.versioned k n h) }

/-- Modelled from the spec: `Create(path, value) -> () | AlreadyExists`. -/
def Store.Create (s : Store) (node : StoreNode) : Except BBSError Store :=
  match s.nodes node.Key with
  | some _ => Except.error BBSError.ErrStoreResourceExists
  | none => Except.ok (s.put node.Key node.Value)

/-- Modelled from the spec:
`CompareAndSwap(path, version, newValue) -> () | VersionMismatch | NotFound`. -/
def Store.CompareAndSwapByIndex (s : Store) (index : Nat) (node : StoreNode) : Except BBSError Store :=
  match s.nodes node.Key with
  | none => Except.error BBSError.ErrStoreResourceNotFound
  | some old =>
    if old.Index = index then Except.ok (s.put node.Key node.Value)
    else Except.error BBSError.ErrStoreComparisonFailed

/-- Modelled from the spec:
`CompareAndDelete(path, version) -> () | VersionMismatch | NotFound`. -/
def Store.CompareAndDeleteByIndex (s : Store) (node : StoreNode) : Except BBSError Store :=
  match s.nodes node.Key with
  | none => Except.error BBSError.ErrStoreResourceNotFound
  | some old =>
    if old.Index = node.Index then Except.ok (s.erase node.Key)
    else Except.error BBSError.ErrStoreComparisonFailed

/-! ## The engine and its outbound calls -/

/-- One outbound call of the engine, in the order made. -/
inductive Call where
  | Get (key : String)
  | Create (node : StoreNode)
  | CompareAndSwapByIndex (index : Nat) (node : StoreNode)
  | CompareAndDeleteByIndex (node : StoreNode)
  | AuctioneerAddress
  | RequestLRPAuctions (address : String) (lrpStarts : List LRPStartRequest)
  | RequestStopLRPInstance (key : ActualLRPKey) (containerKey : ActualLRPContainerKey)
  deriving DecidableEq

/-- Whether a call writes to the store. -/
def Call.isWrite : Call → Bool
  | Call.Create _ => true
  | Call.CompareAndSwapByIndex _ _ => true
  | Call.CompareAndDeleteByIndex _ => true
  | _ => false

/-- What an operation runs against: the store and the calls made so far. -/
structure World where
  store : Store
  calls : List Call

/-- The collaborators injected into `LRPBBS` other than the store: the
clock reading `timeProvider.Now().UnixNano()`, the outcome of
`services.AuctioneerAddress()`, of `auctioneerClient.RequestLRPAuctions` and
of `RequestStopLRPInstance`. -/
structure LRPBBS where
  timeProvider : Int
  services : Except BBSError String
  auctioneerClient : String → List LRPStartRequest → Except BBSError Unit
  cellClient : ActualLRPKey → ActualLRPContainerKey → Except BBSError Unit

/-- The type of the transition-legality predicate `lrp.AllowsTransitionTo`. -/
abbrev Legality := ActualLRP → ActualLRPKey → ActualLRPContainerKey → ActualLRPState → Bool

/-- Modelled from the spec: `models.ActualLRP.AllowsTransitionTo` is not
part of the source at hand. Section 4.1: a transition to Claimed is legal
only from Unclaimed; a transition to Running is legal from Claimed with a
matching `ActualLRPKey`; any other combination is illegal. -/
def AllowsTransitionTo : Legality :=
  fun lrp key _containerKey newState =>
    match newState with
    | ActualLRPState.Claimed => decide (lrp.State = ActualLRPState.Unclaimed)
    | ActualLRPState.Running =>
      decide (lrp.State = ActualLRPState.Claimed) && decide (lrp.ActualLRPKey = key)
    | ActualLRPState.Unclaimed => false

/-- An operation: from a world to a result and the world after. -/
abbrev Op (α : Type) := World → Except BBSError α × World

/-- Append a call to the record. -/
def World.record (w : World) (c : Call) : World :=
  { w with calls := w.calls ++ [c] }

/-- The call `bbs.store.Get`. -/
def storeGet (key : String) : Op StoreNode :=
  fun w => (w.store.Get key, w.record (Call.Get key))

/-- The call `bbs.store.Create`. -/
def storeCreate (node : StoreNode) : Op Unit :=
  fun w =>
    match w.store.Create node with
    | Except.error err => (Except.error err, w.record (Call.Create node))
    | Except.ok s => (Except.ok (), { store := s, calls := w.calls ++ [Call.Create node] })

/-- The call `bbs.store.CompareAndSwapByIndex`. -/
def storeCompareAndSwapByIndex (index : Nat) (node : StoreNode) : Op Unit :=
  fun w =>
    match w.store.CompareAndSwapByIndex index node with
    | Except.error err => (Except.error err, w.record (Call.CompareAndSwapByIndex index node))
    | Except.ok s =>
      (Except.ok (), { store := s, calls := w.calls ++ [Call.CompareAndSwapByIndex index node] })

/-- The call `bbs.store.CompareAndDeleteByIndex`. -/
def storeCompareAndDeleteByIndex (node : StoreNode) : Op Unit :=
  fun w =>
    match w.store.CompareAndDeleteByIndex node with
    | Except.error err => (Except.error err, w.record (Call.CompareAndDeleteByIndex node))
    | Except.ok s =>
      (Except.ok (), { store := s, calls := w.calls ++ [Call.CompareAndDeleteByIndex node] })

/-- Modelled from the spec: `RequestStopLRPInstance` is not part of the
source at hand; "a network call to the cell, not a store mutation". -/
def RequestStopLRPInstance (bbs : LRPBBS) (key : ActualLRPKey)
    (containerKey : ActualLRPContainerKey) : Op Unit :=
  fun w => (bbs.cellClient key containerKey, w.record (Call.RequestStopLRPInstance key containerKey))

/-! ## `lrp_lifecycle.go` -/

/-- Go `getActualLRP`: read the node at the schema path and decode it. -/
def getActualLRP (processGuid : String) (index : Int) : Op (ActualLRP × Nat) :=
  fun w =>
    match storeGet (ActualLRPSchemaPath processGuid index) w with
    | (Except.error err, w1) => (Except.error err, w1)
    | (Except.ok node, w1) =>
      match FromJSON node.Value with
      | Except.error err => (Except.error err, w1)
      | Except.ok lrp => (Except.ok (lrp, node.Index), w1)

/-- Go `createRawActualLRP`: encode the record and create it at its path. -/
def createRawActualLRP (lrp : ActualLRP) : Op Unit :=
  fun w =>
    match ToJSON lrp with
    | Except.error err => (Except.error err, w)
    | Except.ok value =>
      storeCreate
        { Key := ActualLRPSchemaPath lrp.ActualLRPKey.ProcessGuid lrp.ActualLRPKey.Index,
          Value := value, Index := 0 } w

/-- Go `createActualLRP`: the index guard, then the Unclaimed record. -/
def createActualLRP (bbs : LRPBBS) (desiredLRP : DesiredLRP) (index : Int) : Op Unit :=
  fun w =>
    if index ≥ desiredLRP.Instances then
      (Except.error (NewActualLRPIndexTooLargeError index desiredLRP.Instances), w)
    else
      let actualLRP : ActualLRP :=
        { ActualLRPKey := NewActualLRPKey desiredLRP.ProcessGuid index desiredLRP.Domain,
          ActualLRPContainerKey := emptyContainerKey,
          ActualLRPNetInfo := emptyNetInfo,
          State := ActualLRPState.Unclaimed,
          Since := bbs.timeProvider }
      match createRawActualLRP actualLRP w with
      | (Except.error err, w1) => (Except.error err, w1)
      | (Except.ok _, w1) => (Except.ok (), w1)

/-- Go `requestLRPAuctions`: look the auctioneer up, then send the request. -/
def requestLRPAuctions (bbs : LRPBBS) (lrpStarts : List LRPStartRequest) : Op Unit :=
  fun w =>
    match bbs.services with
    | Except.error err => (Except.error err, w.record Call.AuctioneerAddress)
    | Except.ok auctioneerAddress =>
      (bbs.auctioneerClient auctioneerAddress lrpStarts,
        (w.record Call.AuctioneerAddress).record
          (Call.RequestLRPAuctions auctioneerAddress lrpStarts))

/-- Go `CreateActualLRP`: create the record, then request its auction and
drop the outcome of that request. -/
def CreateActualLRP (bbs : LRPBBS) (desiredLRP : DesiredLRP) (index : Int) : Op Unit :=
  fun w =>
    match createActualLRP bbs desiredLRP index w with
    | (Except.error err, w1) => (Except.error err, w1)
    | (Except.ok _, w1) =>
      let lrpStart : LRPStartRequest := { DesiredLRP := desiredLRP, Indices := [uint index] }
      match requestLRPAuctions bbs [lrpStart] w1 with
      | (_, w2) => (Except.ok (), w2)

/-- Go `ClaimActualLRP`, with the legality predicate as `legal`. -/
def ClaimActualLRP (legal : Legality) (bbs : LRPBBS) (key : ActualLRPKey)
    (containerKey : ActualLRPContainerKey) : Op Unit :=
  fun w =>
    match getActualLRP key.ProcessGuid key.Index w with
    | (Except.error err, w1) =>
      if err = BBSError.ErrStoreResourceNotFound then
        (Except.error BBSError.ErrActualLRPCannotBeClaimed, w1)
      else (Except.error err, w1)
    | (Except.ok (lrp, index), w1) =>
      if lrp.ActualLRPKey = key ∧ lrp.ActualLRPContainerKey = containerKey ∧
          lrp.State = ActualLRPState.Claimed then
        (Except.ok (), w1)
      else if legal lrp key containerKey ActualLRPState.Claimed = false then
        (Except.error BBSError.ErrActualLRPCannotBeClaimed, w1)
      else
        let lrp : ActualLRP :=
          { lrp with
            Since := bbs.timeProvider,
            State := ActualLRPState.Claimed,
            ActualLRPContainerKey := containerKey,
            ActualLRPNetInfo := NewActualLRPNetInfo "" none }
        match ToJSON lrp with
        | Except.error err => (Except.error err, w1)
        | Except.ok value =>
          match storeCompareAndSwapByIndex index
              { Key := ActualLRPSchemaPath lrp.ActualLRPKey.ProcessGuid lrp.ActualLRPKey.Index,
                Value := value, Index := 0 } w1 with
          | (Except.error err, w2) => (Except.error err, w2)
          | (Except.ok _, w2) => (Except.ok (), w2)

/-- Go `newRunningActualLRP`. -/
def newRunningActualLRP (bbs : LRPBBS) (key : ActualLRPKey)
    (containerKey : ActualLRPContainerKey) (netInfo : ActualLRPNetInfo) : ActualLRP :=
  { ActualLRPKey := key,
    ActualLRPContainerKey := containerKey,
    ActualLRPNetInfo := netInfo,
    Since := bbs.timeProvider,
    State := ActualLRPState.Running }

/-- Go `StartActualLRP`, with the legality predicate as `legal`. -/
def StartActualLRP (legal : Legality) (bbs : LRPBBS) (key : ActualLRPKey)
    (containerKey : ActualLRPContainerKey) (netInfo : ActualLRPNetInfo) : Op Unit :=
  fun w =>
    match getActualLRP key.ProcessGuid key.Index w with
    | (Except.error err, w1) =>
      if err = BBSError.ErrStoreResourceNotFound then
        createRawActualLRP (newRunningActualLRP bbs key containerKey netInfo) w1
      else (Except.error err, w1)
    | (Except.ok (lrp, index), w1) =>
      if lrp.ActualLRPKey = key ∧ lrp.ActualLRPContainerKey = containerKey ∧
          lrp.ActualLRPNetInfo.Address = netInfo.Address ∧
          lrp.ActualLRPNetInfo.Ports = netInfo.Ports ∧
          lrp.State = ActualLRPState.Running then
        (Except.ok (), w1)
      else if legal lrp key containerKey ActualLRPState.Running = false then
        (Except.error BBSError.ErrActualLRPCannotBeStarted, w1)
      else
        let lrp : ActualLRP :=
          { lrp with
            State := ActualLRPState.Running,
            Since := bbs.timeProvider,
            ActualLRPContainerKey := containerKey,
            ActualLRPNetInfo := netInfo }
        match ToJSON lrp with
        | Except.error err => (Except.error err, w1)
        | Except.ok value =>
          match storeCompareAndSwapByIndex index
              { Key := ActualLRPSchemaPath lrp.ActualLRPKey.ProcessGuid lrp.ActualLRPKey.Index,
                Value := value, Index := 0 } w1 with
          | (Except.error err, w2) => (Except.error err, w2)
          | (Except.ok _, w2) => (Except.ok (), w2)

/-- Go `RemoveActualLRP`: ownership check, then compare-and-delete. The node
passed to the delete has no `Value` (Go's nil), written `Bytes.raw []`. -/
def RemoveActualLRP (key : ActualLRPKey) (containerKey : ActualLRPContainerKey) : Op Unit :=
  fun w =>
    match getActualLRP key.ProcessGuid key.Index w with
    | (Except.error err, w1) => (Except.error err, w1)
    | (Except.ok (lrp, storeIndex), w1) =>
      if lrp.ActualLRPKey ≠ key ∨ lrp.ActualLRPContainerKey ≠ containerKey then
        (Except.error BBSError.ErrStoreComparisonFailed, w1)
      else
        match storeCompareAndDeleteByIndex
            { Key := ActualLRPSchemaPath lrp.ActualLRPKey.ProcessGuid lrp.ActualLRPKey.Index,
              Value := Bytes.raw [], Index := storeIndex } w1 with
        | (Except.error err, w2) => (Except.error err, w2)
        | (Except.ok _, w2) => (Except.ok (), w2)

/-- Go `retireActualLRP`: remove an Unclaimed record, stop any other. -/
def retireActualLRP (bbs : LRPBBS) (lrp : ActualLRP) : Op Unit :=
  fun w =>
    if lrp.State = ActualLRPState.Unclaimed then
      RemoveActualLRP lrp.ActualLRPKey lrp.ActualLRPContainerKey w
    else
      RequestStopLRPInstance bbs lrp.ActualLRPKey lrp.ActualLRPContainerKey w

/-! ## Creation with the encoder as a parameter

`createRawActualLRP` returns the error of `models.ToJSON` before any store
call (l.77-81). Which records the encoder refuses is not in the source at
hand, so the three creation functions are given once more with the encoder
as a parameter; at `ToJSON` they are the functions above. -/

/-- The type of the encoder `models.ToJSON`. -/
abbrev Encoder := ActualLRP → Except BBSError Bytes

/-- Go `createRawActualLRP`, with the encoder as `toJSON`. -/
def createRawActualLRPWith (toJSON : Encoder) (lrp : ActualLRP) : Op Unit :=
  fun w =>
    match toJSON lrp with
    | Except.error err => (Except.error err, w)
    | Except.ok value =>
      storeCreate
        { Key := ActualLRPSchemaPath lrp.ActualLRPKey.ProcessGuid lrp.ActualLRPKey.Index,
          Value := value, Index := 0 } w

/-- Go `createActualLRP`, with the encoder as `toJSON`. -/
def createActualLRPWith (toJSON : Encoder) (bbs : LRPBBS) (desiredLRP : DesiredLRP)
    (index : Int) : Op Unit :=
  fun w =>
    if index ≥ desiredLRP.Instances then
      (Except.error (NewActualLRPIndexTooLargeError index desiredLRP.Instances), w)
    else
      let actualLRP : ActualLRP :=
        { ActualLRPKey := NewActualLRPKey desiredLRP.ProcessGuid index desiredLRP.Domain,
          ActualLRPContainerKey := emptyContainerKey,
          ActualLRPNetInfo := emptyNetInfo,
          State := ActualLRPState.Unclaimed,
          Since := bbs.timeProvider }
      match createRawActualLRPWith toJSON actualLRP w with
      | (Except.error err, w1) => (Except.error err, w1)
      | (Except.ok _, w1) => (Except.ok (), w1)

/-- Go `CreateActualLRP`, with the encoder as `toJSON`. -/
def CreateActualLRPWith (toJSON : Encoder) (bbs : LRPBBS) (desiredLRP : DesiredLRP)
    (index : Int) : Op Unit :=
  fun w =>
    match createActualLRPWith toJSON bbs desiredLRP index w with
    | (Except.error err, w1) => (Except.error err, w1)
    | (Except.ok _, w1) =>
      let lrpStart : LRPStartRequest := { DesiredLRP := desiredLRP, Indices := [uint index] }
      match requestLRPAuctions bbs [lrpStart] w1 with
      | (_, w2) => (Except.ok (), w2)

/-- Modelled from the spec: `models.ToJSON` is not part of the source at
hand. Section 3: `0 <= Index` holds of a record "at creation time; violated
indices are rejected, never silently clamped". This encoder refuses a record
whose `Index` is negative and encodes every other record as `ToJSON` does. -/
def validatingToJSON : Encoder :=
  fun lrp =>
    if lrp.ActualLRPKey.Index < 0 then Except.error BBSError.ErrInvalidRecord
    else ToJSON lrp

/-! ## Operations at the grain of store round-trips

Concurrent callers interleave between the read and the conditional write of
an operation. The read halves below are the source functions up to their
write; `Pending.commit` is the write. -/

/-- Where an operation stands after its read round-trip: finished with a
result, or about to issue one conditional write. -/
inductive Pending where
  | done (result : Except BBSError Unit)
  | swap (index : Nat) (node : StoreNode)
  | delete (node : StoreNode)

/-- The write round-trip of an operation, and its return. -/
def Pending.commit : Pending → Op Unit
  | Pending.done result => fun w => (result, w)
  | Pending.swap index node => fun w =>
    match storeCompareAndSwapByIndex index node w with
    | (Except.error err, w2) => (Except.error err, w2)
    | (Except.ok _, w2) => (Except.ok (), w2)
  | Pending.delete node => fun w =>
    match storeCompareAndDeleteByIndex node w with
    | (Except.error err, w2) => (Except.error err, w2)
    | (Except.ok _, w2) => (Except.ok (), w2)

/-- Go `ClaimActualLRP` up to its `CompareAndSwapByIndex`. -/
def claimRead (legal : Legality) (bbs : LRPBBS) (key : ActualLRPKey)
    (containerKey : ActualLRPContainerKey) (w : World) : Pending × World :=
  match getActualLRP key.ProcessGuid key.Index w with
  | (Except.error err, w1) =>
    if err = BBSError.ErrStoreResourceNotFound then
      (Pending.done (Except.error BBSError.ErrActualLRPCannotBeClaimed), w1)
    else (Pending.done (Except.error err), w1)
  | (Except.ok (lrp, index), w1) =>
    if lrp.ActualLRPKey = key ∧ lrp.ActualLRPContainerKey = containerKey ∧
        lrp.State = ActualLRPState.Claimed then
      (Pending.done (Except.ok ()), w1)
    else if legal lrp key containerKey ActualLRPState.Claimed = false then
      (Pending.done (Except.error BBSError.ErrActualLRPCannotBeClaimed), w1)
    else
      let lrp : ActualLRP :=
        { lrp with
          Since := bbs.timeProvider,
          State := ActualLRPState.Claimed,
          ActualLRPContainerKey := containerKey,
          ActualLRPNetInfo := NewActualLRPNetInfo "" none }
      match ToJSON lrp with
      | Except.error err => (Pending.done (Except.error err), w1)
      | Except.ok value =>
        (Pending.swap index
          { Key := ActualLRPSchemaPath lrp.ActualLRPKey.ProcessGuid lrp.ActualLRPKey.Index,
            Value := value, Index := 0 }, w1)

/-- Go `RemoveActualLRP` up to its `CompareAndDeleteByIndex`. -/
def removeRead (key : ActualLRPKey) (containerKey : ActualLRPContainerKey)
    (w : World) : Pending × World :=
  match getActualLRP key.ProcessGuid key.Index w with
  | (Except.error err, w1) => (Pending.done (Except.error err), w1)
  | (Except.ok (lrp, storeIndex), w1) =>
    if lrp.ActualLRPKey ≠ key ∨ lrp.ActualLRPContainerKey ≠ containerKey then
      (Pending.done (Except.error BBSError.ErrStoreComparisonFailed), w1)
    else
      (Pending.delete
        { Key := ActualLRPSchemaPath lrp.ActualLRPKey.ProcessGuid lrp.ActualLRPKey.Index,
          Value := Bytes.raw [], Index := storeIndex }, w1)

/-- Two `ClaimActualLRP` calls, `a` and `b`, that both read before either
writes. `aReadsFirst` and `aWritesFirst` fix the order of the two reads and
of the two writes; the result is `a`'s return, `b`'s return and the world
after both returned. -/
def raceClaimActualLRP (legal : Legality)
    (bbsA : LRPBBS) (keyA : ActualLRPKey) (containerKeyA : ActualLRPContainerKey)
    (bbsB : LRPBBS) (keyB : ActualLRPKey) (containerKeyB : ActualLRPContainerKey)
    (aReadsFirst aWritesFirst : Bool) (w : World) :
    Except BBSError Unit × Except BBSError Unit × World :=
  let reads : Pending × Pending × World :=
    if aReadsFirst then
      let ra := claimRead legal bbsA keyA containerKeyA w
      let rb := claimRead legal bbsB keyB containerKeyB ra.2
      (ra.1, rb.1, rb.2)
    else
      let rb := claimRead legal bbsB keyB containerKeyB w
      let ra := claimRead legal bbsA keyA containerKeyA rb.2
      (ra.1, rb.1, ra.2)
  if aWritesFirst then
    let wa := reads.1.commit reads.2.2
    let wb := reads.2.1.commit wa.2
    (wa.1, wb.1, wb.2)
  else
    let wb := reads.2.1.commit reads.2.2
    let wa := reads.1.commit wb.2
    (wa.1, wb.1, wa.2)

/-! ## `RetireActualLRPs` and its work pool -/

/-- How far the pool has got with one submitted record. -/
inductive Phase where
  | submitted
  | removing (p : Pending)
  | finished (err : Except BBSError Unit)

/-- One closure submitted to the work pool: the record it retires and how
far it has got. -/
structure Task where
  lrp : ActualLRP
  phase : Phase

/-- One round-trip of a task running `retireActualLRP`: for an Unclaimed
record the call is in `RemoveActualLRP`, which takes two round-trips, the
read and the delete; for any other record the whole call is the single
round-trip of its stop request. -/
def Task.step (bbs : LRPBBS) (t : Task) (w : World) : Task × World :=
  match t.phase with
  | Phase.submitted =>
    if t.lrp.State = ActualLRPState.Unclaimed then
      let r := removeRead t.lrp.ActualLRPKey t.lrp.ActualLRPContainerKey w
      ({ t with phase := Phase.removing r.1 }, r.2)
    else
      let r := retireActualLRP bbs t.lrp w
      ({ t with phase := Phase.finished r.1 }, r.2)
  | Phase.removing p =>
    let r := p.commit w
    ({ t with phase := Phase.finished r.1 }, r.2)
  | Phase.finished _ => (t, w)

/-- Let the task at position `i` of the pool make one round-trip. -/
def stepAt (bbs : LRPBBS) : Nat → List Task → World → List Task × World
  | _, [], w => ([], w)
  | 0, t :: ts, w =>
    let r := t.step bbs w
    (r.1 :: ts, r.2)
  | i + 1, t :: ts, w =>
    let r := stepAt bbs i ts w
    (t :: r.1, r.2)

/-- Run the pool along a schedule: a list of task positions, each entry
one round-trip of that task. -/
def runSchedule (bbs : LRPBBS) : List Nat → List Task → World → List Task × World
  | [], tasks, w => (tasks, w)
  | i :: schedule, tasks, w =>
    let r := stepAt bbs i tasks w
    runSchedule bbs schedule r.1 r.2

/-- Run a task to its end without interruption: a task the pool has not
started yet is one whole call of `retireActualLRP`; a removal in flight
issues its delete; a task that returned stays as it is. -/
def Task.finish (bbs : LRPBBS) (t : Task) (w : World) : Task × World :=
  match t.phase with
  | Phase.submitted =>
    let r := retireActualLRP bbs t.lrp w
    ({ t with phase := Phase.finished r.1 }, r.2)
  | Phase.removing p =>
    let r := p.commit w
    ({ t with phase := Phase.finished r.1 }, r.2)
  | Phase.finished _ => (t, w)

/-- The join barrier `wg.Wait()`: every task still running is run to its
end. -/
def drain (bbs : LRPBBS) : List Task → World → List Task × World
  | [], w => ([], w)
  | t :: ts, w =>
    let r1 := t.finish bbs w
    let r := drain bbs ts r1.2
    (r1.1 :: r.1, r.2)

/-- Go `RetireActualLRPs`: one task per record, run concurrently by the work
pool, returning when all are done. The interleaving the pool happens to
produce is the parameter `schedule`; the call returns no error, only the
world it leaves (the per-record outcomes are logged and dropped). -/
def RetireActualLRPs (bbs : LRPBBS) (lrps : List ActualLRP) (schedule : List Nat)
    (w : World) : World :=
  let tasks := lrps.map (fun lrp => ({ lrp := lrp, phase := Phase.submitted } : Task))
  let r := runSchedule bbs schedule tasks w
  (drain bbs r.1 r.2).2

/-- Whether a call is a stop request. -/
def Call.isStop : Call → Bool
  | Call.RequestStopLRPInstance _ _ => true
  | _ => false

/-- The calls `requestLRPAuctions` makes: the address lookup and, when an
address came back, the request. -/
def auctionCalls (bbs : LRPBBS) (lrpStarts : List LRPStartRequest) : List Call :=
  match bbs.services with
  | Except.error _ => [Call.AuctioneerAddress]
  | Except.ok auctioneerAddress =>
    [Call.AuctioneerAddress, Call.RequestLRPAuctions auctioneerAddress lrpStarts]

/-- The Unclaimed record `createActualLRP` builds. -/
def newUnclaimedActualLRP (bbs : LRPBBS) (desiredLRP : DesiredLRP) (index : Int) : ActualLRP :=
  { ActualLRPKey := { ProcessGuid := desiredLRP.ProcessGuid, Index := index,
                      Domain := desiredLRP.Domain },
    ActualLRPContainerKey := emptyContainerKey,
    ActualLRPNetInfo := emptyNetInfo,
    State := ActualLRPState.Unclaimed,
    Since := bbs.timeProvider }

/-- The world after a read of `path` and a successful compare-and-swap of
`lrp` over version `index` there. -/
def World.afterSwap (w : World) (path : String) (index : Nat) (lrp : ActualLRP) : World :=
  { store := w.store.put path (Bytes.json lrp),
    calls := (w.calls ++ [Call.Get path]) ++
      [Call.CompareAndSwapByIndex index { Key := path, Value := Bytes.json lrp, Index := 0 }] }

/-- The world after a failed lookup of `path` and a successful create of
`lrp` there. -/
def World.afterCreate (w : World) (path : String) (lrp : ActualLRP) : World :=
  { store := w.store.put path (Bytes.json lrp),
    calls := (w.calls ++ [Call.Get path]) ++
      [Call.Create { Key := path, Value := Bytes.json lrp, Index := 0 }] }

/-! ## Bookkeeping for the work pool -/

/-- The path a record is stored at. -/
def schemaPathOf (lrp : ActualLRP) : String :=
  ActualLRPSchemaPath lrp.ActualLRPKey.ProcessGuid lrp.ActualLRPKey.Index

/-- The stop request `retireActualLRP` sends for a record. -/
def stopCallOf (lrp : ActualLRP) : Call :=
  Call.RequestStopLRPInstance lrp.ActualLRPKey lrp.ActualLRPContainerKey

/-- One stop request for each record of the list that is not Unclaimed. -/
def stopCalls (lrps : List ActualLRP) : List Call :=
  (lrps.filter (fun lrp => decide (lrp.State ≠ ActualLRPState.Unclaimed))).map stopCallOf

/-- Whether a task has sent its stop request. -/
def Task.stopIssued (t : Task) : Bool :=
  match t.phase with
  | Phase.submitted => false
  | _ => decide (t.lrp.State ≠ ActualLRPState.Unclaimed)

/-- The stop requests the tasks of a pool have sent so far. -/
def issuedStops (tasks : List Task) : List Call :=
  (tasks.filter Task.stopIssued).map (fun t => stopCallOf t.lrp)

/-- Whether a task has returned. -/
def Task.isFinished (t : Task) : Bool :=
  match t.phase with
  | Phase.finished _ => true
  | _ => false

/-- What a task knows, against the store `s0` the call started from and the
store `s` of the moment: a removal in flight holds either the not-found
outcome of its read (and the record is gone) or a delete of the version it
read in `s0`; a removal that returned has left no record behind. -/
def Task.Sound (s0 s : Store) (t : Task) : Prop :=
  match t.phase with
  | Phase.submitted => True
  | Phase.removing p =>
    t.lrp.State = ActualLRPState.Unclaimed ∧
      ((∃ r, p = Pending.done r ∧ s.nodes (schemaPathOf t.lrp) = none) ∨
        (∃ node, s0.nodes (schemaPathOf t.lrp) = some node ∧
          p = Pending.delete
            { Key := schemaPathOf t.lrp, Value := Bytes.raw [], Index := node.Index }))
  | Phase.finished _ =>
    t.lrp.State = ActualLRPState.Unclaimed → s.nodes (schemaPathOf t.lrp) = none

/-- The store `s` differs from `s0` only by Unclaimed records of the list
having been removed. -/
def ErasedOnly (lrps : List ActualLRP) (s0 s : Store) : Prop :=
  ∀ path, s.nodes path = s0.nodes path ∨
    (s.nodes path = none ∧
      ∃ lrp ∈ lrps, lrp.State = ActualLRPState.Unclaimed ∧ schemaPathOf lrp = path)

/-- Every store write among `made` is the delete of an Unclaimed record of
the list. -/
def WritesAreRemovals (lrps : List ActualLRP) (made : List Call) : Prop :=
  ∀ c ∈ made, c.isWrite = true →
    ∃ lrp ∈ lrps, lrp.State = ActualLRPState.Unclaimed ∧
      ∃ index, c = Call.CompareAndDeleteByIndex
        { Key := schemaPathOf lrp, Value := Bytes.raw [], Index := index }

/-- Every Unclaimed record of the list is the record stored at its path. -/
def StoredAsListed (lrps : List ActualLRP) (s : Store) : Prop :=
  ∀ lrp ∈ lrps, lrp.State = ActualLRPState.Unclaimed →
    ∃ node, s.nodes (schemaPathOf lrp) = some node ∧ FromJSON node.Value = Except.ok lrp

/-- The invariant of a running pool: the tasks are those of the list, the
store has only lost Unclaimed records of the list, every task is sound, and
the calls made so far are accounted for. -/
structure PoolInv (lrps : List ActualLRP) (w0 : World) (tasks : List Task) (w : World) :
    Prop where
  lrps_eq : tasks.map Task.lrp = lrps
  store : ErasedOnly lrps w0.store w.store
  sound : ∀ t ∈ tasks, t.Sound w0.store w.store
  calls : ∃ made, w.calls = w0.calls ++ made ∧
    (∀ c, (made.filter Call.isStop).count c = (issuedStops tasks).count c) ∧
    WritesAreRemovals lrps made

/-! ## Concrete inputs -/

/-- A clock reading and collaborators that all answer. -/
def exampleBBS : LRPBBS :=
  { timeProvider := 1000,
    services := Except.ok "auctioneer.example:9016",
    auctioneerClient := fun _ _ => Except.ok (),
    cellClient := fun _ _ => Except.ok () }

/-- The same engine with no auctioneer registered and failing cells. -/
def failingBBS : LRPBBS :=
  { timeProvider := 1000,
    services := Except.error BBSError.ErrServiceUnavailable,
    auctioneerClient := fun _ _ => Except.error (BBSError.ErrTransport 1),
    cellClient := fun _ _ => Except.error (BBSError.ErrTransport 2) }

/-- The desired LRP of the repository's `desired_lrp_test.go`. -/
def exampleDesiredLRP : DesiredLRP :=
  { Domain := "some-domain",
    ProcessGuid := "some-guid",
    Instances := 1,
    Stack := "some-stack",
    RootFSPath := "docker:///docker.com/docker",
    MemoryMB := 1024,
    DiskMB := 512,
    CPUWeight := 42,
    Routes := ["route-1", "route-2"],
    Ports := [{ HostPort := 1234, ContainerPort := 5678 }] }

/-- An empty store and no call made yet. -/
def emptyWorld : World :=
  { store := Store.empty, calls := [] }

/-- The key of instance 0 of `exampleDesiredLRP`. -/
def exampleKey : ActualLRPKey :=
  NewActualLRPKey "some-guid" 0 "some-domain"

/-- A placement on a cell. -/
def exampleContainerKey : ActualLRPContainerKey :=
  { InstanceGuid := "instance-guid", CellID := "cell-id" }

/-- Another placement, on another cell. -/
def otherContainerKey : ActualLRPContainerKey :=
  { InstanceGuid := "other-instance-guid", CellID := "other-cell-id" }

/-- A reachable endpoint with one mapped port. -/
def exampleNetInfo : ActualLRPNetInfo :=
  NewActualLRPNetInfo "10.0.0.1" (some [{ HostPort := 1234, ContainerPort := 5678 }])

/-- A record of `exampleKey` in the given state and placement. -/
def exampleLRP (state : ActualLRPState) (containerKey : ActualLRPContainerKey)
    (netInfo : ActualLRPNetInfo) : ActualLRP :=
  { ActualLRPKey := exampleKey,
    ActualLRPContainerKey := containerKey,
    ActualLRPNetInfo := netInfo,
    State := state,
    Since := 500 }

/-- A world whose store holds exactly `lrp`, at its own path. -/
def worldWith (lrp : ActualLRP) : World :=
  { store := Store.empty.put
      (ActualLRPSchemaPath lrp.ActualLRPKey.ProcessGuid lrp.ActualLRPKey.Index) (Bytes.json lrp),
    calls := [] }

/-- An Unclaimed record of `exampleKey`, as `createActualLRP` leaves it. -/
def unclaimedLRP : ActualLRP :=
  exampleLRP ActualLRPState.Unclaimed emptyContainerKey emptyNetInfo

/-- A Running record of another instance of the same process. -/
def runningLRP : ActualLRP :=
  { ActualLRPKey := NewActualLRPKey "some-guid" 1 "some-domain",
    ActualLRPContainerKey := exampleContainerKey,
    ActualLRPNetInfo := exampleNetInfo,
    State := ActualLRPState.Running,
    Since := 700 }

/-- The record `ClaimActualLRP` writes over the record `lrp` it read. -/
def claimedFrom (bbs : LRPBBS) (lrp : ActualLRP) (containerKey : ActualLRPContainerKey) :
    ActualLRP :=
  { lrp with
    Since := bbs.timeProvider,
    State := ActualLRPState.Claimed,
    ActualLRPContainerKey := containerKey,
    ActualLRPNetInfo := NewActualLRPNetInfo "" none }

/-- The record `StartActualLRP` writes over the record `lrp` it read. -/
def startedFrom (bbs : LRPBBS) (lrp : ActualLRP) (containerKey : ActualLRPContainerKey)
    (netInfo : ActualLRPNetInfo) : ActualLRP :=
  { lrp with
    State := ActualLRPState.Running,
    Since := bbs.timeProvider,
    ActualLRPContainerKey := containerKey,
    ActualLRPNetInfo := netInfo }

/-- The node `ClaimActualLRP` and `StartActualLRP` hand to
`CompareAndSwapByIndex`: the record, at the path computed from the record. -/
def swapNode (lrp : ActualLRP) : StoreNode :=
  { Key := ActualLRPSchemaPath lrp.ActualLRPKey.ProcessGuid lrp.ActualLRPKey.Index,
    Value := Bytes.json lrp, Index := 0 }

/-- The idempotence test of `ClaimActualLRP`. -/
def claimMatches (lrp : ActualLRP) (key : ActualLRPKey)
    (containerKey : ActualLRPContainerKey) : Prop :=
  lrp.ActualLRPKey = key ∧ lrp.ActualLRPContainerKey = containerKey ∧
    lrp.State = ActualLRPState.Claimed

/-- The idempotence test of `StartActualLRP`. -/
def startMatches (lrp : ActualLRP) (key : ActualLRPKey)
    (containerKey : ActualLRPContainerKey) (netInfo : ActualLRPNetInfo) : Prop :=
  lrp.ActualLRPKey = key ∧ lrp.ActualLRPContainerKey = containerKey ∧
    lrp.ActualLRPNetInfo.Address = netInfo.Address ∧
    lrp.ActualLRPNetInfo.Ports = netInfo.Ports ∧ lrp.State = ActualLRPState.Running

/-! ## Store invariants -/

/-- The path a store call goes to, when it is a store call. -/
def Call.path : Call → Option String
  | Call.Get key => some key
  | Call.Create node => some node.Key
  | Call.CompareAndSwapByIndex _ node => some node.Key
  | Call.CompareAndDeleteByIndex node => some node.Key
  | _ => none

/-- Key-path consistency: every stored record sits at the path computed
from its own `ProcessGuid` and `Index`. -/
def KeyPathConsistent (s : Store) : Prop :=
  ∀ path node lrp, s.nodes path = some node → FromJSON node.Value = Except.ok lrp →
    ActualLRPSchemaPath lrp.ActualLRPKey.ProcessGuid lrp.ActualLRPKey.Index = path

/-- A net info with an empty address and no ports (a nil or an empty
slice). -/
def ActualLRPNetInfo.IsEmpty (netInfo : ActualLRPNetInfo) : Prop :=
  netInfo.Address = "" ∧ (netInfo.Ports = none ∨ netInfo.Ports = some [])

/-- The shape of one record: Unclaimed has an empty container key and empty
net info, Claimed has empty net info. -/
def ActualLRP.Shaped (lrp : ActualLRP) : Prop :=
  (lrp.State = ActualLRPState.Unclaimed →
      lrp.ActualLRPContainerKey = emptyContainerKey ∧ lrp.ActualLRPNetInfo.IsEmpty) ∧
    (lrp.State = ActualLRPState.Claimed → lrp.ActualLRPNetInfo.IsEmpty)

/-- Record shape as a store invariant: every stored record is shaped. -/
def RecordShaped (s : Store) : Prop :=
  ∀ path node lrp, s.nodes path = some node → FromJSON node.Value = Except.ok lrp →
    lrp.Shaped

/-- The store `s2` holds at every path what `s` holds there, or nothing. -/
def OnlyErased (s s2 : Store) : Prop :=
  ∀ path, s2.nodes path = s.nodes path ∨ s2.nodes path = none

/-- A task never holds a pending compare-and-swap. -/
def Task.NoSwap (t : Task) : Prop :=
  ∀ index node, t.phase ≠ Phase.removing (Pending.swap index node)

/-- Every path that held a record in `s` and holds one in `s2` holds a
record with the same `ActualLRPKey` (`ProcessGuid`, `Index`, `Domain`). -/
def KeysKept (s s2 : Store) : Prop :=
  ∀ path node lrp node2 lrp2,
    s.nodes path = some node → FromJSON node.Value = Except.ok lrp →
    s2.nodes path = some node2 → FromJSON node2.Value = Except.ok lrp2 →
    lrp2.ActualLRPKey = lrp.ActualLRPKey

/-- The calls made from `calls` to `calls2` are all store calls to `path`. -/
def CallsAt (path : String) (calls calls2 : List Call) : Prop :=
  ∃ made, calls2 = calls ++ made ∧ ∀ c ∈ made, c.path = some path

/-- Every Unclaimed record of `s2` is a node `s` already held at that
path. -/
def UnclaimedKept (s s2 : Store) : Prop :=
  ∀ path node lrp,
    s2.nodes path = some node → FromJSON node.Value = Except.ok lrp →
    lrp.State = ActualLRPState.Unclaimed → s.nodes path = some node

/-- Every Unclaimed record of `s2` is a node `s` already held at that path,
or sits at a path that was empty in `s`. -/
def UnclaimedKeptOrFresh (s s2 : Store) : Prop :=
  ∀ path node lrp,
    s2.nodes path = some node → FromJSON node.Value = Except.ok lrp →
    lrp.State = ActualLRPState.Unclaimed →
    s.nodes path = some node ∨ s.nodes path = none

/-- Another endpoint than `exampleNetInfo`. -/
def otherNetInfo : ActualLRPNetInfo :=
  NewActualLRPNetInfo "10.0.0.2" (some [{ HostPort := 4321, ContainerPort := 5678 }])

/-- The legality predicate that allows everything. -/
def allowAll : Legality :=
  fun _ _ _ _ => true

/-- The legality predicate that allows nothing. -/
def allowNone : Legality :=
  fun _ _ _ _ => false

/-! ## Theorems -/

/-! ### The store -/

theorem Store.put_nodes_self (s : Store) (key : String) (value : Bytes) :
    (s.put key value).nodes key = some { Key := key, Value := value, Index := s.index + 1 } := by
  simp [Store.put]

theorem Store.put_nodes_other (s : Store) (key k : String) (value : Bytes) (h : k ≠ key) :
    (s.put key value).nodes k = s.nodes k := by
  simp [Store.put, h]

theorem Store.erase_nodes_self (s : Store) (key : String) :
    (s.erase key).nodes key = none := by
  simp [Store.erase]

theorem Store.erase_nodes_other (s : Store) (key k : String) (h : k ≠ key) :
    (s.erase key).nodes k = s.nodes k := by
  simp [Store.erase, h]

theorem worldWith_nodes (lrp : ActualLRP) :
    (worldWith lrp).store.nodes
        (ActualLRPSchemaPath lrp.ActualLRPKey.ProcessGuid lrp.ActualLRPKey.Index) =
      some { Key := ActualLRPSchemaPath lrp.ActualLRPKey.ProcessGuid lrp.ActualLRPKey.Index,
             Value := Bytes.json lrp, Index := 1 } := by
  simp [worldWith, Store.put, Store.empty]

/-! ### `getActualLRP` -/

theorem getActualLRP_not_found (processGuid : String) (index : Int) (w : World)
    (h : w.store.nodes (ActualLRPSchemaPath processGuid index) = none) :
    getActualLRP processGuid index w =
      (Except.error BBSError.ErrStoreResourceNotFound,
        w.record (Call.Get (ActualLRPSchemaPath processGuid index))) := by
  simp [getActualLRP, storeGet, Store.Get, h]

theorem getActualLRP_found (processGuid : String) (index : Int) (w : World)
    (node : StoreNode) (lrp : ActualLRP)
    (h : w.store.nodes (ActualLRPSchemaPath processGuid index) = some node)
    (hv : FromJSON node.Value = Except.ok lrp) :
    getActualLRP processGuid index w =
      (Except.ok (lrp, node.Index),
        w.record (Call.Get (ActualLRPSchemaPath processGuid index))) := by
  simp [getActualLRP, storeGet, Store.Get, h, hv]

theorem getActualLRP_undecodable (processGuid : String) (index : Int) (w : World)
    (node : StoreNode) (err : BBSError)
    (h : w.store.nodes (ActualLRPSchemaPath processGuid index) = some node)
    (hv : FromJSON node.Value = Except.error err) :
    getActualLRP processGuid index w =
      (Except.error err, w.record (Call.Get (ActualLRPSchemaPath processGuid index))) := by
  simp [getActualLRP, storeGet, Store.Get, h, hv]

theorem FromJSON_ok_iff (value : Bytes) (lrp : ActualLRP) :
    FromJSON value = Except.ok lrp ↔ value = Bytes.json lrp := by
  cases value <;> simp [FromJSON]

theorem FromJSON_error (value : Bytes) (err : BBSError) (h : FromJSON value = Except.error err) :
    err = BBSError.ErrInvalidJSON := by
  cases value <;> simp [FromJSON] at h
  exact h.symm

/-! ### `CreateActualLRP` -/

/-- C1: for every desired LRP, world and index with
`index >= desiredLRP.Instances`, `CreateActualLRP` returns the
index-too-large error carrying the index and `desiredLRP.Instances`, and the
world after is the world before: the store is unchanged, no store call was
made and no auction was requested. -/
theorem CreateActualLRP_index_too_large (bbs : LRPBBS) (desiredLRP : DesiredLRP)
    (index : Int) (w : World) (h : index ≥ desiredLRP.Instances) :
    CreateActualLRP bbs desiredLRP index w =
        (Except.error (BBSError.actualLRPIndexTooLargeError index desiredLRP.Instances), w) ∧
      (CreateActualLRP bbs desiredLRP index w).2.store = w.store ∧
      (CreateActualLRP bbs desiredLRP index w).2.calls = w.calls := by
  have key : CreateActualLRP bbs desiredLRP index w =
      (Except.error (BBSError.actualLRPIndexTooLargeError index desiredLRP.Instances), w) := by
    simp [CreateActualLRP, createActualLRP, NewActualLRPIndexTooLargeError, h]
  rw [key]
  exact ⟨rfl, rfl, rfl⟩

theorem CreateActualLRP_index_too_large_witness :
    (3 : Int) ≥ exampleDesiredLRP.Instances ∧
      CreateActualLRP exampleBBS exampleDesiredLRP 3 emptyWorld =
        (Except.error (BBSError.actualLRPIndexTooLargeError 3 1), emptyWorld) :=
  ⟨by decide, (CreateActualLRP_index_too_large exampleBBS exampleDesiredLRP 3 emptyWorld
    (by decide)).1⟩

theorem requestLRPAuctions_world (bbs : LRPBBS) (lrpStarts : List LRPStartRequest)
    (w : World) :
    (requestLRPAuctions bbs lrpStarts w).2 =
      { store := w.store, calls := w.calls ++ auctionCalls bbs lrpStarts } := by
  cases hs : bbs.services <;>
    simp [requestLRPAuctions, auctionCalls, hs, World.record]

theorem createActualLRP_below (bbs : LRPBBS) (desiredLRP : DesiredLRP) (index : Int)
    (w : World) (h : index < desiredLRP.Instances) :
    createActualLRP bbs desiredLRP index w =
      storeCreate
        { Key := ActualLRPSchemaPath desiredLRP.ProcessGuid index,
          Value := Bytes.json (newUnclaimedActualLRP bbs desiredLRP index),
          Index := 0 } w := by
  have hn : ¬ (desiredLRP.Instances ≤ index) := not_le.mpr h
  simp only [createActualLRP, ge_iff_le, hn, if_false, createRawActualLRP, ToJSON,
    NewActualLRPKey, storeCreate, newUnclaimedActualLRP]
  cases hc : w.store.Create _ <;> rfl

theorem storeCreate_absent (node : StoreNode) (w : World)
    (h : w.store.nodes node.Key = none) :
    storeCreate node w =
      (Except.ok (), { store := w.store.put node.Key node.Value,
                       calls := w.calls ++ [Call.Create node] }) := by
  simp [storeCreate, Store.Create, h]

theorem storeCreate_present (node old : StoreNode) (w : World)
    (h : w.store.nodes node.Key = some old) :
    storeCreate node w =
      (Except.error BBSError.ErrStoreResourceExists, w.record (Call.Create node)) := by
  simp [storeCreate, Store.Create, h]

theorem CreateActualLRP_below (bbs : LRPBBS) (desiredLRP : DesiredLRP) (index : Int)
    (w : World) (h : index < desiredLRP.Instances) :
    CreateActualLRP bbs desiredLRP index w =
      match w.store.nodes (ActualLRPSchemaPath desiredLRP.ProcessGuid index) with
      | some _ =>
        (Except.error BBSError.ErrStoreResourceExists,
          w.record (Call.Create
            { Key := ActualLRPSchemaPath desiredLRP.ProcessGuid index,
              Value := Bytes.json (newUnclaimedActualLRP bbs desiredLRP index),
              Index := 0 }))
      | none =>
        (Except.ok (),
          { store := w.store.put (ActualLRPSchemaPath desiredLRP.ProcessGuid index)
              (Bytes.json (newUnclaimedActualLRP bbs desiredLRP index)),
            calls := (w.calls ++ [Call.Create
              { Key := ActualLRPSchemaPath desiredLRP.ProcessGuid index,
                Value := Bytes.json (newUnclaimedActualLRP bbs desiredLRP index),
                Index := 0 }]) ++
              auctionCalls bbs [{ DesiredLRP := desiredLRP, Indices := [uint index] }] }) := by
  cases hn : w.store.nodes (ActualLRPSchemaPath desiredLRP.ProcessGuid index) with
  | some old =>
    rw [CreateActualLRP, createActualLRP_below _ _ _ _ h, storeCreate_present _ old _ hn]
  | none =>
    rw [CreateActualLRP, createActualLRP_below _ _ _ _ h, storeCreate_absent _ _ hn]
    simp only [requestLRPAuctions_world]

/-- Below the number of instances, `CreateActualLRP` is the encoder's
answer, then the store's create, then the auction request. -/
theorem CreateActualLRPWith_below (toJSON : Encoder) (bbs : LRPBBS)
    (desiredLRP : DesiredLRP) (index : Int) (w : World)
    (h : index < desiredLRP.Instances) :
    CreateActualLRPWith toJSON bbs desiredLRP index w =
      match toJSON (newUnclaimedActualLRP bbs desiredLRP index) with
      | Except.error err => (Except.error err, w)
      | Except.ok value =>
        match w.store.nodes (ActualLRPSchemaPath desiredLRP.ProcessGuid index) with
        | some _ =>
          (Except.error BBSError.ErrStoreResourceExists,
            w.record (Call.Create
              { Key := ActualLRPSchemaPath desiredLRP.ProcessGuid index,
                Value := value, Index := 0 }))
        | none =>
          (Except.ok (),
            { store := w.store.put (ActualLRPSchemaPath desiredLRP.ProcessGuid index) value,
              calls := (w.calls ++ [Call.Create
                { Key := ActualLRPSchemaPath desiredLRP.ProcessGuid index,
                  Value := value, Index := 0 }]) ++
                auctionCalls bbs [{ DesiredLRP := desiredLRP, Indices := [uint index] }] }) := by
  have hn : ¬ (desiredLRP.Instances ≤ index) := not_le.mpr h
  simp only [CreateActualLRPWith, createActualLRPWith, ge_iff_le, hn, if_false,
    createRawActualLRPWith, newUnclaimedActualLRP, NewActualLRPKey]
  generalize toJSON _ = r
  cases r with
  | error err => rfl
  | ok value =>
    cases hp : w.store.nodes (ActualLRPSchemaPath desiredLRP.ProcessGuid index) with
    | some old => simp [storeCreate, Store.Create, hp, World.record]
    | none => simp [storeCreate, Store.Create, hp, requestLRPAuctions_world]

/-- C2: every record that `CreateActualLRP` creates satisfies
`0 <= Index < desiredLRP.Instances`. The source tests `index >=
desiredLRP.Instances` itself and leaves every other refusal of the record to
`models.ToJSON`, whose error `createRawActualLRP` returns before any store
call. For every encoder that refuses a record with a negative `Index`, every
desired LRP, every index and every world: if the index is outside
`0 <= index < desiredLRP.Instances`, negative indices included,
`CreateActualLRP` returns an error and leaves the world as it was (no store
call, no write, no auction request); if it returns success, then
`0 <= index < desiredLRP.Instances` and the store holds at the path of
`(ProcessGuid, index)` the encoding of the Unclaimed record with that very
index; if it returns an error the store is as it was; every other path holds
what it held in all cases. At the encoder `ToJSON` it is the
`CreateActualLRP` of the other theorems. -/
theorem CreateActualLRP_index_in_range (toJSON : Encoder) (bbs : LRPBBS)
    (desiredLRP : DesiredLRP) (index : Int) (w : World)
    (henc : ∀ lrp : ActualLRP, lrp.ActualLRPKey.Index < 0 →
      ∃ err, toJSON lrp = Except.error err) :
    ((index < 0 ∨ index ≥ desiredLRP.Instances) →
        ∃ err, CreateActualLRPWith toJSON bbs desiredLRP index w = (Except.error err, w)) ∧
      ((CreateActualLRPWith toJSON bbs desiredLRP index w).1 = Except.ok () →
        0 ≤ index ∧ index < desiredLRP.Instances ∧
        ∃ value,
          toJSON
              { ActualLRPKey := { ProcessGuid := desiredLRP.ProcessGuid, Index := index,
                                  Domain := desiredLRP.Domain },
                ActualLRPContainerKey := emptyContainerKey,
                ActualLRPNetInfo := emptyNetInfo,
                State := ActualLRPState.Unclaimed,
                Since := bbs.timeProvider } = Except.ok value ∧
          (CreateActualLRPWith toJSON bbs desiredLRP index w).2.store.nodes
              (ActualLRPSchemaPath desiredLRP.ProcessGuid index) =
            some { Key := ActualLRPSchemaPath desiredLRP.ProcessGuid index,
                   Value := value, Index := w.store.index + 1 }) ∧
      ((CreateActualLRPWith toJSON bbs desiredLRP index w).1 ≠ Except.ok () →
        (CreateActualLRPWith toJSON bbs desiredLRP index w).2.store = w.store) ∧
      (∀ path, path ≠ ActualLRPSchemaPath desiredLRP.ProcessGuid index →
        (CreateActualLRPWith toJSON bbs desiredLRP index w).2.store.nodes path =
          w.store.nodes path) ∧
      CreateActualLRPWith ToJSON bbs desiredLRP index w =
        CreateActualLRP bbs desiredLRP index w := by
  have hrec :
      ({ ActualLRPKey := { ProcessGuid := desiredLRP.ProcessGuid, Index := index,
                           Domain := desiredLRP.Domain },
         ActualLRPContainerKey := emptyContainerKey,
         ActualLRPNetInfo := emptyNetInfo,
         State := ActualLRPState.Unclaimed,
         Since := bbs.timeProvider } : ActualLRP) =
        newUnclaimedActualLRP bbs desiredLRP index :=
    rfl
  rw [hrec]
  by_cases h : index ≥ desiredLRP.Instances
  · have key : CreateActualLRPWith toJSON bbs desiredLRP index w =
        (Except.error (BBSError.actualLRPIndexTooLargeError index desiredLRP.Instances),
          w) := by
      simp [CreateActualLRPWith, createActualLRPWith, NewActualLRPIndexTooLargeError, h]
    rw [key]
    refine ⟨fun _ => ⟨_, rfl⟩, fun hok => ?_, fun _ => rfl, fun _ _ => rfl, ?_⟩
    · cases hok
    · rfl
  · have hlt : index < desiredLRP.Instances := not_le.mp h
    refine ⟨?_, ?_, ?_, ?_, rfl⟩
    · intro hout
      have hneg : index < 0 := by
        rcases hout with h1 | h1
        · exact h1
        · exact absurd h1 h
      obtain ⟨err, herr⟩ := henc (newUnclaimedActualLRP bbs desiredLRP index) hneg
      rw [CreateActualLRPWith_below _ _ _ _ _ hlt, herr]
      exact ⟨err, rfl⟩
    · rw [CreateActualLRPWith_below _ _ _ _ _ hlt]
      cases he : toJSON (newUnclaimedActualLRP bbs desiredLRP index) with
      | error err =>
        intro hok
        cases hok
      | ok value =>
        have hnn : 0 ≤ index := by
          by_contra hneg
          obtain ⟨err, herr⟩ :=
            henc (newUnclaimedActualLRP bbs desiredLRP index) (not_le.mp hneg)
          rw [herr] at he
          cases he
        cases hp : w.store.nodes (ActualLRPSchemaPath desiredLRP.ProcessGuid index) with
        | some old =>
          intro hok
          cases hok
        | none =>
          intro _
          exact ⟨hnn, hlt, value, rfl, Store.put_nodes_self _ _ _⟩
    · rw [CreateActualLRPWith_below _ _ _ _ _ hlt]
      cases he : toJSON (newUnclaimedActualLRP bbs desiredLRP index) with
      | error err =>
        intro _
        rfl
      | ok value =>
        cases hp : w.store.nodes (ActualLRPSchemaPath desiredLRP.ProcessGuid index) with
        | some old =>
          intro _
          rfl
        | none =>
          intro hne
          exact absurd rfl hne
    · intro path hpath
      rw [CreateActualLRPWith_below _ _ _ _ _ hlt]
      cases he : toJSON (newUnclaimedActualLRP bbs desiredLRP index) with
      | error err => rfl
      | ok value =>
        cases hp : w.store.nodes (ActualLRPSchemaPath desiredLRP.ProcessGuid index) with
        | some old => rfl
        | none => exact Store.put_nodes_other _ _ _ _ hpath

theorem CreateActualLRP_index_in_range_witness :
    ((-1 : Int) < 0) ∧
      (CreateActualLRPWith validatingToJSON exampleBBS exampleDesiredLRP (-1) emptyWorld).2 =
        emptyWorld ∧
      (CreateActualLRPWith validatingToJSON exampleBBS exampleDesiredLRP (-1) emptyWorld).1 =
        Except.error BBSError.ErrInvalidRecord ∧
      (CreateActualLRPWith validatingToJSON exampleBBS exampleDesiredLRP 0 emptyWorld).1 =
        Except.ok () := by
  obtain ⟨err, herr⟩ :=
    (CreateActualLRP_index_in_range validatingToJSON exampleBBS exampleDesiredLRP (-1)
      emptyWorld
      (by
        intro lrp hneg
        exact ⟨BBSError.ErrInvalidRecord, by simp [validatingToJSON, hneg]⟩)).1
      (Or.inl (by decide))
  exact ⟨by decide, congrArg Prod.snd herr, rfl, rfl⟩

/-! ### `ClaimActualLRP` -/

theorem storeCompareAndSwapByIndex_match (index : Nat) (node old : StoreNode) (w : World)
    (h : w.store.nodes node.Key = some old) (hi : old.Index = index) :
    storeCompareAndSwapByIndex index node w =
      (Except.ok (), { store := w.store.put node.Key node.Value,
                       calls := w.calls ++ [Call.CompareAndSwapByIndex index node] }) := by
  simp [storeCompareAndSwapByIndex, Store.CompareAndSwapByIndex, h, hi]

theorem storeCompareAndSwapByIndex_mismatch (index : Nat) (node old : StoreNode) (w : World)
    (h : w.store.nodes node.Key = some old) (hi : old.Index ≠ index) :
    storeCompareAndSwapByIndex index node w =
      (Except.error BBSError.ErrStoreComparisonFailed,
        w.record (Call.CompareAndSwapByIndex index node)) := by
  simp [storeCompareAndSwapByIndex, Store.CompareAndSwapByIndex, h, hi]

theorem storeCompareAndSwapByIndex_absent (index : Nat) (node : StoreNode) (w : World)
    (h : w.store.nodes node.Key = none) :
    storeCompareAndSwapByIndex index node w =
      (Except.error BBSError.ErrStoreResourceNotFound,
        w.record (Call.CompareAndSwapByIndex index node)) := by
  simp [storeCompareAndSwapByIndex, Store.CompareAndSwapByIndex, h]

/-- `ClaimActualLRP` is its read half followed by its write. -/
theorem ClaimActualLRP_eq_read_commit (legal : Legality) (bbs : LRPBBS) (key : ActualLRPKey)
    (containerKey : ActualLRPContainerKey) (w : World) :
    ClaimActualLRP legal bbs key containerKey w =
      (claimRead legal bbs key containerKey w).1.commit
        (claimRead legal bbs key containerKey w).2 := by
  unfold ClaimActualLRP claimRead
  rcases hg : getActualLRP key.ProcessGuid key.Index w with ⟨r, w1⟩
  cases r with
  | error err =>
    by_cases he : err = BBSError.ErrStoreResourceNotFound <;> simp [he, Pending.commit]
  | ok p =>
    obtain ⟨lrp, index⟩ := p
    by_cases h1 : lrp.ActualLRPKey = key ∧ lrp.ActualLRPContainerKey = containerKey ∧
        lrp.State = ActualLRPState.Claimed
    · simp [h1, Pending.commit]
    · by_cases h2 : legal lrp key containerKey ActualLRPState.Claimed = false
      · simp [h1, h2, Pending.commit]
      · simp [h1, h2, ToJSON, Pending.commit]

/-- The record `ClaimActualLRP` writes over `lrp`. -/
theorem claimRead_found (legal : Legality) (bbs : LRPBBS) (key : ActualLRPKey)
    (containerKey : ActualLRPContainerKey) (w : World) (node : StoreNode) (lrp : ActualLRP)
    (hnode : w.store.nodes (ActualLRPSchemaPath key.ProcessGuid key.Index) = some node)
    (hval : FromJSON node.Value = Except.ok lrp) :
    claimRead legal bbs key containerKey w =
      (if lrp.ActualLRPKey = key ∧ lrp.ActualLRPContainerKey = containerKey ∧
            lrp.State = ActualLRPState.Claimed then
          Pending.done (Except.ok ())
        else if legal lrp key containerKey ActualLRPState.Claimed = false then
          Pending.done (Except.error BBSError.ErrActualLRPCannotBeClaimed)
        else
          Pending.swap node.Index
            { Key := ActualLRPSchemaPath lrp.ActualLRPKey.ProcessGuid lrp.ActualLRPKey.Index,
              Value := Bytes.json
                { lrp with
                  Since := bbs.timeProvider,
                  State := ActualLRPState.Claimed,
                  ActualLRPContainerKey := containerKey,
                  ActualLRPNetInfo := emptyNetInfo },
              Index := 0 },
        w.record (Call.Get (ActualLRPSchemaPath key.ProcessGuid key.Index))) := by
  unfold claimRead
  rw [getActualLRP_found _ _ _ node lrp hnode hval]
  by_cases h1 : lrp.ActualLRPKey = key ∧ lrp.ActualLRPContainerKey = containerKey ∧
      lrp.State = ActualLRPState.Claimed
  · simp [h1]
  · by_cases h2 : legal lrp key containerKey ActualLRPState.Claimed = false
    · simp [h1, h2]
    · simp [h1, h2, ToJSON, NewActualLRPNetInfo, emptyNetInfo]

theorem ClaimActualLRP_idempotent_path (legal : Legality) (bbs : LRPBBS) (key : ActualLRPKey)
    (containerKey : ActualLRPContainerKey) (w : World) (node : StoreNode) (lrp : ActualLRP)
    (hnode : w.store.nodes (ActualLRPSchemaPath key.ProcessGuid key.Index) = some node)
    (hval : FromJSON node.Value = Except.ok lrp)
    (hkey : lrp.ActualLRPKey = key) (hck : lrp.ActualLRPContainerKey = containerKey)
    (hstate : lrp.State = ActualLRPState.Claimed) :
    ClaimActualLRP legal bbs key containerKey w =
      (Except.ok (), w.record (Call.Get (ActualLRPSchemaPath key.ProcessGuid key.Index))) := by
  rw [ClaimActualLRP_eq_read_commit, claimRead_found _ _ _ _ _ node lrp hnode hval]
  simp [hkey, hck, hstate, Pending.commit]

theorem ClaimActualLRP_swap_path (legal : Legality) (bbs : LRPBBS) (key : ActualLRPKey)
    (containerKey : ActualLRPContainerKey) (w : World) (node : StoreNode) (lrp : ActualLRP)
    (hnode : w.store.nodes (ActualLRPSchemaPath key.ProcessGuid key.Index) = some node)
    (hval : FromJSON node.Value = Except.ok lrp)
    (hkey : lrp.ActualLRPKey = key)
    (hstate : lrp.State ≠ ActualLRPState.Claimed)
    (hlegal : legal lrp key containerKey ActualLRPState.Claimed = true) :
    ClaimActualLRP legal bbs key containerKey w =
      (Except.ok (),
        w.afterSwap (ActualLRPSchemaPath key.ProcessGuid key.Index) node.Index
          { ActualLRPKey := key,
            ActualLRPContainerKey := containerKey,
            ActualLRPNetInfo := emptyNetInfo,
            State := ActualLRPState.Claimed,
            Since := bbs.timeProvider }) := by
  subst hkey
  rw [ClaimActualLRP_eq_read_commit, claimRead_found _ _ _ _ _ node lrp hnode hval]
  simp only [hstate, hlegal, and_false, if_false, Bool.true_eq_false, Pending.commit]
  rw [storeCompareAndSwapByIndex_match node.Index _ node _ hnode rfl]
  rfl

/-- C3: on a store whose record at the key's path is an Unclaimed record
with that key, the first `ClaimActualLRP(key, containerKey)` returns success
and leaves at that path the record in state Claimed with `containerKey`
(empty net info, `Since` the time of the call, a new version); a second
call with the same arguments, at any later clock, returns success, leaves
the store (value, `Since` and version included) exactly as the first call
left it, and makes no call but its read. -/
theorem ClaimActualLRP_twice (bbs bbs2 : LRPBBS) (key : ActualLRPKey)
    (containerKey : ActualLRPContainerKey) (w : World) (node : StoreNode) (lrp : ActualLRP)
    (hnode : w.store.nodes (ActualLRPSchemaPath key.ProcessGuid key.Index) = some node)
    (hval : FromJSON node.Value = Except.ok lrp)
    (hkey : lrp.ActualLRPKey = key)
    (hstate : lrp.State = ActualLRPState.Unclaimed) :
    (ClaimActualLRP AllowsTransitionTo bbs key containerKey w).1 = Except.ok () ∧
      (ClaimActualLRP AllowsTransitionTo bbs key containerKey w).2.store.nodes
          (ActualLRPSchemaPath key.ProcessGuid key.Index) =
        some { Key := ActualLRPSchemaPath key.ProcessGuid key.Index,
               Value := Bytes.json
                 { ActualLRPKey := key,
                   ActualLRPContainerKey := containerKey,
                   ActualLRPNetInfo := emptyNetInfo,
                   State := ActualLRPState.Claimed,
                   Since := bbs.timeProvider },
               Index := w.store.index + 1 } ∧
      (ClaimActualLRP AllowsTransitionTo bbs2 key containerKey
          (ClaimActualLRP AllowsTransitionTo bbs key containerKey w).2).1 = Except.ok () ∧
      (ClaimActualLRP AllowsTransitionTo bbs2 key containerKey
          (ClaimActualLRP AllowsTransitionTo bbs key containerKey w).2).2.store =
        (ClaimActualLRP AllowsTransitionTo bbs key containerKey w).2.store ∧
      (ClaimActualLRP AllowsTransitionTo bbs2 key containerKey
          (ClaimActualLRP AllowsTransitionTo bbs key containerKey w).2).2.calls =
        (ClaimActualLRP AllowsTransitionTo bbs key containerKey w).2.calls ++
          [Call.Get (ActualLRPSchemaPath key.ProcessGuid key.Index)] := by
  have hfirst := ClaimActualLRP_swap_path AllowsTransitionTo bbs key containerKey w node lrp
    hnode hval hkey (by rw [hstate]; decide) (by simp [AllowsTransitionTo, hstate])
  have hn2 := Store.put_nodes_self w.store (ActualLRPSchemaPath key.ProcessGuid key.Index)
    (Bytes.json
      { ActualLRPKey := key,
        ActualLRPContainerKey := containerKey,
        ActualLRPNetInfo := emptyNetInfo,
        State := ActualLRPState.Claimed,
        Since := bbs.timeProvider })
  have hsecond := ClaimActualLRP_idempotent_path AllowsTransitionTo bbs2 key containerKey
    (w.afterSwap (ActualLRPSchemaPath key.ProcessGuid key.Index) node.Index
      { ActualLRPKey := key,
        ActualLRPContainerKey := containerKey,
        ActualLRPNetInfo := emptyNetInfo,
        State := ActualLRPState.Claimed,
        Since := bbs.timeProvider }) _ _ hn2 rfl rfl rfl rfl
  simp only [hfirst, hsecond]
  exact ⟨trivial, hn2, trivial, rfl, rfl⟩

theorem ClaimActualLRP_twice_witness :
    (ClaimActualLRP AllowsTransitionTo exampleBBS exampleKey exampleContainerKey
        (worldWith (exampleLRP ActualLRPState.Unclaimed emptyContainerKey emptyNetInfo))).1 =
      Except.ok () ∧
    (ClaimActualLRP AllowsTransitionTo failingBBS exampleKey exampleContainerKey
        (ClaimActualLRP AllowsTransitionTo exampleBBS exampleKey exampleContainerKey
          (worldWith (exampleLRP ActualLRPState.Unclaimed emptyContainerKey emptyNetInfo))).2).1 =
      Except.ok () :=
  have h := ClaimActualLRP_twice exampleBBS failingBBS exampleKey exampleContainerKey
    (worldWith (exampleLRP ActualLRPState.Unclaimed emptyContainerKey emptyNetInfo))
    _ (exampleLRP ActualLRPState.Unclaimed emptyContainerKey emptyNetInfo)
    (worldWith_nodes _) rfl rfl rfl
  ⟨h.1, h.2.2.1⟩

/-- C4: on a store whose record at the key's path is in state Running,
`ClaimActualLRP(key, containerKey)` returns the cannot-be-claimed error
after its one read; the store (the record's value and version included) is
the store before the call. -/
theorem ClaimActualLRP_running_rejected (bbs : LRPBBS) (key : ActualLRPKey)
    (containerKey : ActualLRPContainerKey) (w : World) (node : StoreNode) (lrp : ActualLRP)
    (hnode : w.store.nodes (ActualLRPSchemaPath key.ProcessGuid key.Index) = some node)
    (hval : FromJSON node.Value = Except.ok lrp)
    (hstate : lrp.State = ActualLRPState.Running) :
    (ClaimActualLRP AllowsTransitionTo bbs key containerKey w).1 =
        Except.error BBSError.ErrActualLRPCannotBeClaimed ∧
      (ClaimActualLRP AllowsTransitionTo bbs key containerKey w).2.store = w.store ∧
      (ClaimActualLRP AllowsTransitionTo bbs key containerKey w).2.calls =
        w.calls ++ [Call.Get (ActualLRPSchemaPath key.ProcessGuid key.Index)] ∧
      (ClaimActualLRP AllowsTransitionTo bbs key containerKey w).2.store.nodes
          (ActualLRPSchemaPath key.ProcessGuid key.Index) = some node := by
  have h : ClaimActualLRP AllowsTransitionTo bbs key containerKey w =
      (Except.error BBSError.ErrActualLRPCannotBeClaimed,
        w.record (Call.Get (ActualLRPSchemaPath key.ProcessGuid key.Index))) := by
    rw [ClaimActualLRP_eq_read_commit, claimRead_found _ _ _ _ _ node lrp hnode hval]
    simp [hstate, AllowsTransitionTo, Pending.commit]
  rw [h]
  exact ⟨rfl, rfl, rfl, hnode⟩

theorem ClaimActualLRP_running_rejected_witness :
    (ClaimActualLRP AllowsTransitionTo exampleBBS exampleKey otherContainerKey
        (worldWith (exampleLRP ActualLRPState.Running exampleContainerKey exampleNetInfo))).1 =
      Except.error BBSError.ErrActualLRPCannotBeClaimed :=
  (ClaimActualLRP_running_rejected exampleBBS exampleKey otherContainerKey
    (worldWith (exampleLRP ActualLRPState.Running exampleContainerKey exampleNetInfo))
    _ (exampleLRP ActualLRPState.Running exampleContainerKey exampleNetInfo)
    (worldWith_nodes _) rfl rfl).1

/-! ### `StartActualLRP` -/

theorem StartActualLRP_not_found_path (legal : Legality) (bbs : LRPBBS) (key : ActualLRPKey)
    (containerKey : ActualLRPContainerKey) (netInfo : ActualLRPNetInfo) (w : World)
    (h : w.store.nodes (ActualLRPSchemaPath key.ProcessGuid key.Index) = none) :
    StartActualLRP legal bbs key containerKey netInfo w =
      (Except.ok (),
        w.afterCreate (ActualLRPSchemaPath key.ProcessGuid key.Index)
          { ActualLRPKey := key,
            ActualLRPContainerKey := containerKey,
            ActualLRPNetInfo := netInfo,
            State := ActualLRPState.Running,
            Since := bbs.timeProvider }) := by
  unfold StartActualLRP
  rw [getActualLRP_not_found _ _ _ h]
  simp only [if_true, createRawActualLRP, ToJSON, newRunningActualLRP]
  rw [storeCreate_absent _ _ (by simpa [World.record] using h)]
  rfl

theorem StartActualLRP_idempotent_path (legal : Legality) (bbs : LRPBBS) (key : ActualLRPKey)
    (containerKey : ActualLRPContainerKey) (netInfo : ActualLRPNetInfo) (w : World)
    (node : StoreNode) (lrp : ActualLRP)
    (hnode : w.store.nodes (ActualLRPSchemaPath key.ProcessGuid key.Index) = some node)
    (hval : FromJSON node.Value = Except.ok lrp)
    (hkey : lrp.ActualLRPKey = key) (hck : lrp.ActualLRPContainerKey = containerKey)
    (hnet : lrp.ActualLRPNetInfo = netInfo)
    (hstate : lrp.State = ActualLRPState.Running) :
    StartActualLRP legal bbs key containerKey netInfo w =
      (Except.ok (), w.record (Call.Get (ActualLRPSchemaPath key.ProcessGuid key.Index))) := by
  unfold StartActualLRP
  rw [getActualLRP_found _ _ _ node lrp hnode hval]
  simp [hkey, hck, hnet, hstate]

theorem StartActualLRP_swap_path (legal : Legality) (bbs : LRPBBS) (key : ActualLRPKey)
    (containerKey : ActualLRPContainerKey) (netInfo : ActualLRPNetInfo) (w : World)
    (node : StoreNode) (lrp : ActualLRP)
    (hnode : w.store.nodes (ActualLRPSchemaPath key.ProcessGuid key.Index) = some node)
    (hval : FromJSON node.Value = Except.ok lrp)
    (hkey : lrp.ActualLRPKey = key)
    (hidem : ¬ (lrp.ActualLRPKey = key ∧ lrp.ActualLRPContainerKey = containerKey ∧
      lrp.ActualLRPNetInfo.Address = netInfo.Address ∧
      lrp.ActualLRPNetInfo.Ports = netInfo.Ports ∧ lrp.State = ActualLRPState.Running))
    (hlegal : legal lrp key containerKey ActualLRPState.Running = true) :
    StartActualLRP legal bbs key containerKey netInfo w =
      (Except.ok (),
        w.afterSwap (ActualLRPSchemaPath key.ProcessGuid key.Index) node.Index
          { ActualLRPKey := key,
            ActualLRPContainerKey := containerKey,
            ActualLRPNetInfo := netInfo,
            State := ActualLRPState.Running,
            Since := bbs.timeProvider }) := by
  unfold StartActualLRP
  rw [getActualLRP_found _ _ _ node lrp hnode hval]
  simp only [if_neg hidem, hlegal, if_false, Bool.true_eq_false, ToJSON]
  subst hkey
  rw [storeCompareAndSwapByIndex_match node.Index _ node _ (by simpa [World.record] using hnode)
    rfl]
  rfl

/-- C5: on a store with no record at the key's path, for every legality
predicate, `StartActualLRP(key, containerKey, netInfo)` returns success; the
store then holds at that path exactly the record
`{key, containerKey, netInfo, Running, Since = now}` and every other path is
as before. The calls made are the read and one create of that Running
record (no compare-and-swap, so no intermediate Claimed record), and the
outcome is the same whatever the legality predicate answers. -/
theorem StartActualLRP_creates_running (legal : Legality) (bbs : LRPBBS) (key : ActualLRPKey)
    (containerKey : ActualLRPContainerKey) (netInfo : ActualLRPNetInfo) (w : World)
    (h : w.store.nodes (ActualLRPSchemaPath key.ProcessGuid key.Index) = none) :
    (StartActualLRP legal bbs key containerKey netInfo w).1 = Except.ok () ∧
      (StartActualLRP legal bbs key containerKey netInfo w).2.store.nodes
          (ActualLRPSchemaPath key.ProcessGuid key.Index) =
        some { Key := ActualLRPSchemaPath key.ProcessGuid key.Index,
               Value := Bytes.json
                 { ActualLRPKey := key,
                   ActualLRPContainerKey := containerKey,
                   ActualLRPNetInfo := netInfo,
                   State := ActualLRPState.Running,
                   Since := bbs.timeProvider },
               Index := w.store.index + 1 } ∧
      (∀ path, path ≠ ActualLRPSchemaPath key.ProcessGuid key.Index →
        (StartActualLRP legal bbs key containerKey netInfo w).2.store.nodes path =
          w.store.nodes path) ∧
      (StartActualLRP legal bbs key containerKey netInfo w).2.calls =
        w.calls ++
          [Call.Get (ActualLRPSchemaPath key.ProcessGuid key.Index),
           Call.Create
             { Key := ActualLRPSchemaPath key.ProcessGuid key.Index,
               Value := Bytes.json
                 { ActualLRPKey := key,
                   ActualLRPContainerKey := containerKey,
                   ActualLRPNetInfo := netInfo,
                   State := ActualLRPState.Running,
                   Since := bbs.timeProvider },
               Index := 0 }] ∧
      (∀ legal2 : Legality,
        StartActualLRP legal2 bbs key containerKey netInfo w =
          StartActualLRP legal bbs key containerKey netInfo w) := by
  have hall := fun l : Legality => StartActualLRP_not_found_path l bbs key containerKey netInfo w h
  refine ⟨?_, ?_, ?_, ?_, ?_⟩
  · rw [hall legal]
  · rw [hall legal]
    exact Store.put_nodes_self _ _ _
  · intro path hp
    rw [hall legal]
    exact Store.put_nodes_other _ _ _ _ hp
  · rw [hall legal]
    simp [World.afterCreate]
  · intro legal2
    rw [hall legal, hall legal2]

theorem StartActualLRP_creates_running_witness :
    (StartActualLRP AllowsTransitionTo exampleBBS exampleKey exampleContainerKey exampleNetInfo
        emptyWorld).1 = Except.ok () :=
  (StartActualLRP_creates_running AllowsTransitionTo exampleBBS exampleKey exampleContainerKey
    exampleNetInfo emptyWorld rfl).1

theorem StartActualLRP_undecodable_path (legal : Legality) (bbs : LRPBBS) (key : ActualLRPKey)
    (containerKey : ActualLRPContainerKey) (netInfo : ActualLRPNetInfo) (w : World)
    (node : StoreNode) (data : List Nat)
    (hnode : w.store.nodes (ActualLRPSchemaPath key.ProcessGuid key.Index) = some node)
    (hval : node.Value = Bytes.raw data) :
    StartActualLRP legal bbs key containerKey netInfo w =
      (Except.error BBSError.ErrInvalidJSON,
        w.record (Call.Get (ActualLRPSchemaPath key.ProcessGuid key.Index))) := by
  unfold StartActualLRP
  rw [getActualLRP_undecodable _ _ _ node BBSError.ErrInvalidJSON hnode (by rw [hval]; rfl)]
  simp

theorem StartActualLRP_illegal_path (legal : Legality) (bbs : LRPBBS) (key : ActualLRPKey)
    (containerKey : ActualLRPContainerKey) (netInfo : ActualLRPNetInfo) (w : World)
    (node : StoreNode) (lrp : ActualLRP)
    (hnode : w.store.nodes (ActualLRPSchemaPath key.ProcessGuid key.Index) = some node)
    (hval : FromJSON node.Value = Except.ok lrp)
    (hidem : ¬ (lrp.ActualLRPKey = key ∧ lrp.ActualLRPContainerKey = containerKey ∧
      lrp.ActualLRPNetInfo.Address = netInfo.Address ∧
      lrp.ActualLRPNetInfo.Ports = netInfo.Ports ∧ lrp.State = ActualLRPState.Running))
    (hlegal : legal lrp key containerKey ActualLRPState.Running = false) :
    StartActualLRP legal bbs key containerKey netInfo w =
      (Except.error BBSError.ErrActualLRPCannotBeStarted,
        w.record (Call.Get (ActualLRPSchemaPath key.ProcessGuid key.Index))) := by
  unfold StartActualLRP
  rw [getActualLRP_found _ _ _ node lrp hnode hval]
  simp only [if_neg hidem, hlegal, if_true]

/-- Idempotence of `StartActualLRP` for every legality predicate that allows
a transition to Running only when the key matches. -/
theorem StartActualLRP_idempotent_of_keyed (legal : Legality)
    (hkeyed : ∀ lrp key containerKey,
      legal lrp key containerKey ActualLRPState.Running = true → lrp.ActualLRPKey = key)
    (bbs bbs2 : LRPBBS) (key : ActualLRPKey)
    (containerKey : ActualLRPContainerKey) (netInfo : ActualLRPNetInfo) (w : World)
    (h : (StartActualLRP legal bbs key containerKey netInfo w).1 = Except.ok ()) :
    (StartActualLRP legal bbs2 key containerKey netInfo
        (StartActualLRP legal bbs key containerKey netInfo w).2).1 = Except.ok () ∧
      (StartActualLRP legal bbs2 key containerKey netInfo
          (StartActualLRP legal bbs key containerKey netInfo w).2).2.store =
        (StartActualLRP legal bbs key containerKey netInfo w).2.store ∧
      (StartActualLRP legal bbs2 key containerKey netInfo
          (StartActualLRP legal bbs key containerKey netInfo w).2).2.calls =
        (StartActualLRP legal bbs key containerKey netInfo w).2.calls ++
          [Call.Get (ActualLRPSchemaPath key.ProcessGuid key.Index)] := by
  have hrunning : ∀ (w1 : World) (index : Nat),
      w1.store.nodes (ActualLRPSchemaPath key.ProcessGuid key.Index) =
        some { Key := ActualLRPSchemaPath key.ProcessGuid key.Index,
               Value := Bytes.json
                 { ActualLRPKey := key,
                   ActualLRPContainerKey := containerKey,
                   ActualLRPNetInfo := netInfo,
                   State := ActualLRPState.Running,
                   Since := bbs.timeProvider },
               Index := index } →
      StartActualLRP legal bbs2 key containerKey netInfo w1 =
        (Except.ok (), w1.record (Call.Get (ActualLRPSchemaPath key.ProcessGuid key.Index))) :=
    fun w1 _ hn =>
      StartActualLRP_idempotent_path _ bbs2 key containerKey netInfo w1 _ _ hn rfl rfl rfl rfl rfl
  cases hnode : w.store.nodes (ActualLRPSchemaPath key.ProcessGuid key.Index) with
  | none =>
    have hfirst := StartActualLRP_not_found_path legal bbs key containerKey
      netInfo w hnode
    have hsecond := hrunning
      (w.afterCreate (ActualLRPSchemaPath key.ProcessGuid key.Index)
        (newRunningActualLRP bbs key containerKey netInfo)) _
      (Store.put_nodes_self w.store (ActualLRPSchemaPath key.ProcessGuid key.Index) _)
    simp only [hfirst, World.afterCreate, newRunningActualLRP] at hsecond ⊢
    simp only [hsecond]
    exact ⟨trivial, rfl, rfl⟩
  | some node =>
    cases hv : node.Value with
    | raw data =>
      rw [StartActualLRP_undecodable_path _ _ _ _ _ _ node data hnode hv] at h
      simp at h
    | json lrp =>
      have hval : FromJSON node.Value = Except.ok lrp := by rw [hv]; rfl
      by_cases hidem : lrp.ActualLRPKey = key ∧ lrp.ActualLRPContainerKey = containerKey ∧
          lrp.ActualLRPNetInfo.Address = netInfo.Address ∧
          lrp.ActualLRPNetInfo.Ports = netInfo.Ports ∧ lrp.State = ActualLRPState.Running
      · have hnet : lrp.ActualLRPNetInfo = netInfo := by
          cases hl : lrp.ActualLRPNetInfo
          cases netInfo
          simp only [hl] at hidem
          simp [hidem.2.2.1, hidem.2.2.2.1]
        have hfirst := StartActualLRP_idempotent_path legal bbs key containerKey
          netInfo w node lrp hnode hval hidem.1 hidem.2.1 hnet hidem.2.2.2.2
        have hsecond := StartActualLRP_idempotent_path legal bbs2 key
          containerKey netInfo
          (w.record (Call.Get (ActualLRPSchemaPath key.ProcessGuid key.Index)))
          node lrp hnode hval hidem.1 hidem.2.1 hnet hidem.2.2.2.2
        simp only [hfirst, hsecond]
        exact ⟨trivial, rfl, rfl⟩
      · cases hlegal : legal lrp key containerKey ActualLRPState.Running with
        | false =>
          rw [StartActualLRP_illegal_path _ _ _ _ _ _ node lrp hnode hval hidem hlegal] at h
          simp at h
        | true =>
          have hkey : lrp.ActualLRPKey = key := hkeyed lrp key containerKey hlegal
          have hfirst := StartActualLRP_swap_path legal bbs key containerKey
            netInfo w node lrp hnode hval hkey hidem hlegal
          have hsecond := hrunning
            (w.afterSwap (ActualLRPSchemaPath key.ProcessGuid key.Index) node.Index
              (newRunningActualLRP bbs key containerKey netInfo)) _
            (Store.put_nodes_self w.store (ActualLRPSchemaPath key.ProcessGuid key.Index) _)
          simp only [hfirst, World.afterSwap, newRunningActualLRP] at hsecond ⊢
          simp only [hsecond]
          exact ⟨trivial, rfl, rfl⟩

/-- C6: whenever `StartActualLRP(key, containerKey, netInfo)` succeeds, on
any store and for any net info (a nil or an empty port list included), the
same call made again right after, at any later clock, returns success; it
makes no call but its read, and the store (the record, its `Since` and its
version) is exactly as the first call left it. -/
theorem StartActualLRP_idempotent (bbs bbs2 : LRPBBS) (key : ActualLRPKey)
    (containerKey : ActualLRPContainerKey) (netInfo : ActualLRPNetInfo) (w : World)
    (h : (StartActualLRP AllowsTransitionTo bbs key containerKey netInfo w).1 = Except.ok ()) :
    (StartActualLRP AllowsTransitionTo bbs2 key containerKey netInfo
        (StartActualLRP AllowsTransitionTo bbs key containerKey netInfo w).2).1 = Except.ok () ∧
      (StartActualLRP AllowsTransitionTo bbs2 key containerKey netInfo
          (StartActualLRP AllowsTransitionTo bbs key containerKey netInfo w).2).2.store =
        (StartActualLRP AllowsTransitionTo bbs key containerKey netInfo w).2.store ∧
      (StartActualLRP AllowsTransitionTo bbs2 key containerKey netInfo
          (StartActualLRP AllowsTransitionTo bbs key containerKey netInfo w).2).2.calls =
        (StartActualLRP AllowsTransitionTo bbs key containerKey netInfo w).2.calls ++
          [Call.Get (ActualLRPSchemaPath key.ProcessGuid key.Index)] :=
  StartActualLRP_idempotent_of_keyed AllowsTransitionTo
    (fun lrp key _ hl => by
      simp only [AllowsTransitionTo, Bool.and_eq_true, decide_eq_true_eq] at hl
      exact hl.2)
    bbs bbs2 key containerKey netInfo w h

theorem StartActualLRP_idempotent_witness :
    (StartActualLRP AllowsTransitionTo exampleBBS exampleKey exampleContainerKey
        (NewActualLRPNetInfo "10.0.0.1" (some [])) emptyWorld).1 = Except.ok () ∧
    (StartActualLRP AllowsTransitionTo failingBBS exampleKey exampleContainerKey
        (NewActualLRPNetInfo "10.0.0.1" (some []))
        (StartActualLRP AllowsTransitionTo exampleBBS exampleKey exampleContainerKey
          (NewActualLRPNetInfo "10.0.0.1" (some [])) emptyWorld).2).1 = Except.ok () :=
  have h : (StartActualLRP AllowsTransitionTo exampleBBS exampleKey exampleContainerKey
        (NewActualLRPNetInfo "10.0.0.1" (some [])) emptyWorld).1 = Except.ok () := by
    rw [StartActualLRP_not_found_path _ _ _ _ _ _ rfl]
  ⟨h, (StartActualLRP_idempotent exampleBBS failingBBS exampleKey exampleContainerKey
    (NewActualLRPNetInfo "10.0.0.1" (some [])) emptyWorld h).1⟩

/-! ### `RemoveActualLRP` -/

theorem storeCompareAndDeleteByIndex_match (node old : StoreNode) (w : World)
    (h : w.store.nodes node.Key = some old) (hi : old.Index = node.Index) :
    storeCompareAndDeleteByIndex node w =
      (Except.ok (), { store := w.store.erase node.Key,
                       calls := w.calls ++ [Call.CompareAndDeleteByIndex node] }) := by
  simp [storeCompareAndDeleteByIndex, Store.CompareAndDeleteByIndex, h, hi]

theorem storeCompareAndDeleteByIndex_absent (node : StoreNode) (w : World)
    (h : w.store.nodes node.Key = none) :
    storeCompareAndDeleteByIndex node w =
      (Except.error BBSError.ErrStoreResourceNotFound,
        w.record (Call.CompareAndDeleteByIndex node)) := by
  simp [storeCompareAndDeleteByIndex, Store.CompareAndDeleteByIndex, h]

/-- `RemoveActualLRP` is its read half followed by its write. -/
theorem RemoveActualLRP_eq_read_commit (key : ActualLRPKey)
    (containerKey : ActualLRPContainerKey) (w : World) :
    RemoveActualLRP key containerKey w =
      (removeRead key containerKey w).1.commit (removeRead key containerKey w).2 := by
  unfold RemoveActualLRP removeRead
  rcases hg : getActualLRP key.ProcessGuid key.Index w with ⟨r, w1⟩
  cases r with
  | error err => simp [Pending.commit]
  | ok p =>
    obtain ⟨lrp, index⟩ := p
    by_cases h1 : lrp.ActualLRPKey ≠ key ∨ lrp.ActualLRPContainerKey ≠ containerKey
    · simp only [h1, if_true, Pending.commit]
    · simp only [h1, if_false, Pending.commit]

theorem removeRead_found (key : ActualLRPKey) (containerKey : ActualLRPContainerKey)
    (w : World) (node : StoreNode) (lrp : ActualLRP)
    (hnode : w.store.nodes (ActualLRPSchemaPath key.ProcessGuid key.Index) = some node)
    (hval : FromJSON node.Value = Except.ok lrp) :
    removeRead key containerKey w =
      (if lrp.ActualLRPKey ≠ key ∨ lrp.ActualLRPContainerKey ≠ containerKey then
          Pending.done (Except.error BBSError.ErrStoreComparisonFailed)
        else
          Pending.delete
            { Key := ActualLRPSchemaPath lrp.ActualLRPKey.ProcessGuid lrp.ActualLRPKey.Index,
              Value := Bytes.raw [], Index := node.Index },
        w.record (Call.Get (ActualLRPSchemaPath key.ProcessGuid key.Index))) := by
  unfold removeRead
  rw [getActualLRP_found _ _ _ node lrp hnode hval]
  by_cases h1 : lrp.ActualLRPKey ≠ key ∨ lrp.ActualLRPContainerKey ≠ containerKey
  · simp only [h1, if_true]
  · simp only [h1, if_false]

theorem removeRead_not_found (key : ActualLRPKey) (containerKey : ActualLRPContainerKey)
    (w : World)
    (hnode : w.store.nodes (ActualLRPSchemaPath key.ProcessGuid key.Index) = none) :
    removeRead key containerKey w =
      (Pending.done (Except.error BBSError.ErrStoreResourceNotFound),
        w.record (Call.Get (ActualLRPSchemaPath key.ProcessGuid key.Index))) := by
  unfold removeRead
  rw [getActualLRP_not_found _ _ _ hnode]

/-- C7: on a store whose record at the key's path has a stored key other
than `key` or a stored container key other than `containerKey`,
`RemoveActualLRP(key, containerKey)` returns the comparison-failure error;
the store is the store before the call and the only call made is the read
(no delete is attempted). -/
theorem RemoveActualLRP_mismatch (key : ActualLRPKey) (containerKey : ActualLRPContainerKey)
    (w : World) (node : StoreNode) (lrp : ActualLRP)
    (hnode : w.store.nodes (ActualLRPSchemaPath key.ProcessGuid key.Index) = some node)
    (hval : FromJSON node.Value = Except.ok lrp)
    (hmis : lrp.ActualLRPKey ≠ key ∨ lrp.ActualLRPContainerKey ≠ containerKey) :
    (RemoveActualLRP key containerKey w).1 = Except.error BBSError.ErrStoreComparisonFailed ∧
      (RemoveActualLRP key containerKey w).2.store = w.store ∧
      (RemoveActualLRP key containerKey w).2.calls =
        w.calls ++ [Call.Get (ActualLRPSchemaPath key.ProcessGuid key.Index)] := by
  rw [RemoveActualLRP_eq_read_commit, removeRead_found _ _ _ node lrp hnode hval]
  simp only [hmis, if_true, Pending.commit]
  exact ⟨trivial, rfl, rfl⟩

theorem RemoveActualLRP_mismatch_witness :
    (RemoveActualLRP exampleKey otherContainerKey
        (worldWith (exampleLRP ActualLRPState.Claimed exampleContainerKey emptyNetInfo))).1 =
      Except.error BBSError.ErrStoreComparisonFailed :=
  (RemoveActualLRP_mismatch exampleKey otherContainerKey
    (worldWith (exampleLRP ActualLRPState.Claimed exampleContainerKey emptyNetInfo))
    _ (exampleLRP ActualLRPState.Claimed exampleContainerKey emptyNetInfo)
    (worldWith_nodes _) rfl (Or.inr (by decide))).1

/-- `RemoveActualLRP` on the record it was asked to remove. -/
theorem RemoveActualLRP_match_path (key : ActualLRPKey)
    (containerKey : ActualLRPContainerKey) (w : World) (node : StoreNode) (lrp : ActualLRP)
    (hnode : w.store.nodes (ActualLRPSchemaPath key.ProcessGuid key.Index) = some node)
    (hval : FromJSON node.Value = Except.ok lrp)
    (hkey : lrp.ActualLRPKey = key) (hck : lrp.ActualLRPContainerKey = containerKey) :
    RemoveActualLRP key containerKey w =
      (Except.ok (),
        { store := w.store.erase (ActualLRPSchemaPath key.ProcessGuid key.Index),
          calls := (w.calls ++ [Call.Get (ActualLRPSchemaPath key.ProcessGuid key.Index)]) ++
            [Call.CompareAndDeleteByIndex
              { Key := ActualLRPSchemaPath key.ProcessGuid key.Index,
                Value := Bytes.raw [], Index := node.Index }] }) := by
  rw [RemoveActualLRP_eq_read_commit, removeRead_found _ _ _ node lrp hnode hval]
  have hno : ¬ (lrp.ActualLRPKey ≠ key ∨ lrp.ActualLRPContainerKey ≠ containerKey) := by
    simp [hkey, hck]
  simp only [if_neg hno, Pending.commit]
  subst hkey
  rw [storeCompareAndDeleteByIndex_match
    { Key := ActualLRPSchemaPath lrp.ActualLRPKey.ProcessGuid lrp.ActualLRPKey.Index,
      Value := Bytes.raw [], Index := node.Index } node
    (w.record (Call.Get (ActualLRPSchemaPath lrp.ActualLRPKey.ProcessGuid
      lrp.ActualLRPKey.Index))) hnode rfl]
  rfl

/-! ### Auction requests of `CreateActualLRP` -/

/-- C10: `CreateActualLRP` returns exactly what the record creation
`createActualLRP` returns (an error exactly when the creation returns one),
and leaves the store the creation leaves; so with the clock fixed, whatever
the auctioneer-address lookup and the auction request answer, the result
and the resulting store are the same. -/
theorem CreateActualLRP_swallows_auction_failure (bbs : LRPBBS) (desiredLRP : DesiredLRP)
    (index : Int) (w : World) :
    (CreateActualLRP bbs desiredLRP index w).1 = (createActualLRP bbs desiredLRP index w).1 ∧
      (CreateActualLRP bbs desiredLRP index w).2.store =
        (createActualLRP bbs desiredLRP index w).2.store ∧
      (∀ (services : Except BBSError String)
          (auctioneerClient : String → List LRPStartRequest → Except BBSError Unit),
        (CreateActualLRP
            { bbs with services := services, auctioneerClient := auctioneerClient }
            desiredLRP index w).1 = (CreateActualLRP bbs desiredLRP index w).1 ∧
          (CreateActualLRP
            { bbs with services := services, auctioneerClient := auctioneerClient }
            desiredLRP index w).2.store = (CreateActualLRP bbs desiredLRP index w).2.store) := by
  have hmain : ∀ b : LRPBBS,
      (CreateActualLRP b desiredLRP index w).1 = (createActualLRP b desiredLRP index w).1 ∧
        (CreateActualLRP b desiredLRP index w).2.store =
          (createActualLRP b desiredLRP index w).2.store := by
    intro b
    unfold CreateActualLRP
    rcases hc : createActualLRP b desiredLRP index w with ⟨r, w1⟩
    cases r with
    | error err => exact ⟨rfl, rfl⟩
    | ok u =>
      cases u
      simp only [requestLRPAuctions_world]
      exact ⟨trivial, trivial⟩
  have hclock : ∀ (services : Except BBSError String)
      (auctioneerClient : String → List LRPStartRequest → Except BBSError Unit),
      createActualLRP { bbs with services := services, auctioneerClient := auctioneerClient }
        desiredLRP index w = createActualLRP bbs desiredLRP index w := by
    intro services auctioneerClient
    rfl
  refine ⟨(hmain bbs).1, (hmain bbs).2, ?_⟩
  intro services auctioneerClient
  rw [(hmain _).1, (hmain _).2, (hmain bbs).1, (hmain bbs).2, hclock]
  exact ⟨rfl, rfl⟩

/-! ### Two racing `ClaimActualLRP` calls -/

theorem claimRead_unclaimed (bbs : LRPBBS) (key : ActualLRPKey)
    (containerKey : ActualLRPContainerKey) (w : World) (node : StoreNode) (lrp : ActualLRP)
    (hnode : w.store.nodes (ActualLRPSchemaPath key.ProcessGuid key.Index) = some node)
    (hval : FromJSON node.Value = Except.ok lrp)
    (hkey : lrp.ActualLRPKey = key)
    (hstate : lrp.State = ActualLRPState.Unclaimed) :
    claimRead AllowsTransitionTo bbs key containerKey w =
      (Pending.swap node.Index
        { Key := ActualLRPSchemaPath key.ProcessGuid key.Index,
          Value := Bytes.json
            { ActualLRPKey := key,
              ActualLRPContainerKey := containerKey,
              ActualLRPNetInfo := emptyNetInfo,
              State := ActualLRPState.Claimed,
              Since := bbs.timeProvider },
          Index := 0 },
        w.record (Call.Get (ActualLRPSchemaPath key.ProcessGuid key.Index))) := by
  rw [claimRead_found _ _ _ _ _ node lrp hnode hval]
  subst hkey
  simp [hstate, AllowsTransitionTo]

/-- Of two compare-and-swaps issued against the same version of the same
path, the first wins and the second is refused. -/
theorem commit_swap_twice (w : World) (path : String) (node : StoreNode)
    (va vb : Bytes)
    (hnode : w.store.nodes path = some node) :
    ((Pending.swap node.Index { Key := path, Value := va, Index := 0 }).commit w).1 =
        Except.ok () ∧
      ((Pending.swap node.Index { Key := path, Value := vb, Index := 0 }).commit
          ((Pending.swap node.Index { Key := path, Value := va, Index := 0 }).commit w).2).1 =
        Except.error BBSError.ErrStoreComparisonFailed ∧
      ((Pending.swap node.Index { Key := path, Value := vb, Index := 0 }).commit
          ((Pending.swap node.Index { Key := path, Value := va, Index := 0 }).commit w).2).2.store.nodes
            path =
        some { Key := path, Value := va, Index := w.store.index + 1 } := by
  have hle : node.Index ≤ w.store.index := w.store.versioned _ _ hnode
  have hne : w.store.index + 1 ≠ node.Index := by omega
  have h1 : (Pending.swap node.Index { Key := path, Value := va, Index := 0 }).commit w =
      (Except.ok (), { store := w.store.put path va,
                       calls := w.calls ++ [Call.CompareAndSwapByIndex node.Index
                         { Key := path, Value := va, Index := 0 }] }) := by
    simp only [Pending.commit]
    rw [storeCompareAndSwapByIndex_match node.Index _ node _ hnode rfl]
  rw [h1]
  refine ⟨rfl, ?_, ?_⟩
  · simp only [Pending.commit]
    rw [storeCompareAndSwapByIndex_mismatch node.Index _ _ _
      (Store.put_nodes_self w.store path va) hne]
  · simp only [Pending.commit]
    rw [storeCompareAndSwapByIndex_mismatch node.Index _ _ _
      (Store.put_nodes_self w.store path va) hne]
    exact Store.put_nodes_self w.store path va

/-- C9: two `ClaimActualLRP` calls on the key of an Unclaimed record that
both read the record before either writes. Whatever the order of the two
reads, the call whose conditional write comes first returns success, the
other returns the comparison-failure error, and the record stored afterwards
is Claimed with the container key (and clock) of the call that succeeded. -/
theorem raceClaimActualLRP_one_winner (bbsA bbsB : LRPBBS) (key : ActualLRPKey)
    (containerKeyA containerKeyB : ActualLRPContainerKey) (aReadsFirst : Bool) (w : World)
    (node : StoreNode) (lrp : ActualLRP)
    (hnode : w.store.nodes (ActualLRPSchemaPath key.ProcessGuid key.Index) = some node)
    (hval : FromJSON node.Value = Except.ok lrp)
    (hkey : lrp.ActualLRPKey = key)
    (hstate : lrp.State = ActualLRPState.Unclaimed) :
    ((raceClaimActualLRP AllowsTransitionTo bbsA key containerKeyA bbsB key containerKeyB
          aReadsFirst true w).1 = Except.ok () ∧
      (raceClaimActualLRP AllowsTransitionTo bbsA key containerKeyA bbsB key containerKeyB
          aReadsFirst true w).2.1 = Except.error BBSError.ErrStoreComparisonFailed ∧
      (raceClaimActualLRP AllowsTransitionTo bbsA key containerKeyA bbsB key containerKeyB
          aReadsFirst true w).2.2.store.nodes (ActualLRPSchemaPath key.ProcessGuid key.Index) =
        some { Key := ActualLRPSchemaPath key.ProcessGuid key.Index,
               Value := Bytes.json
                 { ActualLRPKey := key,
                   ActualLRPContainerKey := containerKeyA,
                   ActualLRPNetInfo := emptyNetInfo,
                   State := ActualLRPState.Claimed,
                   Since := bbsA.timeProvider },
               Index := w.store.index + 1 }) ∧
    ((raceClaimActualLRP AllowsTransitionTo bbsA key containerKeyA bbsB key containerKeyB
          aReadsFirst false w).1 = Except.error BBSError.ErrStoreComparisonFailed ∧
      (raceClaimActualLRP AllowsTransitionTo bbsA key containerKeyA bbsB key containerKeyB
          aReadsFirst false w).2.1 = Except.ok () ∧
      (raceClaimActualLRP AllowsTransitionTo bbsA key containerKeyA bbsB key containerKeyB
          aReadsFirst false w).2.2.store.nodes (ActualLRPSchemaPath key.ProcessGuid key.Index) =
        some { Key := ActualLRPSchemaPath key.ProcessGuid key.Index,
               Value := Bytes.json
                 { ActualLRPKey := key,
                   ActualLRPContainerKey := containerKeyB,
                   ActualLRPNetInfo := emptyNetInfo,
                   State := ActualLRPState.Claimed,
                   Since := bbsB.timeProvider },
               Index := w.store.index + 1 }) := by
  have hread : ∀ (b : LRPBBS) (ck : ActualLRPContainerKey) (w1 : World),
      w1.store = w.store →
      claimRead AllowsTransitionTo b key ck w1 =
        (Pending.swap node.Index
          { Key := ActualLRPSchemaPath key.ProcessGuid key.Index,
            Value := Bytes.json
              { ActualLRPKey := key,
                ActualLRPContainerKey := ck,
                ActualLRPNetInfo := emptyNetInfo,
                State := ActualLRPState.Claimed,
                Since := b.timeProvider },
            Index := 0 },
          w1.record (Call.Get (ActualLRPSchemaPath key.ProcessGuid key.Index))) := by
    intro b ck w1 hw
    exact claimRead_unclaimed b key ck w1 node lrp (by rw [hw]; exact hnode) hval hkey hstate
  have hswap : ∀ (w2 : World) (va vb : Bytes), w2.store = w.store →
      ((Pending.swap node.Index
          { Key := ActualLRPSchemaPath key.ProcessGuid key.Index, Value := va,
            Index := 0 }).commit w2).1 = Except.ok () ∧
      ((Pending.swap node.Index
          { Key := ActualLRPSchemaPath key.ProcessGuid key.Index, Value := vb,
            Index := 0 }).commit
        ((Pending.swap node.Index
          { Key := ActualLRPSchemaPath key.ProcessGuid key.Index, Value := va,
            Index := 0 }).commit w2).2).1 = Except.error BBSError.ErrStoreComparisonFailed ∧
      ((Pending.swap node.Index
          { Key := ActualLRPSchemaPath key.ProcessGuid key.Index, Value := vb,
            Index := 0 }).commit
        ((Pending.swap node.Index
          { Key := ActualLRPSchemaPath key.ProcessGuid key.Index, Value := va,
            Index := 0 }).commit w2).2).2.store.nodes
            (ActualLRPSchemaPath key.ProcessGuid key.Index) =
        some { Key := ActualLRPSchemaPath key.ProcessGuid key.Index, Value := va,
               Index := w.store.index + 1 } := by
    intro w2 va vb hw
    have h := commit_swap_twice w2 (ActualLRPSchemaPath key.ProcessGuid key.Index) node va vb
      (by rw [hw]; exact hnode)
    rw [hw] at h
    exact h
  have hA := hswap
    ((w.record (Call.Get (ActualLRPSchemaPath key.ProcessGuid key.Index))).record
      (Call.Get (ActualLRPSchemaPath key.ProcessGuid key.Index)))
    (Bytes.json
      { ActualLRPKey := key,
        ActualLRPContainerKey := containerKeyA,
        ActualLRPNetInfo := emptyNetInfo,
        State := ActualLRPState.Claimed,
        Since := bbsA.timeProvider })
    (Bytes.json
      { ActualLRPKey := key,
        ActualLRPContainerKey := containerKeyB,
        ActualLRPNetInfo := emptyNetInfo,
        State := ActualLRPState.Claimed,
        Since := bbsB.timeProvider }) rfl
  have hB := hswap
    ((w.record (Call.Get (ActualLRPSchemaPath key.ProcessGuid key.Index))).record
      (Call.Get (ActualLRPSchemaPath key.ProcessGuid key.Index)))
    (Bytes.json
      { ActualLRPKey := key,
        ActualLRPContainerKey := containerKeyB,
        ActualLRPNetInfo := emptyNetInfo,
        State := ActualLRPState.Claimed,
        Since := bbsB.timeProvider })
    (Bytes.json
      { ActualLRPKey := key,
        ActualLRPContainerKey := containerKeyA,
        ActualLRPNetInfo := emptyNetInfo,
        State := ActualLRPState.Claimed,
        Since := bbsA.timeProvider }) rfl
  cases aReadsFirst
  · simp only [raceClaimActualLRP, Bool.false_eq_true, if_false, if_true,
      hread bbsB containerKeyB w rfl,
      hread bbsA containerKeyA
        (w.record (Call.Get (ActualLRPSchemaPath key.ProcessGuid key.Index))) rfl]
    exact ⟨hA, hB.2.1, hB.1, hB.2.2⟩
  · simp only [raceClaimActualLRP, if_true, Bool.false_eq_true, if_false,
      hread bbsA containerKeyA w rfl,
      hread bbsB containerKeyB
        (w.record (Call.Get (ActualLRPSchemaPath key.ProcessGuid key.Index))) rfl]
    exact ⟨hA, hB.2.1, hB.1, hB.2.2⟩

theorem raceClaimActualLRP_one_winner_witness :
    (raceClaimActualLRP AllowsTransitionTo exampleBBS exampleKey exampleContainerKey
        failingBBS exampleKey otherContainerKey true false
        (worldWith (exampleLRP ActualLRPState.Unclaimed emptyContainerKey emptyNetInfo))).1 =
      Except.error BBSError.ErrStoreComparisonFailed ∧
    (raceClaimActualLRP AllowsTransitionTo exampleBBS exampleKey exampleContainerKey
        failingBBS exampleKey otherContainerKey true false
        (worldWith (exampleLRP ActualLRPState.Unclaimed emptyContainerKey emptyNetInfo))).2.1 =
      Except.ok () :=
  have h := raceClaimActualLRP_one_winner exampleBBS failingBBS exampleKey exampleContainerKey
    otherContainerKey true
    (worldWith (exampleLRP ActualLRPState.Unclaimed emptyContainerKey emptyNetInfo))
    _ (exampleLRP ActualLRPState.Unclaimed emptyContainerKey emptyNetInfo)
    (worldWith_nodes _) rfl rfl rfl
  ⟨h.2.1, h.2.2.1⟩

/-! ### `RetireActualLRPs` -/

theorem Task.Sound_mono (s0 s s2 : Store) (t : Task)
    (hmono : ∀ path, s2.nodes path = s.nodes path ∨ s2.nodes path = none)
    (h : t.Sound s0 s) : t.Sound s0 s2 := by
  unfold Task.Sound at *
  cases hp : t.phase with
  | submitted => simp
  | removing p =>
    simp only [hp] at h ⊢
    refine ⟨h.1, ?_⟩
    rcases h.2 with ⟨r, hr, hnone⟩ | hdel
    · left
      refine ⟨r, hr, ?_⟩
      rcases hmono (schemaPathOf t.lrp) with h2 | h2
      · rw [h2, hnone]
      · exact h2
    · right
      exact hdel
  | finished r =>
    simp only [hp] at h ⊢
    intro hu
    rcases hmono (schemaPathOf t.lrp) with h2 | h2
    · rw [h2, h hu]
    · exact h2

/-- One round-trip of one task keeps the pool's books. -/
theorem Task.step_spec (bbs : LRPBBS) (lrps : List ActualLRP) (s0 : Store) (t : Task)
    (w : World) (hmem : t.lrp ∈ lrps) (hstored : StoredAsListed lrps s0)
    (hs : ErasedOnly lrps s0 w.store) (ht : t.Sound s0 w.store) :
    (t.step bbs w).1.lrp = t.lrp ∧
      ErasedOnly lrps s0 (t.step bbs w).2.store ∧
      (∀ path, (t.step bbs w).2.store.nodes path = w.store.nodes path ∨
        (t.step bbs w).2.store.nodes path = none) ∧
      (t.step bbs w).1.Sound s0 (t.step bbs w).2.store ∧
      ∃ new, (t.step bbs w).2.calls = w.calls ++ new ∧
        (∀ c, (new.filter Call.isStop).count c + (issuedStops [t]).count c =
          (issuedStops [(t.step bbs w).1]).count c) ∧
        WritesAreRemovals lrps new := by
  obtain ⟨lrp, phase⟩ := t
  simp only at hmem
  cases phase with
  | submitted =>
    by_cases hu : lrp.State = ActualLRPState.Unclaimed
    · -- the read half of RemoveActualLRP
      have hstep : (Task.step bbs { lrp := lrp, phase := Phase.submitted } w) =
          ({ lrp := lrp, phase := Phase.removing
              (removeRead lrp.ActualLRPKey lrp.ActualLRPContainerKey w).1 },
            (removeRead lrp.ActualLRPKey lrp.ActualLRPContainerKey w).2) := by
        simp [Task.step, hu]
      rw [hstep]
      obtain ⟨node, hn0, hval⟩ := hstored lrp hmem hu
      have hcases : (removeRead lrp.ActualLRPKey lrp.ActualLRPContainerKey w =
            (Pending.done (Except.error BBSError.ErrStoreResourceNotFound),
              w.record (Call.Get (schemaPathOf lrp))) ∧
            w.store.nodes (schemaPathOf lrp) = none) ∨
          removeRead lrp.ActualLRPKey lrp.ActualLRPContainerKey w =
            (Pending.delete
              { Key := schemaPathOf lrp, Value := Bytes.raw [], Index := node.Index },
              w.record (Call.Get (schemaPathOf lrp))) := by
        rcases hs (schemaPathOf lrp) with h1 | ⟨h1, _⟩
        · right
          rw [hn0] at h1
          rw [removeRead_found _ _ _ node lrp h1 hval]
          simp [schemaPathOf]
        · left
          exact ⟨removeRead_not_found _ _ _ h1, h1⟩
      have hfin : ∀ p : Pending,
          issuedStops [({ lrp := lrp, phase := Phase.removing p } : Task)] = [] := by
        intro p
        simp [issuedStops, Task.stopIssued, hu]
      rcases hcases with ⟨hr, hnone⟩ | hr
      · rw [hr]
        refine ⟨rfl, hs, fun path => Or.inl rfl, ?_, [Call.Get (schemaPathOf lrp)], rfl, ?_, ?_⟩
        · exact ⟨hu, Or.inl ⟨_, rfl, hnone⟩⟩
        · intro c
          rw [hfin]
          simp [issuedStops, Task.stopIssued, Call.isStop]
        · intro c hc hw
          simp at hc
          subst hc
          simp [Call.isWrite] at hw
      · rw [hr]
        refine ⟨rfl, hs, fun path => Or.inl rfl, ?_, [Call.Get (schemaPathOf lrp)], rfl, ?_, ?_⟩
        · exact ⟨hu, Or.inr ⟨node, hn0, rfl⟩⟩
        · intro c
          rw [hfin]
          simp [issuedStops, Task.stopIssued, Call.isStop]
        · intro c hc hw
          simp at hc
          subst hc
          simp [Call.isWrite] at hw
    · -- the stop request
      have hstep : (Task.step bbs { lrp := lrp, phase := Phase.submitted } w) =
          ({ lrp := lrp, phase := Phase.finished
              (bbs.cellClient lrp.ActualLRPKey lrp.ActualLRPContainerKey) },
            w.record (stopCallOf lrp)) := by
        simp [Task.step, hu, retireActualLRP, RequestStopLRPInstance, stopCallOf]
      rw [hstep]
      refine ⟨rfl, hs, fun path => Or.inl rfl, ?_, [stopCallOf lrp], rfl, ?_, ?_⟩
      · intro h
        exact absurd h hu
      · intro c
        simp [issuedStops, Task.stopIssued, Call.isStop, stopCallOf, hu]
      · intro c hc hw
        simp at hc
        subst hc
        simp [Call.isWrite, stopCallOf] at hw
  | removing p =>
    obtain ⟨hu0, hp⟩ := ht
    have hu : lrp.State = ActualLRPState.Unclaimed := hu0
    clear hu0
    dsimp only at hp
    have hstep : (Task.step bbs { lrp := lrp, phase := Phase.removing p } w) =
        ({ lrp := lrp, phase := Phase.finished (p.commit w).1 }, (p.commit w).2) := by
      simp [Task.step]
    rw [hstep]
    have hstops : ∀ (ph ph2 : Phase) (c : Call),
        ((([] : List Call).filter Call.isStop).count c) +
            (issuedStops [({ lrp := lrp, phase := ph } : Task)]).count c =
          (issuedStops [({ lrp := lrp, phase := ph2 } : Task)]).count c := by
      intro ph ph2 c
      cases ph <;> cases ph2 <;> simp [issuedStops, Task.stopIssued, hu]
    rcases hp with ⟨r, hr, hnone⟩ | ⟨node, hn0, hdel⟩
    · subst hr
      refine ⟨rfl, hs, fun path => Or.inl rfl, ?_, [], ?_, ?_, ?_⟩
      · intro _
        exact hnone
      · simp [Pending.commit]
      · exact hstops _ _
      · intro c hc
        simp at hc
    · subst hdel
      rcases hs (schemaPathOf lrp) with h1 | ⟨h1, _⟩
      · -- the record is still there: the delete goes through
        rw [hn0] at h1
        have hc : (Pending.delete
            { Key := schemaPathOf lrp, Value := Bytes.raw [], Index := node.Index }).commit w =
            (Except.ok (),
              { store := w.store.erase (schemaPathOf lrp),
                calls := w.calls ++ [Call.CompareAndDeleteByIndex
                  { Key := schemaPathOf lrp, Value := Bytes.raw [], Index := node.Index }] }) := by
          simp only [Pending.commit]
          rw [storeCompareAndDeleteByIndex_match
            { Key := schemaPathOf lrp, Value := Bytes.raw [], Index := node.Index } node w h1 rfl]
        rw [hc]
        refine ⟨rfl, ?_, ?_, ?_, _, rfl, ?_, ?_⟩
        · intro path
          by_cases hpath : path = schemaPathOf lrp
          · right
            subst hpath
            exact ⟨Store.erase_nodes_self _ _, lrp, hmem, hu, rfl⟩
          · have := Store.erase_nodes_other w.store (schemaPathOf lrp) path hpath
            rcases hs path with h2 | h2
            · left
              simp only [this, h2]
            · right
              simp only [this]
              exact h2
        · intro path
          by_cases hpath : path = schemaPathOf lrp
          · right
            subst hpath
            exact Store.erase_nodes_self _ _
          · left
            exact Store.erase_nodes_other w.store (schemaPathOf lrp) path hpath
        · intro _
          exact Store.erase_nodes_self _ _
        · intro c
          have := hstops (Phase.removing (Pending.delete
            { Key := schemaPathOf lrp, Value := Bytes.raw [], Index := node.Index }))
            (Phase.finished (Except.ok ())) c
          simpa [Call.isStop] using this
        · intro c hc hw
          simp at hc
          subst hc
          exact ⟨lrp, hmem, hu, node.Index, rfl⟩
      · -- another task removed it in between: not found
        have hc : (Pending.delete
            { Key := schemaPathOf lrp, Value := Bytes.raw [], Index := node.Index }).commit w =
            (Except.error BBSError.ErrStoreResourceNotFound,
              w.record (Call.CompareAndDeleteByIndex
                { Key := schemaPathOf lrp, Value := Bytes.raw [], Index := node.Index })) := by
          simp only [Pending.commit]
          rw [storeCompareAndDeleteByIndex_absent
            { Key := schemaPathOf lrp, Value := Bytes.raw [], Index := node.Index } w h1]
        rw [hc]
        refine ⟨rfl, hs, fun path => Or.inl rfl, ?_, _, rfl, ?_, ?_⟩
        · intro _
          exact h1
        · intro c
          have := hstops (Phase.removing (Pending.delete
            { Key := schemaPathOf lrp, Value := Bytes.raw [], Index := node.Index }))
            (Phase.finished (Except.error BBSError.ErrStoreResourceNotFound)) c
          simpa [Call.isStop] using this
        · intro c hc hw
          simp at hc
          subst hc
          exact ⟨lrp, hmem, hu, node.Index, rfl⟩
  | finished r =>
    have hstep : (Task.step bbs { lrp := lrp, phase := Phase.finished r } w) =
        ({ lrp := lrp, phase := Phase.finished r }, w) := by
      simp [Task.step]
    rw [hstep]
    refine ⟨rfl, hs, fun path => Or.inl rfl, ht, [], by simp, ?_, ?_⟩
    · intro c
      simp
    · intro c hc
      simp at hc

theorem issuedStops_append (xs ys : List Task) :
    issuedStops (xs ++ ys) = issuedStops xs ++ issuedStops ys := by
  simp [issuedStops]

theorem issuedStops_cons (t : Task) (ts : List Task) :
    issuedStops (t :: ts) = issuedStops [t] ++ issuedStops ts := by
  rw [← issuedStops_append]
  rfl

/-- A round-trip of the task in the middle of the pool keeps the invariant. -/
theorem PoolInv.step_in_context (bbs : LRPBBS) (lrps : List ActualLRP) (w0 w : World)
    (pre post : List Task) (t : Task) (hstored : StoredAsListed lrps w0.store)
    (h : PoolInv lrps w0 (pre ++ t :: post) w) :
    PoolInv lrps w0 (pre ++ (t.step bbs w).1 :: post) (t.step bbs w).2 := by
  have hmem : t.lrp ∈ lrps := by
    rw [← h.lrps_eq]
    exact List.mem_map_of_mem Task.lrp (by simp)
  obtain ⟨hlrp, hstore, hmono, hsound, new, hcalls, hcount, hwrites⟩ :=
    Task.step_spec bbs lrps w0.store t w hmem hstored h.store (h.sound t (by simp))
  obtain ⟨made, hmade, hmcount, hmwrites⟩ := h.calls
  refine ⟨?_, hstore, ?_, made ++ new, ?_, ?_, ?_⟩
  · have := h.lrps_eq
    simp only [List.map_append, List.map_cons] at this ⊢
    rw [hlrp]
    exact this
  · intro t2 ht2
    simp only [List.mem_append, List.mem_cons] at ht2
    rcases ht2 with h2 | h2 | h2
    · exact Task.Sound_mono _ _ _ _ hmono (h.sound t2 (by simp [h2]))
    · rw [h2]
      exact hsound
    · exact Task.Sound_mono _ _ _ _ hmono (h.sound t2 (by simp [h2]))
  · rw [hcalls, hmade, List.append_assoc]
  · intro c
    have h1 := hmcount c
    have h2 := hcount c
    rw [issuedStops_append, issuedStops_cons] at h1 ⊢
    simp only [List.filter_append, List.count_append] at h1 ⊢
    omega
  · intro c hc hw
    simp only [List.mem_append] at hc
    rcases hc with hc | hc
    · exact hmwrites c hc hw
    · exact hwrites c hc hw

theorem stepAt_cases (bbs : LRPBBS) (i : Nat) (tasks : List Task) (w : World) :
    stepAt bbs i tasks w = (tasks, w) ∨
      ∃ pre t post, tasks = pre ++ t :: post ∧
        stepAt bbs i tasks w = (pre ++ (t.step bbs w).1 :: post, (t.step bbs w).2) := by
  induction tasks generalizing i with
  | nil =>
    left
    cases i <;> rfl
  | cons t ts ih =>
    cases i with
    | zero =>
      right
      exact ⟨[], t, ts, rfl, rfl⟩
    | succ i =>
      rcases ih i with h | ⟨pre, t2, post, hts, h⟩
      · left
        simp [stepAt, h]
      · right
        refine ⟨t :: pre, t2, post, by simp [hts], ?_⟩
        simp [stepAt, h]

theorem PoolInv.stepAt (bbs : LRPBBS) (lrps : List ActualLRP) (w0 w : World) (i : Nat)
    (tasks : List Task) (hstored : StoredAsListed lrps w0.store)
    (h : PoolInv lrps w0 tasks w) :
    PoolInv lrps w0 (LRPLifecycle.stepAt bbs i tasks w).1
      (LRPLifecycle.stepAt bbs i tasks w).2 := by
  rcases stepAt_cases bbs i tasks w with h1 | ⟨pre, t, post, hts, h1⟩
  · rw [h1]
    exact h
  · rw [h1]
    subst hts
    exact PoolInv.step_in_context bbs lrps w0 w pre post t hstored h

theorem PoolInv.runSchedule (bbs : LRPBBS) (lrps : List ActualLRP) (w0 : World)
    (hstored : StoredAsListed lrps w0.store) (schedule : List Nat) (tasks : List Task)
    (w : World) (h : PoolInv lrps w0 tasks w) :
    PoolInv lrps w0 (LRPLifecycle.runSchedule bbs schedule tasks w).1
      (LRPLifecycle.runSchedule bbs schedule tasks w).2 := by
  induction schedule generalizing tasks w with
  | nil => exact h
  | cons i rest ih =>
    simp only [LRPLifecycle.runSchedule]
    exact ih _ _ (PoolInv.stepAt bbs lrps w0 w i tasks hstored h)

/-- A task run alone from its submission is one call of `retireActualLRP`:
its two round-trips compose to it. -/
theorem retireActualLRP_eq_steps (bbs : LRPBBS) (lrp : ActualLRP) (w : World) :
    ((({ lrp := lrp, phase := Phase.submitted } : Task).step bbs w).1.step bbs
        (({ lrp := lrp, phase := Phase.submitted } : Task).step bbs w).2) =
      ({ lrp := lrp, phase := Phase.finished (retireActualLRP bbs lrp w).1 },
        (retireActualLRP bbs lrp w).2) := by
  by_cases hu : lrp.State = ActualLRPState.Unclaimed
  · simp [Task.step, retireActualLRP, hu, RemoveActualLRP_eq_read_commit]
  · simp [Task.step, hu]

/-- Running a task to its end is making its (at most two) round-trips. -/
theorem Task.finish_eq_step_step (bbs : LRPBBS) (t : Task) (w : World) :
    t.finish bbs w = (t.step bbs w).1.step bbs (t.step bbs w).2 := by
  obtain ⟨lrp, phase⟩ := t
  cases phase with
  | submitted =>
    rw [retireActualLRP_eq_steps]
    rfl
  | removing p => simp [Task.finish, Task.step]
  | finished r => simp [Task.finish, Task.step]

theorem Task.step_step_isFinished (bbs : LRPBBS) (t : Task) (w : World) :
    (((t.step bbs w).1).step bbs (t.step bbs w).2).1.isFinished = true := by
  obtain ⟨lrp, phase⟩ := t
  cases phase with
  | submitted =>
    by_cases hu : lrp.State = ActualLRPState.Unclaimed <;>
      simp [Task.step, hu, Task.isFinished]
  | removing p => simp [Task.step, Task.isFinished]
  | finished r => simp [Task.step, Task.isFinished]

theorem PoolInv.drain (bbs : LRPBBS) (lrps : List ActualLRP) (w0 : World)
    (hstored : StoredAsListed lrps w0.store) (todo pre : List Task) (w : World)
    (h : PoolInv lrps w0 (pre ++ todo) w) :
    PoolInv lrps w0 (pre ++ (LRPLifecycle.drain bbs todo w).1)
        (LRPLifecycle.drain bbs todo w).2 ∧
      ∀ t ∈ (LRPLifecycle.drain bbs todo w).1, t.isFinished = true := by
  induction todo generalizing pre w with
  | nil =>
    simp only [LRPLifecycle.drain]
    exact ⟨h, fun t ht => by simp at ht⟩
  | cons t ts ih =>
    simp only [LRPLifecycle.drain]
    rw [Task.finish_eq_step_step]
    have h1 := PoolInv.step_in_context bbs lrps w0 w pre ts t hstored h
    have h2 := PoolInv.step_in_context bbs lrps w0 _ pre ts _ hstored h1
    have h3 := ih (pre ++ [((t.step bbs w).1.step bbs (t.step bbs w).2).1])
      ((t.step bbs w).1.step bbs (t.step bbs w).2).2 (by simpa using h2)
    refine ⟨by simpa using h3.1, ?_⟩
    intro t2 ht2
    simp only [List.mem_cons] at ht2
    rcases ht2 with h4 | h4
    · rw [h4]
      exact Task.step_step_isFinished bbs t w
    · exact h3.2 t2 h4

theorem PoolInv.initial (lrps : List ActualLRP) (w : World) :
    PoolInv lrps w
      (lrps.map (fun lrp => ({ lrp := lrp, phase := Phase.submitted } : Task))) w := by
  refine ⟨?_, fun path => Or.inl rfl, ?_, [], by simp, ?_, ?_⟩
  · simp [Function.comp_def]
  · intro t ht
    simp only [List.mem_map] at ht
    obtain ⟨lrp, _, rfl⟩ := ht
    trivial
  · intro c
    have : issuedStops
        (lrps.map (fun lrp => ({ lrp := lrp, phase := Phase.submitted } : Task))) = [] := by
      simp [issuedStops, List.filter_eq_nil_iff, Task.stopIssued]
    rw [this]
    simp
  · intro c hc
    simp at hc

theorem issuedStops_finished (tasks : List Task)
    (h : ∀ t ∈ tasks, t.isFinished = true) :
    issuedStops tasks = stopCalls (tasks.map Task.lrp) := by
  induction tasks with
  | nil => rfl
  | cons t ts ih =>
    have ht := h t (by simp)
    have hts := ih (fun t2 ht2 => h t2 (by simp [ht2]))
    obtain ⟨lrp, phase⟩ := t
    cases phase with
    | submitted => simp [Task.isFinished] at ht
    | removing p => simp [Task.isFinished] at ht
    | finished r =>
      rw [issuedStops_cons, hts]
      by_cases hu : lrp.State = ActualLRPState.Unclaimed <;>
        simp [issuedStops, stopCalls, Task.stopIssued, hu]

/-- On a record in another state than Unclaimed, `retireActualLRP` is the
stop request for that record, and its result is the cell's answer. -/
theorem retireActualLRP_stop (bbs : LRPBBS) (lrp : ActualLRP) (w : World)
    (hu : lrp.State ≠ ActualLRPState.Unclaimed) :
    retireActualLRP bbs lrp w =
      (bbs.cellClient lrp.ActualLRPKey lrp.ActualLRPContainerKey,
        w.record (stopCallOf lrp)) := by
  simp [retireActualLRP, hu, RequestStopLRPInstance, stopCallOf]

/-- On an Unclaimed record that is the one stored at its path,
`retireActualLRP` deletes the record. -/
theorem retireActualLRP_unclaimed (bbs : LRPBBS) (lrp : ActualLRP) (w : World)
    (node : StoreNode) (hu : lrp.State = ActualLRPState.Unclaimed)
    (hnode : w.store.nodes
      (ActualLRPSchemaPath lrp.ActualLRPKey.ProcessGuid lrp.ActualLRPKey.Index) = some node)
    (hval : FromJSON node.Value = Except.ok lrp) :
    retireActualLRP bbs lrp w =
      (Except.ok (),
        { store := w.store.erase
            (ActualLRPSchemaPath lrp.ActualLRPKey.ProcessGuid lrp.ActualLRPKey.Index),
          calls := (w.calls ++
            [Call.Get (ActualLRPSchemaPath lrp.ActualLRPKey.ProcessGuid
              lrp.ActualLRPKey.Index)]) ++
            [Call.CompareAndDeleteByIndex
              { Key := ActualLRPSchemaPath lrp.ActualLRPKey.ProcessGuid
                  lrp.ActualLRPKey.Index,
                Value := Bytes.raw [], Index := node.Index }] }) := by
  unfold retireActualLRP
  rw [if_pos hu]
  exact RemoveActualLRP_match_path lrp.ActualLRPKey lrp.ActualLRPContainerKey w node lrp
    hnode hval rfl rfl

/-- With no task interleaved, the barrier runs the calls of
`retireActualLRP` one after the other, in the order of the list. -/
theorem drain_submitted (bbs : LRPBBS) (lrps : List ActualLRP) (w : World) :
    (drain bbs (lrps.map (fun lrp => ({ lrp := lrp, phase := Phase.submitted } : Task)))
        w).2 =
      lrps.foldl (fun w1 lrp => (retireActualLRP bbs lrp w1).2) w := by
  induction lrps generalizing w with
  | nil => rfl
  | cons lrp rest ih =>
    simp only [List.map_cons, drain, Task.finish, List.foldl_cons]
    exact ih _

/-- C8: for every list of records in which each Unclaimed record is the
record stored at its path, every cell behaviour and every interleaving the
work pool produces (`schedule`), when `RetireActualLRPs` returns: no
Unclaimed record of the list is left in the store; the stop requests made
are, up to order, exactly one per record of the list in another state, each
carrying that record's key and container key; every store write made is the
compare-and-delete of an Unclaimed record of the list, and every path that
is not the path of such a record holds what it held. The call has no error
to report: it returns only the world it leaves. The work done for each
record is `retireActualLRP`: in the schedule that interleaves nothing the
world left is that of calling `retireActualLRP` on the records one after
the other; on a record in another state than Unclaimed `retireActualLRP`
is, in every world, the one stop request for that record, whose answer it
returns; on an Unclaimed record of the list it succeeds and leaves no record
at that record's path. -/
theorem RetireActualLRPs_retires_all (bbs : LRPBBS) (lrps : List ActualLRP)
    (schedule : List Nat) (w : World)
    (hstored : ∀ lrp ∈ lrps, lrp.State = ActualLRPState.Unclaimed →
      ∃ node,
        w.store.nodes
            (ActualLRPSchemaPath lrp.ActualLRPKey.ProcessGuid lrp.ActualLRPKey.Index) =
          some node ∧
        FromJSON node.Value = Except.ok lrp) :
    (∀ lrp ∈ lrps, lrp.State = ActualLRPState.Unclaimed →
        (RetireActualLRPs bbs lrps schedule w).store.nodes
          (ActualLRPSchemaPath lrp.ActualLRPKey.ProcessGuid lrp.ActualLRPKey.Index) = none) ∧
      (∃ made, (RetireActualLRPs bbs lrps schedule w).calls = w.calls ++ made ∧
        (made.filter Call.isStop).Perm (stopCalls lrps) ∧
        (∀ c ∈ made, c.isWrite = true →
          ∃ lrp ∈ lrps, lrp.State = ActualLRPState.Unclaimed ∧
            ∃ index, c = Call.CompareAndDeleteByIndex
              { Key := ActualLRPSchemaPath lrp.ActualLRPKey.ProcessGuid lrp.ActualLRPKey.Index,
                Value := Bytes.raw [], Index := index })) ∧
      (∀ path,
        (∀ lrp ∈ lrps, lrp.State = ActualLRPState.Unclaimed →
          ActualLRPSchemaPath lrp.ActualLRPKey.ProcessGuid lrp.ActualLRPKey.Index ≠ path) →
        (RetireActualLRPs bbs lrps schedule w).store.nodes path = w.store.nodes path) ∧
      RetireActualLRPs bbs lrps [] w =
        lrps.foldl (fun w1 lrp => (retireActualLRP bbs lrp w1).2) w ∧
      (∀ lrp ∈ lrps, lrp.State ≠ ActualLRPState.Unclaimed →
        ∀ w1, retireActualLRP bbs lrp w1 =
          (bbs.cellClient lrp.ActualLRPKey lrp.ActualLRPContainerKey,
            w1.record (Call.RequestStopLRPInstance lrp.ActualLRPKey
              lrp.ActualLRPContainerKey))) ∧
      (∀ lrp ∈ lrps, lrp.State = ActualLRPState.Unclaimed →
        (retireActualLRP bbs lrp w).1 = Except.ok () ∧
        (retireActualLRP bbs lrp w).2.store.nodes
          (ActualLRPSchemaPath lrp.ActualLRPKey.ProcessGuid lrp.ActualLRPKey.Index) = none) := by
  have hseq : RetireActualLRPs bbs lrps [] w =
      lrps.foldl (fun w1 lrp => (retireActualLRP bbs lrp w1).2) w :=
    drain_submitted bbs lrps w
  have hstop : ∀ lrp ∈ lrps, lrp.State ≠ ActualLRPState.Unclaimed →
      ∀ w1, retireActualLRP bbs lrp w1 =
        (bbs.cellClient lrp.ActualLRPKey lrp.ActualLRPContainerKey,
          w1.record (Call.RequestStopLRPInstance lrp.ActualLRPKey
            lrp.ActualLRPContainerKey)) :=
    fun lrp _ hu w1 => retireActualLRP_stop bbs lrp w1 hu
  have hrem : ∀ lrp ∈ lrps, lrp.State = ActualLRPState.Unclaimed →
      (retireActualLRP bbs lrp w).1 = Except.ok () ∧
      (retireActualLRP bbs lrp w).2.store.nodes
        (ActualLRPSchemaPath lrp.ActualLRPKey.ProcessGuid lrp.ActualLRPKey.Index) = none := by
    intro lrp hmem hu
    obtain ⟨node, hnode, hval⟩ := hstored lrp hmem hu
    rw [retireActualLRP_unclaimed bbs lrp w node hu hnode hval]
    exact ⟨rfl, Store.erase_nodes_self _ _⟩
  have hrun := PoolInv.runSchedule bbs lrps w hstored schedule _ w (PoolInv.initial lrps w)
  have hdrain := PoolInv.drain bbs lrps w hstored _ [] _ (by simpa using hrun)
  obtain ⟨hinv, hfin⟩ := hdrain
  simp only [List.nil_append] at hinv
  have hw : RetireActualLRPs bbs lrps schedule w =
      (drain bbs
        (runSchedule bbs schedule
          (lrps.map (fun lrp => ({ lrp := lrp, phase := Phase.submitted } : Task))) w).1
        (runSchedule bbs schedule
          (lrps.map (fun lrp => ({ lrp := lrp, phase := Phase.submitted } : Task))) w).2).2 :=
    rfl
  rw [hw]
  refine ⟨?_, ?_, ?_, hseq, hstop, hrem⟩
  · intro lrp hmem hu
    rw [← hinv.lrps_eq] at hmem
    obtain ⟨t, ht, rfl⟩ := List.mem_map.mp hmem
    have hs := hinv.sound t ht
    have hf := hfin t ht
    unfold Task.Sound at hs
    cases hp : t.phase with
    | submitted => simp [Task.isFinished, hp] at hf
    | removing p => simp [Task.isFinished, hp] at hf
    | finished r =>
      simp only [hp] at hs
      exact hs hu
  · obtain ⟨made, hmade, hcount, hwrites⟩ := hinv.calls
    refine ⟨made, hmade, ?_, hwrites⟩
    rw [List.perm_iff_count]
    intro c
    rw [hcount c, issuedStops_finished _ hfin, hinv.lrps_eq]
  · intro path hpath
    rcases hinv.store path with h1 | ⟨_, lrp, hmem, hu, hp⟩
    · exact h1
    · exact absurd hp (hpath lrp hmem hu)

theorem RetireActualLRPs_retires_all_witness :
    (RetireActualLRPs failingBBS [unclaimedLRP, runningLRP] [1, 0, 1]
        (worldWith unclaimedLRP)).store.nodes
      (ActualLRPSchemaPath unclaimedLRP.ActualLRPKey.ProcessGuid
        unclaimedLRP.ActualLRPKey.Index) = none :=
  (RetireActualLRPs_retires_all failingBBS [unclaimedLRP, runningLRP] [1, 0, 1]
    (worldWith unclaimedLRP)
    (by
      intro lrp hmem hu
      simp only [List.mem_cons, List.mem_singleton, List.mem_nil_iff, or_false] at hmem
      rcases hmem with h | h
      · subst h
        exact ⟨_, worldWith_nodes unclaimedLRP, rfl⟩
      · subst h
        exact absurd hu (by decide))).1 unclaimedLRP (by simp) rfl

/-! ### What each operation does to the world -/

theorem storeCompareAndDeleteByIndex_mismatch (node old : StoreNode) (w : World)
    (h : w.store.nodes node.Key = some old) (hi : old.Index ≠ node.Index) :
    storeCompareAndDeleteByIndex node w =
      (Except.error BBSError.ErrStoreComparisonFailed,
        w.record (Call.CompareAndDeleteByIndex node)) := by
  simp [storeCompareAndDeleteByIndex, Store.CompareAndDeleteByIndex, h, hi]

/-- A compare-and-swap either is refused and leaves the store alone, or
finds the version it was given and puts the value. -/
theorem storeCompareAndSwapByIndex_cases (index : Nat) (node : StoreNode) (w : World) :
    (∃ err, storeCompareAndSwapByIndex index node w =
        (Except.error err, w.record (Call.CompareAndSwapByIndex index node))) ∨
      (∃ old, w.store.nodes node.Key = some old ∧ old.Index = index ∧
        storeCompareAndSwapByIndex index node w =
          (Except.ok (), { store := w.store.put node.Key node.Value,
                           calls := w.calls ++ [Call.CompareAndSwapByIndex index node] })) := by
  cases hn : w.store.nodes node.Key with
  | none => exact Or.inl ⟨_, storeCompareAndSwapByIndex_absent index node w hn⟩
  | some old =>
    by_cases hi : old.Index = index
    · exact Or.inr ⟨old, rfl, hi, storeCompareAndSwapByIndex_match index node old w hn hi⟩
    · exact Or.inl ⟨_, storeCompareAndSwapByIndex_mismatch index node old w hn hi⟩

/-- The three ways `getActualLRP` can answer. -/
theorem getActualLRP_cases (processGuid : String) (index : Int) (w : World) :
    (w.store.nodes (ActualLRPSchemaPath processGuid index) = none ∧
        getActualLRP processGuid index w =
          (Except.error BBSError.ErrStoreResourceNotFound,
            w.record (Call.Get (ActualLRPSchemaPath processGuid index)))) ∨
      (∃ node, w.store.nodes (ActualLRPSchemaPath processGuid index) = some node ∧
        getActualLRP processGuid index w =
          (Except.error BBSError.ErrInvalidJSON,
            w.record (Call.Get (ActualLRPSchemaPath processGuid index)))) ∨
      (∃ node lrp, w.store.nodes (ActualLRPSchemaPath processGuid index) = some node ∧
        FromJSON node.Value = Except.ok lrp ∧
        getActualLRP processGuid index w =
          (Except.ok (lrp, node.Index),
            w.record (Call.Get (ActualLRPSchemaPath processGuid index)))) := by
  cases hn : w.store.nodes (ActualLRPSchemaPath processGuid index) with
  | none => exact Or.inl ⟨rfl, getActualLRP_not_found _ _ _ hn⟩
  | some node =>
    cases hv : node.Value with
    | raw data =>
      exact Or.inr (Or.inl ⟨node, rfl,
        getActualLRP_undecodable _ _ _ node _ hn (by rw [hv]; rfl)⟩)
    | json lrp =>
      exact Or.inr (Or.inr ⟨node, lrp, rfl, by rw [hv]; rfl,
        getActualLRP_found _ _ _ node lrp hn (by rw [hv]; rfl)⟩)

/-- `ClaimActualLRP` either returns after its read, or has a write refused,
or swaps the claimed record in at the path computed from the record read. -/
theorem ClaimActualLRP_cases (legal : Legality) (bbs : LRPBBS) (key : ActualLRPKey)
    (containerKey : ActualLRPContainerKey) (w : World) :
    (∃ r, ClaimActualLRP legal bbs key containerKey w =
        (r, w.record (Call.Get (ActualLRPSchemaPath key.ProcessGuid key.Index)))) ∨
      (∃ node lrp err,
        w.store.nodes (ActualLRPSchemaPath key.ProcessGuid key.Index) = some node ∧
        FromJSON node.Value = Except.ok lrp ∧
        ClaimActualLRP legal bbs key containerKey w =
          (Except.error err,
            (w.record (Call.Get (ActualLRPSchemaPath key.ProcessGuid key.Index))).record
              (Call.CompareAndSwapByIndex node.Index
                (swapNode (claimedFrom bbs lrp containerKey))))) ∨
      (∃ node lrp old,
        w.store.nodes (ActualLRPSchemaPath key.ProcessGuid key.Index) = some node ∧
        FromJSON node.Value = Except.ok lrp ∧
        ¬ claimMatches lrp key containerKey ∧
        legal lrp key containerKey ActualLRPState.Claimed = true ∧
        w.store.nodes
          (ActualLRPSchemaPath lrp.ActualLRPKey.ProcessGuid lrp.ActualLRPKey.Index) =
            some old ∧
        old.Index = node.Index ∧
        ClaimActualLRP legal bbs key containerKey w =
          (Except.ok (),
            { store := w.store.put
                (ActualLRPSchemaPath lrp.ActualLRPKey.ProcessGuid lrp.ActualLRPKey.Index)
                (Bytes.json (claimedFrom bbs lrp containerKey)),
              calls := (w.calls ++
                [Call.Get (ActualLRPSchemaPath key.ProcessGuid key.Index)]) ++
                [Call.CompareAndSwapByIndex node.Index
                  (swapNode (claimedFrom bbs lrp containerKey))] })) := by
  unfold ClaimActualLRP
  rcases getActualLRP_cases key.ProcessGuid key.Index w with
    ⟨_, hg⟩ | ⟨node, _, hg⟩ | ⟨node, lrp, hn, hv, hg⟩
  · rw [hg]
    exact Or.inl ⟨Except.error BBSError.ErrActualLRPCannotBeClaimed, by simp⟩
  · rw [hg]
    exact Or.inl ⟨Except.error BBSError.ErrInvalidJSON, by simp⟩
  · rw [hg]
    by_cases h1 : lrp.ActualLRPKey = key ∧ lrp.ActualLRPContainerKey = containerKey ∧
        lrp.State = ActualLRPState.Claimed
    · exact Or.inl ⟨Except.ok (), by simp only [h1, and_self, if_true]⟩
    · cases h2 : legal lrp key containerKey ActualLRPState.Claimed with
      | false =>
        exact Or.inl ⟨Except.error BBSError.ErrActualLRPCannotBeClaimed,
          by simp only [if_neg h1, h2, if_true]⟩
      | true =>
        simp only [if_neg h1, h2, Bool.true_eq_false, if_false, ToJSON]
        rcases storeCompareAndSwapByIndex_cases node.Index
            (swapNode (claimedFrom bbs lrp containerKey))
            (w.record (Call.Get (ActualLRPSchemaPath key.ProcessGuid key.Index))) with
          ⟨err, hc⟩ | ⟨old, hold, hi, hc⟩
        · right
          left
          refine ⟨node, lrp, err, hn, hv, ?_⟩
          have hc2 := hc
          simp only [swapNode, claimedFrom] at hc2 ⊢
          rw [hc2]
        · right
          right
          refine ⟨node, lrp, old, hn, hv, h1, h2, hold, hi, ?_⟩
          have hc2 := hc
          simp only [swapNode, claimedFrom] at hc2 ⊢
          rw [hc2]
          rfl

/-- `StartActualLRP` either returns after its read, or creates the Running
record on an empty slot, or has a write refused, or swaps the started record
in at the path computed from the record read. -/
theorem StartActualLRP_cases (legal : Legality) (bbs : LRPBBS) (key : ActualLRPKey)
    (containerKey : ActualLRPContainerKey) (netInfo : ActualLRPNetInfo) (w : World) :
    (∃ r, StartActualLRP legal bbs key containerKey netInfo w =
        (r, w.record (Call.Get (ActualLRPSchemaPath key.ProcessGuid key.Index)))) ∨
      (w.store.nodes (ActualLRPSchemaPath key.ProcessGuid key.Index) = none ∧
        StartActualLRP legal bbs key containerKey netInfo w =
          (Except.ok (),
            w.afterCreate (ActualLRPSchemaPath key.ProcessGuid key.Index)
              (newRunningActualLRP bbs key containerKey netInfo))) ∨
      (∃ node lrp err,
        w.store.nodes (ActualLRPSchemaPath key.ProcessGuid key.Index) = some node ∧
        FromJSON node.Value = Except.ok lrp ∧
        StartActualLRP legal bbs key containerKey netInfo w =
          (Except.error err,
            (w.record (Call.Get (ActualLRPSchemaPath key.ProcessGuid key.Index))).record
              (Call.CompareAndSwapByIndex node.Index
                (swapNode (startedFrom bbs lrp containerKey netInfo))))) ∨
      (∃ node lrp old,
        w.store.nodes (ActualLRPSchemaPath key.ProcessGuid key.Index) = some node ∧
        FromJSON node.Value = Except.ok lrp ∧
        ¬ startMatches lrp key containerKey netInfo ∧
        legal lrp key containerKey ActualLRPState.Running = true ∧
        w.store.nodes
          (ActualLRPSchemaPath lrp.ActualLRPKey.ProcessGuid lrp.ActualLRPKey.Index) =
            some old ∧
        old.Index = node.Index ∧
        StartActualLRP legal bbs key containerKey netInfo w =
          (Except.ok (),
            { store := w.store.put
                (ActualLRPSchemaPath lrp.ActualLRPKey.ProcessGuid lrp.ActualLRPKey.Index)
                (Bytes.json (startedFrom bbs lrp containerKey netInfo)),
              calls := (w.calls ++
                [Call.Get (ActualLRPSchemaPath key.ProcessGuid key.Index)]) ++
                [Call.CompareAndSwapByIndex node.Index
                  (swapNode (startedFrom bbs lrp containerKey netInfo))] })) := by
  rcases getActualLRP_cases key.ProcessGuid key.Index w with
    ⟨hn, _⟩ | ⟨node, _, hg⟩ | ⟨node, lrp, hn, hv, hg⟩
  · right
    left
    exact ⟨hn, StartActualLRP_not_found_path legal bbs key containerKey netInfo w hn⟩
  · unfold StartActualLRP
    rw [hg]
    exact Or.inl ⟨Except.error BBSError.ErrInvalidJSON, by simp⟩
  · unfold StartActualLRP
    rw [hg]
    by_cases h1 : lrp.ActualLRPKey = key ∧ lrp.ActualLRPContainerKey = containerKey ∧
        lrp.ActualLRPNetInfo.Address = netInfo.Address ∧
        lrp.ActualLRPNetInfo.Ports = netInfo.Ports ∧ lrp.State = ActualLRPState.Running
    · exact Or.inl ⟨Except.ok (), by simp only [h1, and_self, if_true]⟩
    · cases h2 : legal lrp key containerKey ActualLRPState.Running with
      | false =>
        exact Or.inl ⟨Except.error BBSError.ErrActualLRPCannotBeStarted,
          by simp only [if_neg h1, h2, if_true]⟩
      | true =>
        simp only [if_neg h1, h2, Bool.true_eq_false, if_false, ToJSON]
        rcases storeCompareAndSwapByIndex_cases node.Index
            (swapNode (startedFrom bbs lrp containerKey netInfo))
            (w.record (Call.Get (ActualLRPSchemaPath key.ProcessGuid key.Index))) with
          ⟨err, hc⟩ | ⟨old, hold, hi, hc⟩
        · right
          right
          left
          refine ⟨node, lrp, err, hn, hv, ?_⟩
          have hc2 := hc
          simp only [swapNode, startedFrom] at hc2 ⊢
          rw [hc2]
        · right
          right
          right
          refine ⟨node, lrp, old, hn, hv, h1, h2, hold, hi, ?_⟩
          have hc2 := hc
          simp only [swapNode, startedFrom] at hc2 ⊢
          rw [hc2]
          rfl

/-- `RemoveActualLRP` either returns an error after its read, or deletes
the record it was asked to remove. -/
theorem RemoveActualLRP_cases (key : ActualLRPKey) (containerKey : ActualLRPContainerKey)
    (w : World) :
    (∃ err, RemoveActualLRP key containerKey w =
        (Except.error err,
          w.record (Call.Get (ActualLRPSchemaPath key.ProcessGuid key.Index))) ∧
        ¬ ∃ node lrp,
          w.store.nodes (ActualLRPSchemaPath key.ProcessGuid key.Index) = some node ∧
          FromJSON node.Value = Except.ok lrp ∧
          lrp.ActualLRPKey = key ∧ lrp.ActualLRPContainerKey = containerKey) ∨
      (∃ node lrp,
        w.store.nodes (ActualLRPSchemaPath key.ProcessGuid key.Index) = some node ∧
        FromJSON node.Value = Except.ok lrp ∧
        lrp.ActualLRPKey = key ∧ lrp.ActualLRPContainerKey = containerKey ∧
        RemoveActualLRP key containerKey w =
          (Except.ok (),
            { store := w.store.erase (ActualLRPSchemaPath key.ProcessGuid key.Index),
              calls := (w.calls ++
                [Call.Get (ActualLRPSchemaPath key.ProcessGuid key.Index)]) ++
                [Call.CompareAndDeleteByIndex
                  { Key := ActualLRPSchemaPath key.ProcessGuid key.Index,
                    Value := Bytes.raw [], Index := node.Index }] })) := by
  rcases getActualLRP_cases key.ProcessGuid key.Index w with
    ⟨hn, hg⟩ | ⟨node, hn, hg⟩ | ⟨node, lrp, hn, hv, hg⟩
  · left
    refine ⟨BBSError.ErrStoreResourceNotFound, ?_, ?_⟩
    · unfold RemoveActualLRP
      rw [hg]
    · rintro ⟨node, lrp, hn2, _⟩
      rw [hn] at hn2
      cases hn2
  · left
    refine ⟨BBSError.ErrInvalidJSON, ?_, ?_⟩
    · unfold RemoveActualLRP
      rw [hg]
    · rintro ⟨node2, lrp, hn2, hv2, _⟩
      rw [hn] at hn2
      cases hn2
      unfold getActualLRP storeGet Store.Get at hg
      simp only [hn, hv2] at hg
      cases hg
  · by_cases hm : lrp.ActualLRPKey = key ∧ lrp.ActualLRPContainerKey = containerKey
    · right
      exact ⟨node, lrp, hn, hv, hm.1, hm.2,
        RemoveActualLRP_match_path key containerKey w node lrp hn hv hm.1 hm.2⟩
    · left
      refine ⟨BBSError.ErrStoreComparisonFailed, ?_, ?_⟩
      · have hmis : lrp.ActualLRPKey ≠ key ∨ lrp.ActualLRPContainerKey ≠ containerKey := by
          by_cases hk : lrp.ActualLRPKey = key
          · exact Or.inr (fun hc => hm ⟨hk, hc⟩)
          · exact Or.inl hk
        rw [RemoveActualLRP_eq_read_commit, removeRead_found _ _ _ node lrp hn hv]
        simp only [hmis, if_true, Pending.commit]
      · rintro ⟨node2, lrp2, hn2, hv2, hk2, hc2⟩
        rw [hn] at hn2
        cases hn2
        rw [hv] at hv2
        cases hv2
        exact hm ⟨hk2, hc2⟩

/-- `CreateActualLRP` either is refused by the index guard, or finds the
slot taken, or creates the Unclaimed record. -/
theorem CreateActualLRP_cases (bbs : LRPBBS) (desiredLRP : DesiredLRP) (index : Int)
    (w : World) :
    (index ≥ desiredLRP.Instances ∧
        CreateActualLRP bbs desiredLRP index w =
          (Except.error (BBSError.actualLRPIndexTooLargeError index desiredLRP.Instances),
            w)) ∨
      (∃ old, index < desiredLRP.Instances ∧
        w.store.nodes (ActualLRPSchemaPath desiredLRP.ProcessGuid index) = some old ∧
        CreateActualLRP bbs desiredLRP index w =
          (Except.error BBSError.ErrStoreResourceExists,
            w.record (Call.Create
              { Key := ActualLRPSchemaPath desiredLRP.ProcessGuid index,
                Value := Bytes.json (newUnclaimedActualLRP bbs desiredLRP index),
                Index := 0 }))) ∨
      (index < desiredLRP.Instances ∧
        w.store.nodes (ActualLRPSchemaPath desiredLRP.ProcessGuid index) = none ∧
        CreateActualLRP bbs desiredLRP index w =
          (Except.ok (),
            { store := w.store.put (ActualLRPSchemaPath desiredLRP.ProcessGuid index)
                (Bytes.json (newUnclaimedActualLRP bbs desiredLRP index)),
              calls := (w.calls ++ [Call.Create
                { Key := ActualLRPSchemaPath desiredLRP.ProcessGuid index,
                  Value := Bytes.json (newUnclaimedActualLRP bbs desiredLRP index),
                  Index := 0 }]) ++
                auctionCalls bbs [{ DesiredLRP := desiredLRP, Indices := [uint index] }] })) := by
  by_cases h : index ≥ desiredLRP.Instances
  · left
    refine ⟨h, ?_⟩
    simp [CreateActualLRP, createActualLRP, NewActualLRPIndexTooLargeError, h]
  · have hlt : index < desiredLRP.Instances := not_le.mp h
    have hb := CreateActualLRP_below bbs desiredLRP index w hlt
    cases hn : w.store.nodes (ActualLRPSchemaPath desiredLRP.ProcessGuid index) with
    | some old =>
      rw [hn] at hb
      exact Or.inr (Or.inl ⟨old, hlt, rfl, hb⟩)
    | none =>
      rw [hn] at hb
      exact Or.inr (Or.inr ⟨hlt, rfl, hb⟩)

/-! ### Not found, idempotent and illegal requests -/

/-- C11: on a store with no record at the key's path, for every legality
predicate, `ClaimActualLRP(key, containerKey)` returns the cannot-be-claimed
error (and not the store's not-found error); the only call made is the
read, the store is the store before the call, and no record has appeared at
the path. -/
theorem ClaimActualLRP_not_found (legal : Legality) (bbs : LRPBBS) (key : ActualLRPKey)
    (containerKey : ActualLRPContainerKey) (w : World)
    (h : w.store.nodes (ActualLRPSchemaPath key.ProcessGuid key.Index) = none) :
    (ClaimActualLRP legal bbs key containerKey w).1 =
        Except.error BBSError.ErrActualLRPCannotBeClaimed ∧
      (ClaimActualLRP legal bbs key containerKey w).1 ≠
        Except.error BBSError.ErrStoreResourceNotFound ∧
      (ClaimActualLRP legal bbs key containerKey w).2.store = w.store ∧
      (ClaimActualLRP legal bbs key containerKey w).2.calls =
        w.calls ++ [Call.Get (ActualLRPSchemaPath key.ProcessGuid key.Index)] ∧
      (ClaimActualLRP legal bbs key containerKey w).2.store.nodes
        (ActualLRPSchemaPath key.ProcessGuid key.Index) = none := by
  have hc : ClaimActualLRP legal bbs key containerKey w =
      (Except.error BBSError.ErrActualLRPCannotBeClaimed,
        w.record (Call.Get (ActualLRPSchemaPath key.ProcessGuid key.Index))) := by
    unfold ClaimActualLRP
    rw [getActualLRP_not_found _ _ _ h]
    simp
  rw [hc]
  refine ⟨rfl, ?_, rfl, rfl, h⟩
  intro hne
  cases hne

theorem ClaimActualLRP_not_found_witness :
    (ClaimActualLRP AllowsTransitionTo exampleBBS exampleKey exampleContainerKey
        emptyWorld).1 = Except.error BBSError.ErrActualLRPCannotBeClaimed :=
  (ClaimActualLRP_not_found AllowsTransitionTo exampleBBS exampleKey exampleContainerKey
    emptyWorld rfl).1

/-- C12 (as stated, refuted): the store holds a Running record with the key
and the container key of the request, and `StartActualLRP` is called with
another net info. The outcome follows the legality predicate: when it
refuses, the call returns the cannot-be-started error; when it allows, the
call writes (the stored record gets the new net info, a new `Since` and a
new version). In neither case is it a success without a write. -/
theorem StartActualLRP_other_netInfo_not_idempotent :
    (exampleLRP ActualLRPState.Running exampleContainerKey exampleNetInfo).ActualLRPKey =
        exampleKey ∧
      (exampleLRP ActualLRPState.Running exampleContainerKey
        exampleNetInfo).ActualLRPContainerKey = exampleContainerKey ∧
      (exampleLRP ActualLRPState.Running exampleContainerKey exampleNetInfo).State =
        ActualLRPState.Running ∧
      (worldWith (exampleLRP ActualLRPState.Running exampleContainerKey
          exampleNetInfo)).store.nodes
          (ActualLRPSchemaPath exampleKey.ProcessGuid exampleKey.Index) =
        some { Key := ActualLRPSchemaPath exampleKey.ProcessGuid exampleKey.Index,
               Value := Bytes.json
                 (exampleLRP ActualLRPState.Running exampleContainerKey exampleNetInfo),
               Index := 1 } ∧
      (StartActualLRP allowNone exampleBBS exampleKey exampleContainerKey otherNetInfo
          (worldWith (exampleLRP ActualLRPState.Running exampleContainerKey
            exampleNetInfo))).1 =
        Except.error BBSError.ErrActualLRPCannotBeStarted ∧
      (StartActualLRP allowAll exampleBBS exampleKey exampleContainerKey otherNetInfo
          (worldWith (exampleLRP ActualLRPState.Running exampleContainerKey
            exampleNetInfo))).2.store.nodes
          (ActualLRPSchemaPath exampleKey.ProcessGuid exampleKey.Index) =
        some { Key := ActualLRPSchemaPath exampleKey.ProcessGuid exampleKey.Index,
               Value := Bytes.json
                 { ActualLRPKey := exampleKey,
                   ActualLRPContainerKey := exampleContainerKey,
                   ActualLRPNetInfo := otherNetInfo,
                   State := ActualLRPState.Running,
                   Since := 1000 },
               Index := 2 } := by
  have hn := worldWith_nodes
    (exampleLRP ActualLRPState.Running exampleContainerKey exampleNetInfo)
  have hidem : ¬ ((exampleLRP ActualLRPState.Running exampleContainerKey
        exampleNetInfo).ActualLRPKey = exampleKey ∧
      (exampleLRP ActualLRPState.Running exampleContainerKey
        exampleNetInfo).ActualLRPContainerKey = exampleContainerKey ∧
      (exampleLRP ActualLRPState.Running exampleContainerKey
        exampleNetInfo).ActualLRPNetInfo.Address = otherNetInfo.Address ∧
      (exampleLRP ActualLRPState.Running exampleContainerKey
        exampleNetInfo).ActualLRPNetInfo.Ports = otherNetInfo.Ports ∧
      (exampleLRP ActualLRPState.Running exampleContainerKey exampleNetInfo).State =
        ActualLRPState.Running) := by
    decide
  refine ⟨rfl, rfl, rfl, hn, ?_, ?_⟩
  · rw [StartActualLRP_illegal_path allowNone exampleBBS exampleKey exampleContainerKey
      otherNetInfo _ _ _ hn rfl hidem rfl]
  · rw [StartActualLRP_swap_path allowAll exampleBBS exampleKey exampleContainerKey
      otherNetInfo _ _ _ hn rfl rfl hidem rfl]
    exact Store.put_nodes_self _ _ _

/-- C12 (amended): on a store whose record at the key's path has the key
and the container key of the request, for every legality predicate:
`ClaimActualLRP` on a Claimed record returns success after its read, with no
write; `StartActualLRP` on a Running record whose address and ordered port
list are also those of the request returns success after its read, with no
write. The outcome is the same whatever the legality predicate answers. -/
theorem idempotent_requests_short_circuit (legal : Legality) (bbs : LRPBBS)
    (key : ActualLRPKey) (containerKey : ActualLRPContainerKey) (w : World)
    (node : StoreNode) (lrp : ActualLRP)
    (hnode : w.store.nodes (ActualLRPSchemaPath key.ProcessGuid key.Index) = some node)
    (hval : FromJSON node.Value = Except.ok lrp)
    (hkey : lrp.ActualLRPKey = key) (hck : lrp.ActualLRPContainerKey = containerKey) :
    (lrp.State = ActualLRPState.Claimed →
        ClaimActualLRP legal bbs key containerKey w =
          (Except.ok (),
            { store := w.store,
              calls := w.calls ++
                [Call.Get (ActualLRPSchemaPath key.ProcessGuid key.Index)] })) ∧
      (lrp.State = ActualLRPState.Running →
        ∀ netInfo : ActualLRPNetInfo,
          lrp.ActualLRPNetInfo.Address = netInfo.Address →
          lrp.ActualLRPNetInfo.Ports = netInfo.Ports →
          StartActualLRP legal bbs key containerKey netInfo w =
            (Except.ok (),
              { store := w.store,
                calls := w.calls ++
                  [Call.Get (ActualLRPSchemaPath key.ProcessGuid key.Index)] })) := by
  constructor
  · intro hs
    exact ClaimActualLRP_idempotent_path legal bbs key containerKey w node lrp hnode hval
      hkey hck hs
  · intro hs netInfo ha hp
    have hnet : lrp.ActualLRPNetInfo = netInfo := by
      cases hl : lrp.ActualLRPNetInfo
      cases netInfo
      simp only [hl] at ha hp
      simp [ha, hp]
    exact StartActualLRP_idempotent_path legal bbs key containerKey netInfo w node lrp
      hnode hval hkey hck hnet hs

theorem idempotent_requests_short_circuit_witness :
    StartActualLRP allowNone exampleBBS exampleKey exampleContainerKey exampleNetInfo
        (worldWith (exampleLRP ActualLRPState.Running exampleContainerKey exampleNetInfo)) =
      (Except.ok (),
        { store := (worldWith (exampleLRP ActualLRPState.Running exampleContainerKey
            exampleNetInfo)).store,
          calls := (worldWith (exampleLRP ActualLRPState.Running exampleContainerKey
            exampleNetInfo)).calls ++
              [Call.Get (ActualLRPSchemaPath exampleKey.ProcessGuid exampleKey.Index)] }) :=
  (idempotent_requests_short_circuit allowNone exampleBBS exampleKey exampleContainerKey
    (worldWith (exampleLRP ActualLRPState.Running exampleContainerKey exampleNetInfo))
    _ (exampleLRP ActualLRPState.Running exampleContainerKey exampleNetInfo)
    (worldWith_nodes _) rfl rfl rfl).2 rfl exampleNetInfo rfl rfl

/-- C13: on a store whose record at the key's path is found, whenever the
idempotence test does not match and the legality predicate answers false for
the target state, `ClaimActualLRP` returns the cannot-be-claimed error and
`StartActualLRP` the cannot-be-started error; in both cases the only call
made is the read (no write is issued) and the store is the store before. -/
theorem illegal_transition_rejected (legal : Legality) (bbs : LRPBBS) (key : ActualLRPKey)
    (containerKey : ActualLRPContainerKey) (w : World) (node : StoreNode) (lrp : ActualLRP)
    (hnode : w.store.nodes (ActualLRPSchemaPath key.ProcessGuid key.Index) = some node)
    (hval : FromJSON node.Value = Except.ok lrp) :
    (¬ (lrp.ActualLRPKey = key ∧ lrp.ActualLRPContainerKey = containerKey ∧
          lrp.State = ActualLRPState.Claimed) →
        legal lrp key containerKey ActualLRPState.Claimed = false →
        ClaimActualLRP legal bbs key containerKey w =
          (Except.error BBSError.ErrActualLRPCannotBeClaimed,
            { store := w.store,
              calls := w.calls ++
                [Call.Get (ActualLRPSchemaPath key.ProcessGuid key.Index)] })) ∧
      (∀ netInfo : ActualLRPNetInfo,
        ¬ (lrp.ActualLRPKey = key ∧ lrp.ActualLRPContainerKey = containerKey ∧
          lrp.ActualLRPNetInfo.Address = netInfo.Address ∧
          lrp.ActualLRPNetInfo.Ports = netInfo.Ports ∧
          lrp.State = ActualLRPState.Running) →
        legal lrp key containerKey ActualLRPState.Running = false →
        StartActualLRP legal bbs key containerKey netInfo w =
          (Except.error BBSError.ErrActualLRPCannotBeStarted,
            { store := w.store,
              calls := w.calls ++
                [Call.Get (ActualLRPSchemaPath key.ProcessGuid key.Index)] })) := by
  constructor
  · intro hidem hlegal
    rw [ClaimActualLRP_eq_read_commit, claimRead_found _ _ _ _ _ node lrp hnode hval]
    simp only [if_neg hidem, hlegal, if_true, Pending.commit]
    rfl
  · intro netInfo hidem hlegal
    exact StartActualLRP_illegal_path legal bbs key containerKey netInfo w node lrp hnode
      hval hidem hlegal

theorem illegal_transition_rejected_witness :
    ClaimActualLRP allowNone exampleBBS exampleKey otherContainerKey
        (worldWith (exampleLRP ActualLRPState.Claimed exampleContainerKey emptyNetInfo)) =
      (Except.error BBSError.ErrActualLRPCannotBeClaimed,
        { store := (worldWith (exampleLRP ActualLRPState.Claimed exampleContainerKey
            emptyNetInfo)).store,
          calls := (worldWith (exampleLRP ActualLRPState.Claimed exampleContainerKey
            emptyNetInfo)).calls ++
              [Call.Get (ActualLRPSchemaPath exampleKey.ProcessGuid exampleKey.Index)] }) :=
  (illegal_transition_rejected allowNone exampleBBS exampleKey otherContainerKey
    (worldWith (exampleLRP ActualLRPState.Claimed exampleContainerKey emptyNetInfo))
    _ (exampleLRP ActualLRPState.Claimed exampleContainerKey emptyNetInfo)
    (worldWith_nodes _) rfl).1 (by decide) rfl

/-! ### Accepted transitions -/

theorem ClaimActualLRP_swap_of_path (legal : Legality) (bbs : LRPBBS) (key : ActualLRPKey)
    (containerKey : ActualLRPContainerKey) (w : World) (node : StoreNode) (lrp : ActualLRP)
    (hnode : w.store.nodes (ActualLRPSchemaPath key.ProcessGuid key.Index) = some node)
    (hval : FromJSON node.Value = Except.ok lrp)
    (hidem : ¬ (lrp.ActualLRPKey = key ∧ lrp.ActualLRPContainerKey = containerKey ∧
      lrp.State = ActualLRPState.Claimed))
    (hlegal : legal lrp key containerKey ActualLRPState.Claimed = true)
    (hpath : ActualLRPSchemaPath lrp.ActualLRPKey.ProcessGuid lrp.ActualLRPKey.Index =
      ActualLRPSchemaPath key.ProcessGuid key.Index) :
    ClaimActualLRP legal bbs key containerKey w =
      (Except.ok (),
        { store := w.store.put (ActualLRPSchemaPath key.ProcessGuid key.Index)
            (Bytes.json (claimedFrom bbs lrp containerKey)),
          calls := (w.calls ++ [Call.Get (ActualLRPSchemaPath key.ProcessGuid key.Index)]) ++
            [Call.CompareAndSwapByIndex node.Index
              { Key := ActualLRPSchemaPath key.ProcessGuid key.Index,
                Value := Bytes.json (claimedFrom bbs lrp containerKey), Index := 0 }] }) := by
  rw [ClaimActualLRP_eq_read_commit, claimRead_found _ _ _ _ _ node lrp hnode hval]
  simp only [if_neg hidem, hlegal, Bool.true_eq_false, if_false, Pending.commit, hpath]
  rw [storeCompareAndSwapByIndex_match node.Index
    { Key := ActualLRPSchemaPath key.ProcessGuid key.Index,
      Value := Bytes.json
        { ActualLRPKey := lrp.ActualLRPKey,
          ActualLRPContainerKey := containerKey,
          ActualLRPNetInfo := emptyNetInfo,
          State := ActualLRPState.Claimed,
          Since := bbs.timeProvider },
      Index := 0 } node
    (w.record (Call.Get (ActualLRPSchemaPath key.ProcessGuid key.Index))) hnode rfl]
  rfl

theorem StartActualLRP_swap_of_path (legal : Legality) (bbs : LRPBBS) (key : ActualLRPKey)
    (containerKey : ActualLRPContainerKey) (netInfo : ActualLRPNetInfo) (w : World)
    (node : StoreNode) (lrp : ActualLRP)
    (hnode : w.store.nodes (ActualLRPSchemaPath key.ProcessGuid key.Index) = some node)
    (hval : FromJSON node.Value = Except.ok lrp)
    (hidem : ¬ (lrp.ActualLRPKey = key ∧ lrp.ActualLRPContainerKey = containerKey ∧
      lrp.ActualLRPNetInfo.Address = netInfo.Address ∧
      lrp.ActualLRPNetInfo.Ports = netInfo.Ports ∧ lrp.State = ActualLRPState.Running))
    (hlegal : legal lrp key containerKey ActualLRPState.Running = true)
    (hpath : ActualLRPSchemaPath lrp.ActualLRPKey.ProcessGuid lrp.ActualLRPKey.Index =
      ActualLRPSchemaPath key.ProcessGuid key.Index) :
    StartActualLRP legal bbs key containerKey netInfo w =
      (Except.ok (),
        { store := w.store.put (ActualLRPSchemaPath key.ProcessGuid key.Index)
            (Bytes.json (startedFrom bbs lrp containerKey netInfo)),
          calls := (w.calls ++ [Call.Get (ActualLRPSchemaPath key.ProcessGuid key.Index)]) ++
            [Call.CompareAndSwapByIndex node.Index
              { Key := ActualLRPSchemaPath key.ProcessGuid key.Index,
                Value := Bytes.json (startedFrom bbs lrp containerKey netInfo),
                Index := 0 }] }) := by
  unfold StartActualLRP
  rw [getActualLRP_found _ _ _ node lrp hnode hval]
  simp only [if_neg hidem, hlegal, Bool.true_eq_false, if_false, ToJSON, hpath]
  rw [storeCompareAndSwapByIndex_match node.Index
    { Key := ActualLRPSchemaPath key.ProcessGuid key.Index,
      Value := Bytes.json
        { ActualLRPKey := lrp.ActualLRPKey,
          ActualLRPContainerKey := containerKey,
          ActualLRPNetInfo := netInfo,
          State := ActualLRPState.Running,
          Since := bbs.timeProvider },
      Index := 0 } node
    (w.record (Call.Get (ActualLRPSchemaPath key.ProcessGuid key.Index))) hnode rfl]
  rfl

/-- C15: on a store in which a record is found at the key's path, whenever
the idempotence test does not match and the transition to Running is legal,
`StartActualLRP(key, containerKey, netInfo)` run without an interleaved
writer returns success; the store then holds at that path the record read
with `State` set to Running, the container key set to `containerKey`, the
net info set to `netInfo` and `Since` set to now, its `ActualLRPKey` as
stored before; the version at the path has advanced and every other path
holds what it held. -/
theorem StartActualLRP_starts_in_place (bbs : LRPBBS) (key : ActualLRPKey)
    (containerKey : ActualLRPContainerKey) (netInfo : ActualLRPNetInfo) (w : World)
    (node : StoreNode) (lrp : ActualLRP)
    (hnode : w.store.nodes (ActualLRPSchemaPath key.ProcessGuid key.Index) = some node)
    (hval : FromJSON node.Value = Except.ok lrp)
    (hidem : ¬ (lrp.ActualLRPKey = key ∧ lrp.ActualLRPContainerKey = containerKey ∧
      lrp.ActualLRPNetInfo.Address = netInfo.Address ∧
      lrp.ActualLRPNetInfo.Ports = netInfo.Ports ∧ lrp.State = ActualLRPState.Running))
    (hlegal : AllowsTransitionTo lrp key containerKey ActualLRPState.Running = true) :
    (StartActualLRP AllowsTransitionTo bbs key containerKey netInfo w).1 = Except.ok () ∧
      (StartActualLRP AllowsTransitionTo bbs key containerKey netInfo w).2.store.nodes
          (ActualLRPSchemaPath key.ProcessGuid key.Index) =
        some { Key := ActualLRPSchemaPath key.ProcessGuid key.Index,
               Value := Bytes.json
                 { ActualLRPKey := lrp.ActualLRPKey,
                   ActualLRPContainerKey := containerKey,
                   ActualLRPNetInfo := netInfo,
                   State := ActualLRPState.Running,
                   Since := bbs.timeProvider },
               Index := w.store.index + 1 } ∧
      node.Index < w.store.index + 1 ∧
      (∀ path, path ≠ ActualLRPSchemaPath key.ProcessGuid key.Index →
        (StartActualLRP AllowsTransitionTo bbs key containerKey netInfo w).2.store.nodes path =
          w.store.nodes path) := by
  have hkey : lrp.ActualLRPKey = key := by
    simp only [AllowsTransitionTo, Bool.and_eq_true, decide_eq_true_eq] at hlegal
    exact hlegal.2
  have hpath : ActualLRPSchemaPath lrp.ActualLRPKey.ProcessGuid lrp.ActualLRPKey.Index =
      ActualLRPSchemaPath key.ProcessGuid key.Index := by rw [hkey]
  rw [StartActualLRP_swap_of_path AllowsTransitionTo bbs key containerKey netInfo w node lrp
    hnode hval hidem hlegal hpath]
  refine ⟨rfl, Store.put_nodes_self _ _ _, ?_, ?_⟩
  · exact Nat.lt_succ_of_le (w.store.versioned _ _ hnode)
  · intro path hp
    exact Store.put_nodes_other _ _ _ _ hp

theorem StartActualLRP_starts_in_place_witness :
    (StartActualLRP AllowsTransitionTo exampleBBS exampleKey exampleContainerKey
        exampleNetInfo
        (worldWith (exampleLRP ActualLRPState.Claimed exampleContainerKey emptyNetInfo))).1 =
      Except.ok () :=
  (StartActualLRP_starts_in_place exampleBBS exampleKey exampleContainerKey exampleNetInfo
    (worldWith (exampleLRP ActualLRPState.Claimed exampleContainerKey emptyNetInfo))
    _ (exampleLRP ActualLRPState.Claimed exampleContainerKey emptyNetInfo)
    (worldWith_nodes _) rfl (by decide) rfl).1

/-! ### Creation, removal and failure atomicity -/

/-- C16: for every desired LRP and index with `index < desiredLRP.Instances`
(so for every index with `0 <= index < desiredLRP.Instances`): on a store with no record at the path of
`(desiredLRP.ProcessGuid, index)`, `CreateActualLRP` returns success and the
store then holds at that path exactly the record with key
`{ProcessGuid, index, Domain}`, state Unclaimed, `Since` = now, an empty
container key and empty net info, every other path as before; on a store
with a record at that path it returns the store's already-exists error and
the store, that record included, is as before. -/
theorem CreateActualLRP_creates_unclaimed (bbs : LRPBBS) (desiredLRP : DesiredLRP)
    (index : Int) (w : World) (hlt : index < desiredLRP.Instances) :
    (w.store.nodes (ActualLRPSchemaPath desiredLRP.ProcessGuid index) = none →
        (CreateActualLRP bbs desiredLRP index w).1 = Except.ok () ∧
        (CreateActualLRP bbs desiredLRP index w).2.store.nodes
            (ActualLRPSchemaPath desiredLRP.ProcessGuid index) =
          some { Key := ActualLRPSchemaPath desiredLRP.ProcessGuid index,
                 Value := Bytes.json
                   { ActualLRPKey := { ProcessGuid := desiredLRP.ProcessGuid, Index := index,
                                       Domain := desiredLRP.Domain },
                     ActualLRPContainerKey := { InstanceGuid := "", CellID := "" },
                     ActualLRPNetInfo := { Address := "", Ports := none },
                     State := ActualLRPState.Unclaimed,
                     Since := bbs.timeProvider },
                 Index := w.store.index + 1 } ∧
        (∀ path, path ≠ ActualLRPSchemaPath desiredLRP.ProcessGuid index →
          (CreateActualLRP bbs desiredLRP index w).2.store.nodes path =
            w.store.nodes path)) ∧
      (∀ old, w.store.nodes (ActualLRPSchemaPath desiredLRP.ProcessGuid index) = some old →
        (CreateActualLRP bbs desiredLRP index w).1 =
          Except.error BBSError.ErrStoreResourceExists ∧
        (CreateActualLRP bbs desiredLRP index w).2.store = w.store ∧
        (CreateActualLRP bbs desiredLRP index w).2.store.nodes
          (ActualLRPSchemaPath desiredLRP.ProcessGuid index) = some old) := by
  have hb := CreateActualLRP_below bbs desiredLRP index w hlt
  constructor
  · intro hn
    rw [hn] at hb
    rw [hb]
    refine ⟨rfl, Store.put_nodes_self _ _ _, ?_⟩
    intro path hp
    exact Store.put_nodes_other _ _ _ _ hp
  · intro old hn
    rw [hn] at hb
    rw [hb]
    exact ⟨rfl, rfl, hn⟩

theorem CreateActualLRP_creates_unclaimed_witness :
    (CreateActualLRP failingBBS exampleDesiredLRP 0 emptyWorld).1 = Except.ok () :=
  ((CreateActualLRP_creates_unclaimed failingBBS exampleDesiredLRP 0 emptyWorld
    (by decide)).1 rfl).1

/-- C17: run without an interleaved writer, `RemoveActualLRP(key,
containerKey)` returns success if and only if a record is stored at the
key's path whose key is `key` and whose container key is `containerKey`; on
success the store holds nothing at that path and every other path is as
before; with no record at the path it returns the store's not-found error
itself, after its one read, and the store is as before. -/
theorem RemoveActualLRP_removes_owned (key : ActualLRPKey)
    (containerKey : ActualLRPContainerKey) (w : World) :
    ((RemoveActualLRP key containerKey w).1 = Except.ok () ↔
        ∃ node lrp,
          w.store.nodes (ActualLRPSchemaPath key.ProcessGuid key.Index) = some node ∧
          FromJSON node.Value = Except.ok lrp ∧
          lrp.ActualLRPKey = key ∧ lrp.ActualLRPContainerKey = containerKey) ∧
      ((RemoveActualLRP key containerKey w).1 = Except.ok () →
        (RemoveActualLRP key containerKey w).2.store.nodes
            (ActualLRPSchemaPath key.ProcessGuid key.Index) = none ∧
        (∀ path, path ≠ ActualLRPSchemaPath key.ProcessGuid key.Index →
          (RemoveActualLRP key containerKey w).2.store.nodes path = w.store.nodes path)) ∧
      (w.store.nodes (ActualLRPSchemaPath key.ProcessGuid key.Index) = none →
        RemoveActualLRP key containerKey w =
          (Except.error BBSError.ErrStoreResourceNotFound,
            { store := w.store,
              calls := w.calls ++
                [Call.Get (ActualLRPSchemaPath key.ProcessGuid key.Index)] })) := by
  refine ⟨?_, ?_, ?_⟩
  · rcases RemoveActualLRP_cases key containerKey w with
      ⟨err, hr, hno⟩ | ⟨node, lrp, hn, hv, hk, hc, hr⟩
    · rw [hr]
      constructor
      · intro h
        cases h
      · intro h
        exact absurd h hno
    · rw [hr]
      exact ⟨fun _ => ⟨node, lrp, hn, hv, hk, hc⟩, fun _ => rfl⟩
  · intro hok
    rcases RemoveActualLRP_cases key containerKey w with
      ⟨err, hr, _⟩ | ⟨node, lrp, _, _, _, _, hr⟩
    · rw [hr] at hok
      cases hok
    · rw [hr]
      refine ⟨Store.erase_nodes_self _ _, ?_⟩
      intro path hp
      exact Store.erase_nodes_other _ _ _ hp
  · intro hn
    unfold RemoveActualLRP
    rw [getActualLRP_not_found _ _ _ hn]
    rfl

/-- C18: each lifecycle operation is atomic on failure. For every store,
every legality predicate and every argument, when `CreateActualLRP`,
`ClaimActualLRP`, `StartActualLRP` or `RemoveActualLRP` returns an error,
whatever its cause, the store after the call equals the store before it. -/
theorem lifecycle_atomic_on_failure (legal : Legality) (bbs : LRPBBS)
    (desiredLRP : DesiredLRP) (index : Int) (key : ActualLRPKey)
    (containerKey : ActualLRPContainerKey) (netInfo : ActualLRPNetInfo) (w : World) :
    (∀ err, (CreateActualLRP bbs desiredLRP index w).1 = Except.error err →
        (CreateActualLRP bbs desiredLRP index w).2.store = w.store) ∧
      (∀ err, (ClaimActualLRP legal bbs key containerKey w).1 = Except.error err →
        (ClaimActualLRP legal bbs key containerKey w).2.store = w.store) ∧
      (∀ err, (StartActualLRP legal bbs key containerKey netInfo w).1 = Except.error err →
        (StartActualLRP legal bbs key containerKey netInfo w).2.store = w.store) ∧
      (∀ err, (RemoveActualLRP key containerKey w).1 = Except.error err →
        (RemoveActualLRP key containerKey w).2.store = w.store) := by
  refine ⟨?_, ?_, ?_, ?_⟩
  · intro err herr
    rcases CreateActualLRP_cases bbs desiredLRP index w with
      ⟨_, hr⟩ | ⟨old, _, _, hr⟩ | ⟨_, _, hr⟩
    · rw [hr]
    · rw [hr]
      rfl
    · rw [hr] at herr
      cases herr
  · intro err herr
    rcases ClaimActualLRP_cases legal bbs key containerKey w with
      ⟨r, hr⟩ | ⟨node, lrp, e, _, _, hr⟩ | ⟨node, lrp, old, _, _, _, _, _, _, hr⟩
    · rw [hr]
      rfl
    · rw [hr]
      rfl
    · rw [hr] at herr
      cases herr
  · intro err herr
    rcases StartActualLRP_cases legal bbs key containerKey netInfo w with
      ⟨r, hr⟩ | ⟨_, hr⟩ | ⟨node, lrp, e, _, _, hr⟩ | ⟨node, lrp, old, _, _, _, _, _, _, hr⟩
    · rw [hr]
      rfl
    · rw [hr] at herr
      cases herr
    · rw [hr]
      rfl
    · rw [hr] at herr
      cases herr
  · intro err herr
    rcases RemoveActualLRP_cases key containerKey w with
      ⟨e, hr, _⟩ | ⟨node, lrp, _, _, _, _, hr⟩
    · rw [hr]
      rfl
    · rw [hr] at herr
      cases herr

/-! ### Key-path consistency -/

theorem onlyErased_refl (s : Store) : OnlyErased s s :=
  fun _ => Or.inl rfl

theorem onlyErased_trans (s s2 s3 : Store) (h12 : OnlyErased s s2) (h23 : OnlyErased s2 s3) :
    OnlyErased s s3 := by
  intro path
  rcases h23 path with h | h
  · rcases h12 path with h2 | h2
    · exact Or.inl (h.trans h2)
    · exact Or.inr (h.trans h2)
  · exact Or.inr h

theorem onlyErased_erase (s : Store) (key : String) : OnlyErased s (s.erase key) := by
  intro path
  by_cases hp : path = key
  · right
    rw [hp]
    exact Store.erase_nodes_self _ _
  · left
    exact Store.erase_nodes_other _ _ _ hp

theorem keyPathConsistent_of_onlyErased (s s2 : Store) (h : KeyPathConsistent s)
    (he : OnlyErased s s2) : KeyPathConsistent s2 := by
  intro path node lrp hn hv
  rcases he path with h2 | h2
  · exact h path node lrp (by rw [← h2]; exact hn) hv
  · rw [h2] at hn
    cases hn

theorem keyPathConsistent_put (s : Store) (lrp : ActualLRP) (h : KeyPathConsistent s) :
    KeyPathConsistent
      (s.put (ActualLRPSchemaPath lrp.ActualLRPKey.ProcessGuid lrp.ActualLRPKey.Index)
        (Bytes.json lrp)) := by
  intro path node lrp2 hn hv
  by_cases hp : path = ActualLRPSchemaPath lrp.ActualLRPKey.ProcessGuid lrp.ActualLRPKey.Index
  · subst hp
    rw [Store.put_nodes_self] at hn
    cases hn
    cases hv
    rfl
  · rw [Store.put_nodes_other _ _ _ _ hp] at hn
    exact h path node lrp2 hn hv

theorem keysKept_refl (s : Store) : KeysKept s s := by
  intro path node lrp node2 lrp2 hn hv hn2 hv2
  rw [hn] at hn2
  cases hn2
  rw [hv] at hv2
  cases hv2
  rfl

theorem keysKept_put_over (s : Store) (path : String) (node : StoreNode)
    (lrp written : ActualLRP) (hn : s.nodes path = some node)
    (hv : FromJSON node.Value = Except.ok lrp)
    (hk : written.ActualLRPKey = lrp.ActualLRPKey) :
    KeysKept s (s.put path (Bytes.json written)) := by
  intro p n l n2 l2 hpn hpv hpn2 hpv2
  by_cases hp : p = path
  · subst hp
    rw [Store.put_nodes_self] at hpn2
    cases hpn2
    cases hpv2
    rw [hn] at hpn
    cases hpn
    rw [hv] at hpv
    cases hpv
    exact hk
  · rw [Store.put_nodes_other _ _ _ _ hp] at hpn2
    exact keysKept_refl s p n l n2 l2 hpn hpv hpn2 hpv2

theorem keysKept_put_fresh (s : Store) (path : String) (written : ActualLRP)
    (hn : s.nodes path = none) :
    KeysKept s (s.put path (Bytes.json written)) := by
  intro p n l n2 l2 hpn hpv hpn2 hpv2
  by_cases hp : p = path
  · subst hp
    rw [hn] at hpn
    cases hpn
  · rw [Store.put_nodes_other _ _ _ _ hp] at hpn2
    exact keysKept_refl s p n l n2 l2 hpn hpv hpn2 hpv2

theorem removeRead_store (key : ActualLRPKey) (containerKey : ActualLRPContainerKey)
    (w : World) :
    (removeRead key containerKey w).2.store = w.store ∧
      ∀ index node, (removeRead key containerKey w).1 ≠ Pending.swap index node := by
  unfold removeRead
  rcases getActualLRP_cases key.ProcessGuid key.Index w with
    ⟨_, hg⟩ | ⟨node, _, hg⟩ | ⟨node, lrp, _, _, hg⟩
  · rw [hg]
    exact ⟨rfl, fun _ _ h => by cases h⟩
  · rw [hg]
    exact ⟨rfl, fun _ _ h => by cases h⟩
  · rw [hg]
    by_cases h1 : lrp.ActualLRPKey ≠ key ∨ lrp.ActualLRPContainerKey ≠ containerKey
    · simp only [h1, if_true]
      exact ⟨rfl, fun _ _ h => by cases h⟩
    · simp only [h1, if_false]
      exact ⟨rfl, fun _ _ h => by cases h⟩

theorem Pending.commit_onlyErased (p : Pending) (w : World)
    (hp : ∀ index node, p ≠ Pending.swap index node) :
    OnlyErased w.store (p.commit w).2.store := by
  cases p with
  | done r => exact onlyErased_refl _
  | swap index node => exact absurd rfl (hp index node)
  | delete node =>
    simp only [Pending.commit]
    cases hn : w.store.nodes node.Key with
    | none =>
      rw [storeCompareAndDeleteByIndex_absent node w hn]
      exact onlyErased_refl _
    | some old =>
      by_cases hi : old.Index = node.Index
      · rw [storeCompareAndDeleteByIndex_match node old w hn hi]
        exact onlyErased_erase _ _
      · rw [storeCompareAndDeleteByIndex_mismatch node old w hn hi]
        exact onlyErased_refl _

theorem Task.step_onlyErased (bbs : LRPBBS) (t : Task) (w : World) (h : t.NoSwap) :
    OnlyErased w.store (t.step bbs w).2.store ∧ (t.step bbs w).1.NoSwap := by
  obtain ⟨lrp, phase⟩ := t
  cases phase with
  | submitted =>
    by_cases hu : lrp.State = ActualLRPState.Unclaimed
    · have hr := removeRead_store lrp.ActualLRPKey lrp.ActualLRPContainerKey w
      simp only [Task.step, hu, if_true]
      refine ⟨by rw [hr.1]; exact onlyErased_refl _, ?_⟩
      intro index node hc
      simp only [Phase.removing.injEq] at hc
      exact hr.2 index node hc
    · simp only [Task.step, hu, if_false, retireActualLRP, RequestStopLRPInstance]
      exact ⟨onlyErased_refl _, fun _ _ hc => by cases hc⟩
  | removing p =>
    simp only [Task.step]
    refine ⟨Pending.commit_onlyErased p w ?_, fun _ _ hc => by cases hc⟩
    intro index node hc
    exact h index node (by rw [hc])
  | finished r =>
    simp only [Task.step]
    exact ⟨onlyErased_refl _, h⟩

theorem stepAt_onlyErased (bbs : LRPBBS) (i : Nat) (tasks : List Task) (w : World)
    (h : ∀ t ∈ tasks, t.NoSwap) :
    OnlyErased w.store (stepAt bbs i tasks w).2.store ∧
      ∀ t ∈ (stepAt bbs i tasks w).1, t.NoSwap := by
  rcases stepAt_cases bbs i tasks w with h1 | ⟨pre, t, post, hts, h1⟩
  · rw [h1]
    exact ⟨onlyErased_refl _, h⟩
  · rw [h1]
    subst hts
    have hs := Task.step_onlyErased bbs t w (h t (by simp))
    refine ⟨hs.1, ?_⟩
    intro t2 ht2
    simp only [List.mem_append, List.mem_cons] at ht2
    rcases ht2 with h2 | h2 | h2
    · exact h t2 (by simp [h2])
    · rw [h2]
      exact hs.2
    · exact h t2 (by simp [h2])

theorem runSchedule_onlyErased (bbs : LRPBBS) (schedule : List Nat) (tasks : List Task)
    (w : World) (h : ∀ t ∈ tasks, t.NoSwap) :
    OnlyErased w.store (runSchedule bbs schedule tasks w).2.store ∧
      ∀ t ∈ (runSchedule bbs schedule tasks w).1, t.NoSwap := by
  induction schedule generalizing tasks w with
  | nil => exact ⟨onlyErased_refl _, h⟩
  | cons i rest ih =>
    simp only [runSchedule]
    have h1 := stepAt_onlyErased bbs i tasks w h
    have h2 := ih (stepAt bbs i tasks w).1 (stepAt bbs i tasks w).2 h1.2
    exact ⟨onlyErased_trans _ _ _ h1.1 h2.1, h2.2⟩

theorem drain_onlyErased (bbs : LRPBBS) (tasks : List Task) (w : World)
    (h : ∀ t ∈ tasks, t.NoSwap) :
    OnlyErased w.store (drain bbs tasks w).2.store := by
  induction tasks generalizing w with
  | nil => exact onlyErased_refl _
  | cons t ts ih =>
    simp only [drain]
    rw [Task.finish_eq_step_step]
    have h1 := Task.step_onlyErased bbs t w (h t (by simp))
    have h2 := Task.step_onlyErased bbs (t.step bbs w).1 (t.step bbs w).2 h1.2
    have h3 := ih ((t.step bbs w).1.step bbs (t.step bbs w).2).2
      (fun t2 ht2 => h t2 (by simp [ht2]))
    exact onlyErased_trans _ _ _ (onlyErased_trans _ _ _ h1.1 h2.1) h3

/-- `RetireActualLRPs` only ever removes records, whatever the list and the
schedule. -/
theorem RetireActualLRPs_onlyErased (bbs : LRPBBS) (lrps : List ActualLRP)
    (schedule : List Nat) (w : World) :
    OnlyErased w.store (RetireActualLRPs bbs lrps schedule w).store := by
  have hinit : ∀ t ∈ lrps.map (fun lrp => ({ lrp := lrp, phase := Phase.submitted } : Task)),
      t.NoSwap := by
    intro t ht
    simp only [List.mem_map] at ht
    obtain ⟨lrp, _, rfl⟩ := ht
    intro index node hc
    cases hc
  have h1 := runSchedule_onlyErased bbs schedule _ w hinit
  have h2 := drain_onlyErased bbs
    (runSchedule bbs schedule
      (lrps.map (fun lrp => ({ lrp := lrp, phase := Phase.submitted } : Task))) w).1
    (runSchedule bbs schedule
      (lrps.map (fun lrp => ({ lrp := lrp, phase := Phase.submitted } : Task))) w).2 h1.2
  exact onlyErased_trans _ _ _ h1.1 h2

theorem ClaimActualLRP_consistent (legal : Legality) (bbs : LRPBBS) (key : ActualLRPKey)
    (containerKey : ActualLRPContainerKey) (w : World) (h : KeyPathConsistent w.store) :
    KeyPathConsistent (ClaimActualLRP legal bbs key containerKey w).2.store ∧
      CallsAt (ActualLRPSchemaPath key.ProcessGuid key.Index) w.calls
        (ClaimActualLRP legal bbs key containerKey w).2.calls ∧
      KeysKept w.store (ClaimActualLRP legal bbs key containerKey w).2.store := by
  rcases ClaimActualLRP_cases legal bbs key containerKey w with
    ⟨r, hr⟩ | ⟨node, lrp, e, hn, hv, hr⟩ | ⟨node, lrp, old, hn, hv, _, _, _, _, hr⟩
  · rw [hr]
    refine ⟨h, ⟨[Call.Get (ActualLRPSchemaPath key.ProcessGuid key.Index)], rfl, ?_⟩,
      keysKept_refl _⟩
    intro c hc
    simp only [List.mem_singleton] at hc
    rw [hc]
    rfl
  · rw [hr]
    have hpath := h _ node lrp hn hv
    refine ⟨h, ⟨[Call.Get (ActualLRPSchemaPath key.ProcessGuid key.Index),
      Call.CompareAndSwapByIndex node.Index (swapNode (claimedFrom bbs lrp containerKey))],
      by simp [World.record], ?_⟩, keysKept_refl _⟩
    intro c hc
    simp only [List.mem_cons, List.mem_singleton, List.mem_nil_iff, or_false] at hc
    rcases hc with hc | hc
    · rw [hc]
      rfl
    · rw [hc]
      exact congrArg some hpath
  · rw [hr]
    have hpath := h _ node lrp hn hv
    refine ⟨keyPathConsistent_put w.store (claimedFrom bbs lrp containerKey) h,
      ⟨[Call.Get (ActualLRPSchemaPath key.ProcessGuid key.Index),
        Call.CompareAndSwapByIndex node.Index (swapNode (claimedFrom bbs lrp containerKey))],
        by simp, ?_⟩, ?_⟩
    · intro c hc
      simp only [List.mem_cons, List.mem_singleton, List.mem_nil_iff, or_false] at hc
      rcases hc with hc | hc
      · rw [hc]
        rfl
      · rw [hc]
        exact congrArg some hpath
    · simp only [hpath]
      exact keysKept_put_over w.store _ node lrp (claimedFrom bbs lrp containerKey) hn hv rfl

theorem StartActualLRP_consistent (legal : Legality) (bbs : LRPBBS) (key : ActualLRPKey)
    (containerKey : ActualLRPContainerKey) (netInfo : ActualLRPNetInfo) (w : World)
    (h : KeyPathConsistent w.store) :
    KeyPathConsistent (StartActualLRP legal bbs key containerKey netInfo w).2.store ∧
      CallsAt (ActualLRPSchemaPath key.ProcessGuid key.Index) w.calls
        (StartActualLRP legal bbs key containerKey netInfo w).2.calls ∧
      KeysKept w.store (StartActualLRP legal bbs key containerKey netInfo w).2.store := by
  rcases StartActualLRP_cases legal bbs key containerKey netInfo w with
    ⟨r, hr⟩ | ⟨hn, hr⟩ | ⟨node, lrp, e, hn, hv, hr⟩ |
    ⟨node, lrp, old, hn, hv, _, _, _, _, hr⟩
  · rw [hr]
    refine ⟨h, ⟨[Call.Get (ActualLRPSchemaPath key.ProcessGuid key.Index)], rfl, ?_⟩,
      keysKept_refl _⟩
    intro c hc
    simp only [List.mem_singleton] at hc
    rw [hc]
    rfl
  · rw [hr]
    refine ⟨keyPathConsistent_put w.store (newRunningActualLRP bbs key containerKey netInfo) h,
      ⟨[Call.Get (ActualLRPSchemaPath key.ProcessGuid key.Index),
        Call.Create
          { Key := ActualLRPSchemaPath key.ProcessGuid key.Index,
            Value := Bytes.json (newRunningActualLRP bbs key containerKey netInfo),
            Index := 0 }],
        by simp [World.afterCreate], ?_⟩,
      keysKept_put_fresh w.store _ _ hn⟩
    intro c hc
    simp only [List.mem_cons, List.mem_singleton, List.mem_nil_iff, or_false] at hc
    rcases hc with hc | hc
    · rw [hc]
      rfl
    · rw [hc]
      rfl
  · rw [hr]
    have hpath := h _ node lrp hn hv
    refine ⟨h, ⟨[Call.Get (ActualLRPSchemaPath key.ProcessGuid key.Index),
      Call.CompareAndSwapByIndex node.Index
        (swapNode (startedFrom bbs lrp containerKey netInfo))],
      by simp [World.record], ?_⟩, keysKept_refl _⟩
    intro c hc
    simp only [List.mem_cons, List.mem_singleton, List.mem_nil_iff, or_false] at hc
    rcases hc with hc | hc
    · rw [hc]
      rfl
    · rw [hc]
      exact congrArg some hpath
  · rw [hr]
    have hpath := h _ node lrp hn hv
    refine ⟨keyPathConsistent_put w.store (startedFrom bbs lrp containerKey netInfo) h,
      ⟨[Call.Get (ActualLRPSchemaPath key.ProcessGuid key.Index),
        Call.CompareAndSwapByIndex node.Index
          (swapNode (startedFrom bbs lrp containerKey netInfo))],
        by simp, ?_⟩, ?_⟩
    · intro c hc
      simp only [List.mem_cons, List.mem_singleton, List.mem_nil_iff, or_false] at hc
      rcases hc with hc | hc
      · rw [hc]
        rfl
      · rw [hc]
        exact congrArg some hpath
    · simp only [hpath]
      exact keysKept_put_over w.store _ node lrp (startedFrom bbs lrp containerKey netInfo)
        hn hv rfl

/-- C19: key-path consistency is an invariant of the store. If every stored
record sits at the path computed from its own `ProcessGuid` and `Index`,
then the same holds after `CreateActualLRP`, `ClaimActualLRP`,
`StartActualLRP`, `RemoveActualLRP` and `RetireActualLRPs` (for every
legality predicate, every argument, every list and schedule); every store
call `ClaimActualLRP` and `StartActualLRP` make, the write included, goes to
the path they read from; and a path that held a record before and holds one
after either of them holds a record with the same `ProcessGuid`, `Index`
and `Domain`. -/
theorem key_path_consistency_invariant (legal : Legality) (bbs : LRPBBS)
    (desiredLRP : DesiredLRP) (index : Int) (key : ActualLRPKey)
    (containerKey : ActualLRPContainerKey) (netInfo : ActualLRPNetInfo)
    (lrps : List ActualLRP) (schedule : List Nat) (w : World)
    (h : KeyPathConsistent w.store) :
    KeyPathConsistent (CreateActualLRP bbs desiredLRP index w).2.store ∧
      KeyPathConsistent (ClaimActualLRP legal bbs key containerKey w).2.store ∧
      KeyPathConsistent (StartActualLRP legal bbs key containerKey netInfo w).2.store ∧
      KeyPathConsistent (RemoveActualLRP key containerKey w).2.store ∧
      KeyPathConsistent (RetireActualLRPs bbs lrps schedule w).store ∧
      CallsAt (ActualLRPSchemaPath key.ProcessGuid key.Index) w.calls
        (ClaimActualLRP legal bbs key containerKey w).2.calls ∧
      CallsAt (ActualLRPSchemaPath key.ProcessGuid key.Index) w.calls
        (StartActualLRP legal bbs key containerKey netInfo w).2.calls ∧
      KeysKept w.store (ClaimActualLRP legal bbs key containerKey w).2.store ∧
      KeysKept w.store (StartActualLRP legal bbs key containerKey netInfo w).2.store := by
  have hclaim := ClaimActualLRP_consistent legal bbs key containerKey w h
  have hstart := StartActualLRP_consistent legal bbs key containerKey netInfo w h
  refine ⟨?_, hclaim.1, hstart.1, ?_, ?_, hclaim.2.1, hstart.2.1, hclaim.2.2, hstart.2.2⟩
  · rcases CreateActualLRP_cases bbs desiredLRP index w with
      ⟨_, hr⟩ | ⟨old, _, _, hr⟩ | ⟨_, _, hr⟩
    · rw [hr]
      exact h
    · rw [hr]
      exact h
    · rw [hr]
      exact keyPathConsistent_put w.store (newUnclaimedActualLRP bbs desiredLRP index) h
  · rcases RemoveActualLRP_cases key containerKey w with
      ⟨e, hr, _⟩ | ⟨node, lrp, _, _, _, _, hr⟩
    · rw [hr]
      exact h
    · rw [hr]
      exact keyPathConsistent_of_onlyErased _ _ h (onlyErased_erase _ _)
  · exact keyPathConsistent_of_onlyErased _ _ h
      (RetireActualLRPs_onlyErased bbs lrps schedule w)

theorem worldWith_consistent (lrp : ActualLRP) : KeyPathConsistent (worldWith lrp).store :=
  keyPathConsistent_put Store.empty lrp (fun _ _ _ hn _ => nomatch hn)

theorem key_path_consistency_invariant_witness :
    KeyPathConsistent (worldWith unclaimedLRP).store ∧
      KeyPathConsistent
        (ClaimActualLRP allowAll exampleBBS exampleKey exampleContainerKey
          (worldWith unclaimedLRP)).2.store :=
  ⟨worldWith_consistent unclaimedLRP,
    (key_path_consistency_invariant allowAll exampleBBS exampleDesiredLRP 0 exampleKey
      exampleContainerKey exampleNetInfo [unclaimedLRP] [0] (worldWith unclaimedLRP)
      (worldWith_consistent unclaimedLRP)).2.1⟩

/-! ### Claiming on a consistent store -/

/-- C14: for every store of the data model (every stored record sits at the
path computed from its own `ProcessGuid` and `Index`) in which a record is
found at the key's path, whenever the idempotence test does not match and
the transition to Claimed is legal (for every legality predicate),
`ClaimActualLRP(key, containerKey)` run without an interleaved writer
returns success; the store then holds at that path the record read with
`State` set to Claimed, the container key set to `containerKey`, the net
info set to empty and `Since` set to now, its `ActualLRPKey` as stored
before; the version at the path has advanced and every other path holds what
it held. -/
theorem ClaimActualLRP_claims_in_place (legal : Legality) (bbs : LRPBBS)
    (key : ActualLRPKey) (containerKey : ActualLRPContainerKey) (w : World)
    (node : StoreNode) (lrp : ActualLRP)
    (hcons : KeyPathConsistent w.store)
    (hnode : w.store.nodes (ActualLRPSchemaPath key.ProcessGuid key.Index) = some node)
    (hval : FromJSON node.Value = Except.ok lrp)
    (hidem : ¬ (lrp.ActualLRPKey = key ∧ lrp.ActualLRPContainerKey = containerKey ∧
      lrp.State = ActualLRPState.Claimed))
    (hlegal : legal lrp key containerKey ActualLRPState.Claimed = true) :
    (ClaimActualLRP legal bbs key containerKey w).1 = Except.ok () ∧
      (ClaimActualLRP legal bbs key containerKey w).2.store.nodes
          (ActualLRPSchemaPath key.ProcessGuid key.Index) =
        some { Key := ActualLRPSchemaPath key.ProcessGuid key.Index,
               Value := Bytes.json
                 { ActualLRPKey := lrp.ActualLRPKey,
                   ActualLRPContainerKey := containerKey,
                   ActualLRPNetInfo := emptyNetInfo,
                   State := ActualLRPState.Claimed,
                   Since := bbs.timeProvider },
               Index := w.store.index + 1 } ∧
      node.Index < w.store.index + 1 ∧
      (∀ path, path ≠ ActualLRPSchemaPath key.ProcessGuid key.Index →
        (ClaimActualLRP legal bbs key containerKey w).2.store.nodes path =
          w.store.nodes path) := by
  have hpath : ActualLRPSchemaPath lrp.ActualLRPKey.ProcessGuid lrp.ActualLRPKey.Index =
      ActualLRPSchemaPath key.ProcessGuid key.Index :=
    hcons (ActualLRPSchemaPath key.ProcessGuid key.Index) node lrp hnode hval
  rw [ClaimActualLRP_swap_of_path legal bbs key containerKey w node lrp hnode hval hidem
    hlegal hpath]
  refine ⟨rfl, Store.put_nodes_self _ _ _, ?_, ?_⟩
  · exact Nat.lt_succ_of_le (w.store.versioned _ _ hnode)
  · intro path hp
    exact Store.put_nodes_other _ _ _ _ hp

theorem ClaimActualLRP_claims_in_place_witness :
    KeyPathConsistent (worldWith unclaimedLRP).store ∧
      (ClaimActualLRP allowAll exampleBBS exampleKey exampleContainerKey
        (worldWith unclaimedLRP)).1 = Except.ok () :=
  ⟨worldWith_consistent unclaimedLRP,
    (ClaimActualLRP_claims_in_place allowAll exampleBBS exampleKey exampleContainerKey
      (worldWith unclaimedLRP) _ unclaimedLRP (worldWith_consistent unclaimedLRP)
      (worldWith_nodes unclaimedLRP) rfl (by decide) rfl).1⟩

/-! ### Record shape -/

theorem recordShaped_of_onlyErased (s s2 : Store) (h : RecordShaped s)
    (he : OnlyErased s s2) : RecordShaped s2 := by
  intro path node lrp hn hv
  rcases he path with h2 | h2
  · exact h path node lrp (by rw [← h2]; exact hn) hv
  · rw [h2] at hn
    cases hn

theorem recordShaped_put (s : Store) (path : String) (lrp : ActualLRP)
    (h : RecordShaped s) (hs : lrp.Shaped) :
    RecordShaped (s.put path (Bytes.json lrp)) := by
  intro p node lrp2 hn hv
  by_cases hp : p = path
  · subst hp
    rw [Store.put_nodes_self] at hn
    cases hn
    cases hv
    exact hs
  · rw [Store.put_nodes_other _ _ _ _ hp] at hn
    exact h p node lrp2 hn hv

theorem unclaimedKept_refl (s : Store) : UnclaimedKept s s :=
  fun _ _ _ hn _ _ => hn

theorem unclaimedKept_of_onlyErased (s s2 : Store) (he : OnlyErased s s2) :
    UnclaimedKept s s2 := by
  intro path node lrp hn _ _
  rcases he path with h2 | h2
  · rw [← h2]
    exact hn
  · rw [h2] at hn
    cases hn

theorem unclaimedKept_put (s : Store) (path : String) (lrp : ActualLRP)
    (hs : lrp.State ≠ ActualLRPState.Unclaimed) :
    UnclaimedKept s (s.put path (Bytes.json lrp)) := by
  intro p node lrp2 hn hv hu
  by_cases hp : p = path
  · subst hp
    rw [Store.put_nodes_self] at hn
    cases hn
    cases hv
    exact absurd hu hs
  · rw [Store.put_nodes_other _ _ _ _ hp] at hn
    exact hn

theorem claimedFrom_shaped (bbs : LRPBBS) (lrp : ActualLRP)
    (containerKey : ActualLRPContainerKey) :
    (claimedFrom bbs lrp containerKey).Shaped ∧
      (claimedFrom bbs lrp containerKey).State ≠ ActualLRPState.Unclaimed := by
  refine ⟨⟨?_, ?_⟩, ?_⟩
  · intro hu
    cases hu
  · intro _
    exact ⟨rfl, Or.inl rfl⟩
  · intro hu
    cases hu

theorem running_shaped (lrp : ActualLRP) (h : lrp.State = ActualLRPState.Running) :
    lrp.Shaped ∧ lrp.State ≠ ActualLRPState.Unclaimed := by
  refine ⟨⟨?_, ?_⟩, ?_⟩
  · intro hu
    rw [h] at hu
    cases hu
  · intro hc
    rw [h] at hc
    cases hc
  · intro hu
    rw [h] at hu
    cases hu

theorem newUnclaimedActualLRP_shaped (bbs : LRPBBS) (desiredLRP : DesiredLRP) (index : Int) :
    (newUnclaimedActualLRP bbs desiredLRP index).Shaped := by
  refine ⟨?_, ?_⟩
  · intro _
    exact ⟨rfl, rfl, Or.inl rfl⟩
  · intro hc
    cases hc

/-- C20: record shape is an invariant of the store. If every stored
Unclaimed record has an empty container key and empty net info and every
stored Claimed record has empty net info, the same holds after
`CreateActualLRP`, `ClaimActualLRP`, `StartActualLRP` and `RemoveActualLRP`
(for every legality predicate and every argument). Moreover every Unclaimed
record found in the store after `ClaimActualLRP`, `StartActualLRP` or
`RemoveActualLRP` is a node the store already held at that path, and after
`CreateActualLRP` it is such a node or sits at a path that was empty: no
operation turns an existing record Unclaimed. -/
theorem record_shape_invariant (legal : Legality) (bbs : LRPBBS)
    (desiredLRP : DesiredLRP) (index : Int) (key : ActualLRPKey)
    (containerKey : ActualLRPContainerKey) (netInfo : ActualLRPNetInfo) (w : World)
    (h : RecordShaped w.store) :
    RecordShaped (CreateActualLRP bbs desiredLRP index w).2.store ∧
      RecordShaped (ClaimActualLRP legal bbs key containerKey w).2.store ∧
      RecordShaped (StartActualLRP legal bbs key containerKey netInfo w).2.store ∧
      RecordShaped (RemoveActualLRP key containerKey w).2.store ∧
      UnclaimedKeptOrFresh w.store (CreateActualLRP bbs desiredLRP index w).2.store ∧
      UnclaimedKept w.store (ClaimActualLRP legal bbs key containerKey w).2.store ∧
      UnclaimedKept w.store (StartActualLRP legal bbs key containerKey netInfo w).2.store ∧
      UnclaimedKept w.store (RemoveActualLRP key containerKey w).2.store := by
  have hcreate : RecordShaped (CreateActualLRP bbs desiredLRP index w).2.store ∧
      UnclaimedKeptOrFresh w.store (CreateActualLRP bbs desiredLRP index w).2.store := by
    rcases CreateActualLRP_cases bbs desiredLRP index w with
      ⟨_, hr⟩ | ⟨old, _, _, hr⟩ | ⟨_, hn, hr⟩
    · rw [hr]
      exact ⟨h, fun _ _ _ hn _ _ => Or.inl hn⟩
    · rw [hr]
      exact ⟨h, fun _ _ _ hn _ _ => Or.inl hn⟩
    · rw [hr]
      refine ⟨recordShaped_put _ _ _ h (newUnclaimedActualLRP_shaped bbs desiredLRP index), ?_⟩
      intro path node lrp hn2 _ _
      by_cases hp : path = ActualLRPSchemaPath desiredLRP.ProcessGuid index
      · right
        rw [hp]
        exact hn
      · left
        rw [← Store.put_nodes_other w.store _ path
          (Bytes.json (newUnclaimedActualLRP bbs desiredLRP index)) hp]
        exact hn2
  have hclaim : RecordShaped (ClaimActualLRP legal bbs key containerKey w).2.store ∧
      UnclaimedKept w.store (ClaimActualLRP legal bbs key containerKey w).2.store := by
    rcases ClaimActualLRP_cases legal bbs key containerKey w with
      ⟨r, hr⟩ | ⟨node, lrp, e, _, _, hr⟩ | ⟨node, lrp, old, _, _, _, _, _, _, hr⟩
    · rw [hr]
      exact ⟨h, unclaimedKept_refl _⟩
    · rw [hr]
      exact ⟨h, unclaimedKept_refl _⟩
    · rw [hr]
      exact ⟨recordShaped_put _ _ _ h (claimedFrom_shaped bbs lrp containerKey).1,
        unclaimedKept_put _ _ _ (claimedFrom_shaped bbs lrp containerKey).2⟩
  have hstart : RecordShaped (StartActualLRP legal bbs key containerKey netInfo w).2.store ∧
      UnclaimedKept w.store (StartActualLRP legal bbs key containerKey netInfo w).2.store := by
    rcases StartActualLRP_cases legal bbs key containerKey netInfo w with
      ⟨r, hr⟩ | ⟨_, hr⟩ | ⟨node, lrp, e, _, _, hr⟩ |
      ⟨node, lrp, old, _, _, _, _, _, _, hr⟩
    · rw [hr]
      exact ⟨h, unclaimedKept_refl _⟩
    · rw [hr]
      exact ⟨recordShaped_put _ _ _ h
          (running_shaped (newRunningActualLRP bbs key containerKey netInfo) rfl).1,
        unclaimedKept_put _ _ _
          (running_shaped (newRunningActualLRP bbs key containerKey netInfo) rfl).2⟩
    · rw [hr]
      exact ⟨h, unclaimedKept_refl _⟩
    · rw [hr]
      exact ⟨recordShaped_put _ _ _ h
          (running_shaped (startedFrom bbs lrp containerKey netInfo) rfl).1,
        unclaimedKept_put _ _ _
          (running_shaped (startedFrom bbs lrp containerKey netInfo) rfl).2⟩
  have hremove : RecordShaped (RemoveActualLRP key containerKey w).2.store ∧
      UnclaimedKept w.store (RemoveActualLRP key containerKey w).2.store := by
    rcases RemoveActualLRP_cases key containerKey w with
      ⟨e, hr, _⟩ | ⟨node, lrp, _, _, _, _, hr⟩
    · rw [hr]
      exact ⟨h, unclaimedKept_refl _⟩
    · rw [hr]
      exact ⟨recordShaped_of_onlyErased _ _ h (onlyErased_erase _ _),
        unclaimedKept_of_onlyErased _ _ (onlyErased_erase _ _)⟩
  exact ⟨hcreate.1, hclaim.1, hstart.1, hremove.1, hcreate.2, hclaim.2, hstart.2, hremove.2⟩

theorem worldWith_shaped (lrp : ActualLRP) (hs : lrp.Shaped) :
    RecordShaped (worldWith lrp).store :=
  recordShaped_put Store.empty _ lrp (fun _ _ _ hn _ => nomatch hn) hs

theorem unclaimedLRP_shaped : unclaimedLRP.Shaped := by
  refine ⟨?_, ?_⟩
  · intro _
    exact ⟨rfl, rfl, Or.inl rfl⟩
  · intro hc
    cases hc

theorem record_shape_invariant_witness :
    RecordShaped (worldWith unclaimedLRP).store ∧
      RecordShaped
        (ClaimActualLRP allowAll exampleBBS exampleKey exampleContainerKey
          (worldWith unclaimedLRP)).2.store :=
  ⟨worldWith_shaped unclaimedLRP unclaimedLRP_shaped,
    (record_shape_invariant allowAll exampleBBS exampleDesiredLRP 0 exampleKey
      exampleContainerKey exampleNetInfo (worldWith unclaimedLRP)
      (worldWith_shaped unclaimedLRP unclaimedLRP_shaped)).2.1⟩

end LRPLifecycle
